import Mathlib

/-!
# mitum-currency: operation processors

A shallow embedding of the currency operation processors of `src/currency`
(`fee.go`, `currency_policy_updater_process.go`), of the key-updater fact and
operation (`keyupdater.go`), of the multi-amount account item
(`create_accounts_multi_amounts.go`) and of the operation builder
(`digest/builder.go`), together with the parts of the package they call.  Go values are Lean values, a `nil` pointer or interface is
`Option.none`, a Go `error` result is an `Option Err` or an `Except Err _`, and
the two callbacks of a processor (`getState`, `setState`) are pure response
functions whose invocations are recorded in a `Run`.
-/

namespace MitumCurrency

/-! ## Primitive values -/

/-- A Go byte slice. -/
abbrev Bytes := List Nat

/-- The content hash `valuehash.Hash`, kept as its bytes. -/
abbrev Hash := Bytes

/-- Modelled from the spec: the currency identifier `CurrencyID` (declared outside
src/), a string. -/
abbrev CurrencyID := String

/-- Modelled from the spec: an account address `base.Address` (consensus library),
kept as its string form; a nil address is `none`. -/
abbrev Address := String

/-- Modelled from the spec: a public key `key.Publickey` (consensus library), kept
as its string form. -/
abbrev Publickey := String

/-- Modelled from the spec: `Big` (declared outside src/), an arbitrary-precision
integer. -/
abbrev Big := Int

/-- The errors the processors return.  Each constructor stands for one error site. -/
inductive Err where
  /-- The text `empty publickeys for operation signs`. -/
  | emptyPublickeys
  /-- The text `not enough suffrage signs`. -/
  | notEnoughSigns
  /-- The text `unknown currency, %q found`. -/
  | unknownCurrency (cid : CurrencyID)
  /-- The text `unknown currency id, %q found for FeeOperation`. -/
  | unknownCurrencyFee (cid : CurrencyID)
  /-- The rejection of `checkExistsState`: the state of the key does not exist. -/
  | notExist (key : String)
  /-- The text `feeer receiver account not found: %w`, wrapping its cause. -/
  | receiverNotFound (cause : Err)
  /-- The text `genesis account not found: %w`, wrapping its cause. -/
  | genesisNotFound (cause : Err)
  /-- The text `duplicated currency id`. -/
  | duplicatedCurrency (cid : CurrencyID)
  /-- An error returned by the state store through `getState` or `setState`. -/
  | store (msg : String)
  /-- A state whose value does not decode to the expected type. -/
  | invalidValue (key : String)
  /-- A nil pointer or nil interface dereference (a Go run-time fault). -/
  | nilPointer
  /-- The text `empty token for ...` of a fact. -/
  | emptyToken (what : String)
  /-- The text `wrong Fact hash`. -/
  | wrongFactHash
  /-- The text `amounts over allowed; %d > %d`. -/
  | amountsOverAllowed (n max : Nat)
  /-- An `IsValid` rejection of a value of the libraries. -/
  | invalid (what : String)
  /-- The text `empty Amounts`. -/
  | emptyAmounts
  /-- The texts `Please set ...; ... same with template default`. -/
  | pleaseSet (what : String)
  /-- The text `not operation.Operation, %T`. -/
  | notOperation
  /-- The text `unknown operation.Operation, %T`. -/
  | unknownOperation
  /-- The text `empty feeer flags`. -/
  | emptyFeeerFlags
  /-- The text `unknown feeer type, %q`. -/
  | unknownFeeerType (t : String)
  deriving DecidableEq, Repr

/-- Modelled from the spec: `Amount` (declared outside src/), a value and the
currency it is in. -/
structure Amount where
  big : Big
  cid : CurrencyID
  deriving DecidableEq, Repr

/-- Modelled from the spec: the fee policy `Feeer` (declared outside src/), the
closed set of its three implementations, each with an optional receiver.  The
ratio of a ratio feeer is a `float64`; it is carried as its bit pattern and never
computed with. -/
inductive Feeer where
  | nil
  | fixed (receiver : Option Address) (amount : Big)
  | ratio (receiver : Option Address) (ratioBits : Nat) (min max : Big)
  deriving DecidableEq, Repr

/-- Modelled from the spec: the method `Feeer.Receiver()` (declared outside
src/): the account collecting the fee, nil for none. -/
def Feeer.Receiver : Feeer → Option Address
  | .nil => none
  | .fixed receiver _ => receiver
  | .ratio receiver _ _ _ => receiver

/-- Modelled from the spec: `CurrencyPolicy` (declared outside src/), the minimum
balance of a new account and the feeer. -/
structure CurrencyPolicy where
  newAccountMinBalance : Big
  feeer : Feeer
  deriving DecidableEq, Repr

/-- Modelled from the spec: `CurrencyDesign` (declared outside src/), the genesis
amount, the genesis account and the policy of a registered currency. -/
structure CurrencyDesign where
  amount : Amount
  genesisAccount : Address
  policy : CurrencyPolicy
  deriving DecidableEq, Repr

/-- Modelled from the spec: `CurrencyDesign.SetPolicy` (the file declaring
`CurrencyDesign` is not under src/); it replaces the policy and keeps the
genesis fields. -/
def CurrencyDesign.SetPolicy (de : CurrencyDesign) (po : CurrencyPolicy) : CurrencyDesign :=
  { de with policy := po }

/-- The Go zero value of `CurrencyDesign`. -/
def CurrencyDesign.zero : CurrencyDesign :=
  { amount := { big := 0, cid := "" }, genesisAccount := "", policy := { newAccountMinBalance := 0, feeer := .nil } }

/-! ## States and the state store -/

/-- Modelled from the spec: the value a state holds: nothing yet, an account, a
balance or a currency design. -/
inductive StateValue where
  | empty
  | account (address : Address)
  | balance (am : Amount)
  | design (de : CurrencyDesign)
  deriving DecidableEq, Repr

/-- Modelled from the spec: a state of the store, `state.State` (consensus
library): a value addressed by a string key. -/
structure State where
  key : String
  value : StateValue
  deriving DecidableEq, Repr

/-- The callback `getState(key) -> (state, found, err)`. -/
abbrev GetState := String → Except Err (State × Bool)

/-- The callback `setState(hash, states...) -> err`; a nil state of the variadic
argument is `none`. -/
abbrev SetState := Hash → List (Option State) → Option Err

/-- A run of a processor method: what it returns, the keys it passed to
`getState` in call order, and the argument lists it passed to `setState` in call
order. -/
structure Run (α : Type) where
  result : Except Err α
  reads : List String
  writes : List (Hash × List (Option State))

/-- Modelled from the spec: `StateKeyAccount` (not under src/), the key
`"account:<address>"`. -/
def StateKeyAccount (a : Address) : String := "account:" ++ a

/-- Modelled from the spec: `StateKeyBalance` (not under src/), the key
`"balance:<address>:<currency>"`. -/
def StateKeyBalance (a : Address) (cid : CurrencyID) : String := "balance:" ++ a ++ ":" ++ cid

/-- Modelled from the spec: `StateKeyCurrencyDesign` (not under src/), the key
`"currency-design:<currency>"`. -/
def StateKeyCurrencyDesign (cid : CurrencyID) : String := "currency-design:" ++ cid

/-- Modelled from the spec: `checkExistsState` (not under src/): one `getState`
call on the key; a store error is passed on, a key that is not found is rejected
with `does not exist`. -/
def checkExistsState (key : String) (getState : GetState) : Option Err :=
  match getState key with
  | .error e => some e
  | .ok (_, false) => some (.notExist key)
  | .ok (_, true) => none

/-- Modelled from the spec: `StateCurrencyDesignValue` (not under src/): the
design a currency-design state holds, an error for any other value. -/
def StateCurrencyDesignValue (st : State) : Except Err CurrencyDesign :=
  match st.value with
  | .design de => .ok de
  | _ => .error (.invalidValue st.key)

/-- Modelled from the spec: `SetStateCurrencyDesignValue` (not under src/): the
state with the same key holding the given design. -/
def SetStateCurrencyDesignValue (st : State) (de : CurrencyDesign) : Except Err State :=
  .ok { st with value := .design de }

/-- Modelled from the spec: `StateBalanceValue` (not under src/): the amount a
balance state holds, an error for any other value. -/
def StateBalanceValue (st : State) : Except Err Amount :=
  match st.value with
  | .balance am => .ok am
  | _ => .error (.invalidValue st.key)

/-- Modelled from the spec: the balance a state stands for: the value of its
amount, zero for a state that holds no amount yet. -/
def State.balanceBig (st : State) : Big :=
  match st.value with
  | .balance am => am.big
  | _ => 0

/-- Modelled from the spec: `AmountState` (not under src/): a balance state of
one currency together with the amount to be credited to it. -/
structure AmountState where
  st : State
  cid : CurrencyID
  add : Big
  deriving DecidableEq, Repr

/-- Modelled from the spec: `NewAmountState` (not under src/): the balance state
of the currency with nothing credited yet. -/
def NewAmountState (st : State) (cid : CurrencyID) : AmountState :=
  { st := st, cid := cid, add := 0 }

/-- Modelled from the spec: `AmountState.Add` (not under src/): credits the
amount. -/
def AmountState.Add (s : AmountState) (a : Big) : AmountState :=
  { s with add := s.add + a }

/-- Modelled from the spec: an `AmountState` seen as the `state.State` it
implements: the key of the state it wraps, holding the credited balance. -/
def AmountState.State (s : AmountState) : State :=
  { key := s.st.key, value := .balance { big := s.st.balanceBig + s.add, cid := s.cid } }

/-! ## Currency pool -/

/-- Modelled from the spec: `CurrencyPool` (not under src/), the map from
`CurrencyID` to `CurrencyDesign` consulted by the processors.  Its call sites
under src/ pass it no state reader, so it answers from its entries. -/
structure CurrencyPool where
  demap : List (CurrencyID × CurrencyDesign)
  deriving DecidableEq, Repr

/-- Modelled from the spec: `Design(cid) -> (CurrencyDesign, found)`. -/
def CurrencyPool.Design (cp : CurrencyPool) (cid : CurrencyID) : Option CurrencyDesign :=
  (cp.demap.find? (fun e => e.1 == cid)).map (fun e => e.2)

/-- Modelled from the spec: `Exists(cid) -> bool`. -/
def CurrencyPool.Exists (cp : CurrencyPool) (cid : CurrencyID) : Bool :=
  (cp.Design cid).isSome

/-- Modelled from the spec: `Feeer(cid) -> (Feeer, found)`. -/
def CurrencyPool.Feeer (cp : CurrencyPool) (cid : CurrencyID) : Option Feeer :=
  (cp.Design cid).map (fun de => de.policy.feeer)

/-! ## Fact signs and the threshold check -/

/-- Modelled from the spec: a fact sign `operation.FactSign` (consensus library):
signer, signature, signed-at time. -/
structure FactSign where
  signer : Publickey
  signature : Bytes
  signedAt : Nat
  deriving DecidableEq, Repr

/-- Modelled from the spec: the type `base.Threshold` of the consensus library:
the number of keys, the number of them that is required, and the percent it was
made from. -/
structure Threshold where
  total : Nat
  threshold : Nat
  percent : Nat
  deriving DecidableEq, Repr

/-- Modelled from the spec: the constructor `base.NewThreshold(total, percent)` of
the consensus library, for a whole-number percent: the required number is
`ceil(total * percent / 100)`, so that 100 percent requires every key. -/
def NewThreshold (total percent : Nat) : Threshold :=
  { total := total, threshold := (total * percent + 99) / 100, percent := percent }

/-- Modelled from the spec: step 2 of `CheckFactSigns`: for each required key,
search the signs for one of that signer and accumulate.  The keys of a processor
carry no weight (`pubs []key.Publickey`), so each matched key counts one; the
call site passes neither the fact nor a network id, so a sign matches by its
signer. -/
def matchedSigns (signs : List FactSign) : List Publickey → Nat
  | [] => 0
  | p :: ps => (if signs.any (fun s => s.signer == p) then 1 else 0) + matchedSigns signs ps

/-- Modelled from the spec: `checkFactSignsByPubs` (not under src/), the
`CheckFactSigns` of the spec: fails `EmptyPubkeys` on an empty key set, succeeds
iff the accumulated matches reach the threshold, otherwise `NotEnoughSigns`. -/
def checkFactSignsByPubs (pubs : List Publickey) (threshold : Threshold)
    (signs : List FactSign) : Option Err :=
  if pubs.length < 1 then some .emptyPublickeys
  else if matchedSigns signs pubs < threshold.threshold then some .notEnoughSigns
  else none

/-! ## Fee operation (`fee.go`) -/

/-- The struct `FeeOperationFact`. -/
structure FeeOperationFact where
  h : Hash
  token : Bytes
  amounts : List Amount
  deriving DecidableEq, Repr

/-- The struct `FeeOperation`. -/
structure FeeOperation where
  fact : FeeOperationFact
  h : Hash
  deriving DecidableEq, Repr

/-- The struct `FeeOperationProcessor`; the pool pointer may be nil. -/
structure FeeOperationProcessor where
  op : FeeOperation
  cp : Option CurrencyPool

/-- The body of the loop of `FeeOperationProcessor.Process` for one amount: the
state to store at the index of the amount (`none` when the index is left
untouched by `continue`) or the error returned, with the keys read.  The pool is
used without a nil check, so `opp.cp.Feeer` on a nil pool is a fault. -/
def FeeOperationProcessor.processAmount (cp : Option CurrencyPool) (getState : GetState)
    (am : Amount) : Except Err (Option State) × List String :=
  match cp with
  | none => (.error .nilPointer, [])
  | some pool =>
    match pool.Feeer am.cid with
    | none => (.error (.unknownCurrencyFee am.cid), [])
    | some feeer =>
      match feeer.Receiver with
      | none => (.ok none, [])
      | some receiver =>
        match checkExistsState (StateKeyAccount receiver) getState with
        | some e => (.error e, [StateKeyAccount receiver])
        | none =>
          match getState (StateKeyBalance receiver am.cid) with
          | .error e => (.error e, [StateKeyAccount receiver, StateKeyBalance receiver am.cid])
          | .ok (st, _) =>
            let rb := NewAmountState st am.cid
            (.ok (some (rb.Add am.big).State),
              [StateKeyAccount receiver, StateKeyBalance receiver am.cid])

/-- The loop of `FeeOperationProcessor.Process`: the slice `sts`, one slot per
amount in the order of the amounts, or the first error. -/
def FeeOperationProcessor.collect (cp : Option CurrencyPool) (getState : GetState) :
    List Amount → Except Err (List (Option State)) × List String
  | [] => (.ok [], [])
  | am :: rest =>
    match FeeOperationProcessor.processAmount cp getState am with
    | (.error e, rs) => (.error e, rs)
    | (.ok slot, rs) =>
      match FeeOperationProcessor.collect cp getState rest with
      | (.error e, rs2) => (.error e, rs ++ rs2)
      | (.ok sts, rs2) => (.ok (slot :: sts), rs ++ rs2)

/-- The method `FeeOperationProcessor.Process`. -/
def FeeOperationProcessor.Process (opp : FeeOperationProcessor) (getState : GetState)
    (setState : SetState) : Run Unit :=
  let fact := opp.op.fact
  match FeeOperationProcessor.collect opp.cp getState fact.amounts with
  | (.error e, rs) => { result := .error e, reads := rs, writes := [] }
  | (.ok sts, rs) =>
    { result := match setState fact.h sts with
        | some e => .error e
        | none => .ok ()
      reads := rs
      writes := [(fact.h, sts)] }

/-! ## Currency policy updater (`currency_policy_updater_process.go`) -/

/-- Modelled from the spec: the struct `CurrencyPolicyUpdaterFact` (declared
outside src/): hash, token, currency and the new policy. -/
structure CurrencyPolicyUpdaterFact where
  h : Hash
  token : Bytes
  cid : CurrencyID
  policy : CurrencyPolicy
  deriving DecidableEq, Repr

/-- Modelled from the spec: the operation `CurrencyPolicyUpdater` (declared
outside src/): fact, fact signs, memo and hash. -/
structure CurrencyPolicyUpdater where
  fact : CurrencyPolicyUpdaterFact
  fs : List FactSign
  memo : String
  h : Hash
  deriving DecidableEq, Repr

/-- Modelled from the spec: the method `Signs()` of the operation: its ordered
list of fact signs. -/
def CurrencyPolicyUpdater.Signs (op : CurrencyPolicyUpdater) : List FactSign := op.fs

/-- The struct `CurrencyPolicyUpdaterProcessor`; `cp` and `st` may be nil. -/
structure CurrencyPolicyUpdaterProcessor where
  op : CurrencyPolicyUpdater
  cp : Option CurrencyPool
  pubs : List Publickey
  threshold : Threshold
  st : Option State
  de : CurrencyDesign
  deriving DecidableEq, Repr

/-- The processor `NewCurrencyPolicyUpdaterProcessor(cp, pubs, threshold)` builds
for an operation. -/
def NewCurrencyPolicyUpdaterProcessor (cp : Option CurrencyPool) (pubs : List Publickey)
    (threshold : Threshold) (op : CurrencyPolicyUpdater) : CurrencyPolicyUpdaterProcessor :=
  { op := op, cp := cp, pubs := pubs, threshold := threshold, st := none, de := CurrencyDesign.zero }

/-- The method `CurrencyPolicyUpdaterProcessor.PreProcess`. -/
def CurrencyPolicyUpdaterProcessor.PreProcess (opp : CurrencyPolicyUpdaterProcessor)
    (getState : GetState) (_setState : SetState) : Run CurrencyPolicyUpdaterProcessor :=
  if opp.pubs.length < 1 then
    { result := .error .emptyPublickeys, reads := [], writes := [] }
  else
    match checkFactSignsByPubs opp.pubs opp.threshold opp.op.Signs with
    | some err => { result := .error err, reads := [], writes := [] }
    | none =>
      let fact := opp.op.fact
      let unknown : Bool :=
        match opp.cp with
        | some cp => !cp.Exists fact.cid
        | none => false
      if unknown then
        { result := .error (.unknownCurrency fact.cid), reads := [], writes := [] }
      else
        let chk : Option Err × List String :=
          match fact.policy.feeer.Receiver with
          | some receiver =>
            (checkExistsState (StateKeyAccount receiver) getState, [StateKeyAccount receiver])
          | none => (none, [])
        match chk.1 with
        | some err => { result := .error (.receiverNotFound err), reads := chk.2, writes := [] }
        | none =>
          let rs := chk.2 ++ [StateKeyCurrencyDesign fact.cid]
          match getState (StateKeyCurrencyDesign fact.cid) with
          | .error err => { result := .error err, reads := rs, writes := [] }
          | .ok (_, false) =>
            { result := .error (.unknownCurrency fact.cid), reads := rs, writes := [] }
          | .ok (st, true) =>
            match StateCurrencyDesignValue st with
            | .error err => { result := .error err, reads := rs, writes := [] }
            | .ok de =>
              { result := .ok { opp with st := some st, de := de }, reads := rs, writes := [] }

/-- The method `CurrencyPolicyUpdaterProcessor.Process`. -/
def CurrencyPolicyUpdaterProcessor.Process (opp : CurrencyPolicyUpdaterProcessor)
    (_getState : GetState) (setState : SetState) : Run Unit :=
  let fact := opp.op.fact
  match opp.st with
  | none => { result := .error .nilPointer, reads := [], writes := [] }
  | some st =>
    match SetStateCurrencyDesignValue st (opp.de.SetPolicy fact.policy) with
    | .error err => { result := .error err, reads := [], writes := [] }
    | .ok i =>
      { result := match setState fact.h [some i] with
          | some e => .error e
          | none => .ok ()
        reads := []
        writes := [(fact.h, [some i])] }

/-! ## Concrete inputs -/

/-- A store without errors: every key in the list is found with its state, any
other key is reported as not found with an empty state of that key. -/
def storeOf (sts : List State) : GetState := fun k =>
  match sts.find? (fun st => st.key == k) with
  | some st => .ok (st, true)
  | none => .ok ({ key := k, value := .empty }, false)

/-- A `setState` that accepts every write. -/
def acceptAll : SetState := fun _ _ => none

/-- A design of the currency `SHOWME` whose fixed feeer pays the account `fee-receiver`. -/
def showmeFixed : CurrencyDesign :=
  { amount := { big := 100, cid := "SHOWME" }, genesisAccount := "genesis",
    policy := { newAccountMinBalance := 0, feeer := .fixed (some "fee-receiver") 1 } }

/-- A design of the currency `FINDME` with the nil feeer. -/
def findmeNil : CurrencyDesign :=
  { amount := { big := 33, cid := "FINDME" }, genesisAccount := "genesis",
    policy := { newAccountMinBalance := 0, feeer := .nil } }

/-- A pool knowing `SHOWME` (fixed feeer with a receiver) and `FINDME` (nil feeer). -/
def twoCurrencies : CurrencyPool := { demap := [("SHOWME", showmeFixed), ("FINDME", findmeNil)] }

/-- A store in which the fee receiver has an account and a `SHOWME` balance of 7. -/
def receiverStore : GetState :=
  storeOf [{ key := "account:fee-receiver", value := .account "fee-receiver" },
           { key := "balance:fee-receiver:SHOWME", value := .balance { big := 7, cid := "SHOWME" } }]

/-- A fee settlement of 5 `SHOWME`. -/
def feeShowme : FeeOperationProcessor :=
  { op := { fact := { h := [1], token := [0], amounts := [{ big := 5, cid := "SHOWME" }] }, h := [2] },
    cp := some twoCurrencies }

/-- A fee settlement of 4 `FINDME`, whose feeer has no receiver. -/
def feeFindme : FeeOperationProcessor :=
  { op := { fact := { h := [3], token := [0], amounts := [{ big := 4, cid := "FINDME" }] }, h := [4] },
    cp := some twoCurrencies }

/-- A fee settlement of a currency the pool does not know. -/
def feeUnknown : FeeOperationProcessor :=
  { op := { fact := { h := [5], token := [0], amounts := [{ big := 4, cid := "NOPE" }] }, h := [6] },
    cp := some twoCurrencies }

/-! ## Currency register processor -/

/-- Modelled from the spec: the struct `CurrencyRegisterFact` (declared outside
src/): hash, token and the design to register. -/
structure CurrencyRegisterFact where
  h : Hash
  token : Bytes
  currency : CurrencyDesign
  deriving DecidableEq, Repr

/-- Modelled from the spec: the operation `CurrencyRegister` (declared outside
src/): fact, fact signs, memo and hash. -/
structure CurrencyRegister where
  fact : CurrencyRegisterFact
  fs : List FactSign
  memo : String
  h : Hash
  deriving DecidableEq, Repr

/-- Modelled from the spec: the method `Signs()` of the operation: its ordered
list of fact signs. -/
def CurrencyRegister.Signs (op : CurrencyRegister) : List FactSign := op.fs

/-- Modelled from the spec: the struct `CurrencyRegisterProcessor` (declared
outside src/), with the fields `NewCurrencyRegisterProcessor(cp, pubs, threshold)`
is given in the test. -/
structure CurrencyRegisterProcessor where
  op : CurrencyRegister
  cp : Option CurrencyPool
  pubs : List Publickey
  threshold : Threshold
  deriving DecidableEq, Repr

/-- The processor the test `TestEmptyPubs` builds,
`&CurrencyRegisterProcessor{CurrencyRegister: i}`: every other field has its zero
value. -/
def CurrencyRegisterProcessor.ofOperation (op : CurrencyRegister) : CurrencyRegisterProcessor :=
  { op := op, cp := none, pubs := [], threshold := { total := 0, threshold := 0, percent := 0 } }

/-- Modelled from the spec: `CurrencyRegisterProcessor.PreProcess` (not under
src/): signed by the operator key set meeting the threshold; the currency is not
already registered, in the pool or in the state; the genesis account exists; the
fee receiver, if any, exists. -/
def CurrencyRegisterProcessor.PreProcess (opp : CurrencyRegisterProcessor)
    (getState : GetState) (_setState : SetState) : Run CurrencyRegisterProcessor :=
  match checkFactSignsByPubs opp.pubs opp.threshold opp.op.Signs with
  | some err => { result := .error err, reads := [], writes := [] }
  | none =>
    let item := opp.op.fact.currency
    let known : Bool :=
      match opp.cp with
      | some cp => cp.Exists item.amount.cid
      | none => false
    if known then
      { result := .error (.duplicatedCurrency item.amount.cid), reads := [], writes := [] }
    else
      match checkExistsState (StateKeyAccount item.genesisAccount) getState with
      | some err =>
        { result := .error (.genesisNotFound err),
          reads := [StateKeyAccount item.genesisAccount], writes := [] }
      | none =>
        let chk : Option Err × List String :=
          match item.policy.feeer.Receiver with
          | some receiver =>
            (checkExistsState (StateKeyAccount receiver) getState, [StateKeyAccount receiver])
          | none => (none, [])
        match chk.1 with
        | some err =>
          { result := .error (.receiverNotFound err),
            reads := StateKeyAccount item.genesisAccount :: chk.2, writes := [] }
        | none =>
          let rs := StateKeyAccount item.genesisAccount :: chk.2 ++
            [StateKeyCurrencyDesign item.amount.cid]
          match getState (StateKeyCurrencyDesign item.amount.cid) with
          | .error err => { result := .error err, reads := rs, writes := [] }
          | .ok (_, true) =>
            { result := .error (.duplicatedCurrency item.amount.cid), reads := rs, writes := [] }
          | .ok (_, false) => { result := .ok opp, reads := rs, writes := [] }

/-! ## Concrete inputs: operator-signed operations -/

/-- A fact sign of the given signer. -/
def signOf (signer : Publickey) : FactSign := { signer := signer, signature := [7], signedAt := 0 }

/-- Three operator keys. -/
def threeKeys : List Publickey := ["key-a", "key-b", "key-c"]

/-- A store holding the design state of `SHOWME` and the account of the fee receiver. -/
def designStore : GetState :=
  storeOf [{ key := "currency-design:SHOWME", value := .design showmeFixed },
           { key := "account:fee-receiver", value := .account "fee-receiver" }]

/-- A store holding nothing: every key is reported as not found. -/
def emptyStore : GetState := storeOf []

/-- A new policy with the nil feeer and a minimum balance of 3. -/
def policyNil : CurrencyPolicy := { newAccountMinBalance := 3, feeer := .nil }

/-- A new policy whose fixed feeer pays the account `nobody`. -/
def policyNobody : CurrencyPolicy := { newAccountMinBalance := 3, feeer := .fixed (some "nobody") 2 }

/-- A policy update of `SHOWME` with the given policy and signers. -/
def updateShowme (po : CurrencyPolicy) (signers : List Publickey) : CurrencyPolicyUpdater :=
  { fact := { h := [9], token := [1], cid := "SHOWME", policy := po },
    fs := signers.map signOf, memo := "", h := [10] }

/-- The processor of three keys at 100 percent, without a pool, for a policy
update of `SHOWME` to the nil-feeer policy signed by the given signers. -/
def updaterBy (signers : List Publickey) : CurrencyPolicyUpdaterProcessor :=
  NewCurrencyPolicyUpdaterProcessor none threeKeys (NewThreshold 3 100) (updateShowme policyNil signers)

/-- The same update, fully signed, handed to a processor without public keys. -/
def updaterNoKeys : CurrencyPolicyUpdaterProcessor :=
  NewCurrencyPolicyUpdaterProcessor none [] (NewThreshold 0 100) (updateShowme policyNil threeKeys)

/-- A registration of `FINDME`, signed by the given signers. -/
def registerFindme (signers : List Publickey) : CurrencyRegister :=
  { fact := { h := [11], token := [2], currency := findmeNil },
    fs := signers.map signOf, memo := "", h := [12] }

/-- The register processor of three keys at 100 percent, without a pool. -/
def registerBy (signers : List Publickey) : CurrencyRegisterProcessor :=
  { op := registerFindme signers, cp := none, pubs := threeKeys, threshold := NewThreshold 3 100 }

/-- A store in which the genesis account exists and holds 10 `SHOWME`. -/
def genesisStore : GetState :=
  storeOf [{ key := "account:genesis", value := .account "genesis" },
           { key := "balance:genesis:SHOWME", value := .balance { big := 10, cid := "SHOWME" } }]

/-- A pool that reports `SHOWME` as existing. -/
def showmePool : CurrencyPool := { demap := [("SHOWME", showmeFixed)] }

/-! ## Byte forms, hashes and validity of values -/

/-- Modelled from the spec: one key of an account with its weight (declared
outside src/). -/
structure Key where
  key : Publickey
  weight : Nat
  deriving DecidableEq, Repr

/-- Modelled from the spec: `Keys` (declared outside src/), the ordered keys of an
account with their weights, and a threshold. -/
structure Keys where
  keys : List Key
  threshold : Nat
  deriving DecidableEq, Repr

/-- Modelled from the spec: the contracts of the values the facts and operations
are made of, none of which is declared under src/: the hash function
`valuehash.NewSHA256`, the canonical byte form `Bytes()` of each kind of value,
and the `IsValid(nil)` of each kind of value (`none` for a valid one).  Every
definition below takes them as a parameter. -/
structure Primitives where
  NewSHA256 : Bytes → Hash
  heightBytes : Int → Bytes
  addressBytes : Address → Bytes
  keysBytes : Keys → Bytes
  currencyBytes : CurrencyID → Bytes
  amountBytes : Amount → Bytes
  factSignBytes : FactSign → Bytes
  memoBytes : String → Bytes
  hashIsValid : Hash → Option Err
  addressIsValid : Address → Option Err
  keysIsValid : Keys → Option Err
  currencyIsValid : CurrencyID → Option Err
  amountIsValid : Amount → Option Err
  /-- The checks `operation.NewBaseOperationFromFact` makes on the fact signs. -/
  checkFactSigns : List FactSign → Option Err
  /-- The sign list `BaseOperation.AddFactSigns` makes of the signs of the
  operation and the signs to add, or its error. -/
  updateFactSigns : List FactSign → List FactSign → Except Err (List FactSign)
  /-- The hash `operation.BaseOperation` gives itself from the hash of its fact
  and its signs. -/
  baseOperationHash : Hash → List FactSign → Hash

/-- Modelled from the spec: `util.ConcatBytesSlice` of the library: the
concatenation of the slices in order. -/
def ConcatBytesSlice : List Bytes → Bytes
  | [] => []
  | b :: bs => b ++ ConcatBytesSlice bs

/-- Modelled from the spec: `isvalid.Check` of the library over the results of the
`IsValid` of each value in order: the first error, if any. -/
def isvalidCheck : List (Option Err) → Option Err
  | [] => none
  | some err :: _ => some err
  | none :: rest => isvalidCheck rest

/-- Modelled from the spec: the constructor `NewAmount` (declared outside src/). -/
def NewAmount (big : Big) (cid : CurrencyID) : Amount := { big := big, cid := cid }

/-! ## Key updater (`keyupdater.go`) -/

/-- The struct `KeyUpdaterFact`; the hash and the target are taken non-nil. -/
structure KeyUpdaterFact where
  h : Hash
  token : Bytes
  target : Address
  keys : Keys
  currency : CurrencyID
  deriving DecidableEq, Repr

/-- The method `KeyUpdaterFact.Hash`. -/
def KeyUpdaterFact.Hash (fact : KeyUpdaterFact) : Hash := fact.h

/-- The method `KeyUpdaterFact.Bytes`. -/
def KeyUpdaterFact.Bytes (P : Primitives) (fact : KeyUpdaterFact) : Bytes :=
  ConcatBytesSlice [fact.token, P.addressBytes fact.target, P.keysBytes fact.keys,
    P.currencyBytes fact.currency]

/-- The method `KeyUpdaterFact.GenerateHash`. -/
def KeyUpdaterFact.GenerateHash (P : Primitives) (fact : KeyUpdaterFact) : MitumCurrency.Hash :=
  P.NewSHA256 (fact.Bytes P)

/-- The constructor `NewKeyUpdaterFact`. -/
def NewKeyUpdaterFact (P : Primitives) (token : Bytes) (target : Address) (keys : Keys)
    (currency : CurrencyID) : KeyUpdaterFact :=
  let fact : KeyUpdaterFact :=
    { h := [], token := token, target := target, keys := keys, currency := currency }
  { fact with h := fact.GenerateHash P }

/-- The method `KeyUpdaterFact.IsValid`. -/
def KeyUpdaterFact.IsValid (P : Primitives) (fact : KeyUpdaterFact) : Option Err :=
  if fact.token.length < 1 then some (.emptyToken "KeyUpdaterFact")
  else
    match isvalidCheck [P.hashIsValid fact.h, P.addressIsValid fact.target,
        P.keysIsValid fact.keys, P.currencyIsValid fact.currency] with
    | some err => some err
    | none =>
      if ¬ fact.h = fact.GenerateHash P then some .wrongFactHash
      else none

/-- Modelled from the spec: `operation.BaseOperation` of the library, for a
key-updater fact: the fact, its ordered fact signs and the stored hash. -/
structure BaseOperation where
  fact : KeyUpdaterFact
  fs : List FactSign
  h : Hash
  deriving DecidableEq, Repr

/-- Modelled from the spec: `BaseOperation.SetHash` of the library: the same
operation with the given stored hash. -/
def BaseOperation.SetHash (bo : BaseOperation) (h : Hash) : BaseOperation := { bo with h := h }

/-- Modelled from the spec: `operation.NewBaseOperationFromFact` of the library:
the operation of the fact and the signs, or the error of its checks. -/
def NewBaseOperationFromFact (P : Primitives) (fact : KeyUpdaterFact) (fs : List FactSign) :
    Except Err BaseOperation :=
  match P.checkFactSigns fs with
  | some err => .error err
  | none => .ok { fact := fact, fs := fs, h := P.baseOperationHash fact.h fs }

/-- Modelled from the spec: `BaseOperation.AddFactSigns` of the library: a new
operation value of the same fact with the updated sign list and a recomputed
hash, or the error of the sign update. -/
def BaseOperation.AddFactSigns (P : Primitives) (bo : BaseOperation) (fs : List FactSign) :
    Except Err BaseOperation :=
  match P.updateFactSigns bo.fs fs with
  | .error err => .error err
  | .ok nfs => .ok { bo with fs := nfs, h := P.baseOperationHash bo.fact.h nfs }

/-- The struct `KeyUpdater`: the embedded base operation and the memo. -/
structure KeyUpdater where
  base : BaseOperation
  Memo : String
  deriving DecidableEq, Repr

/-- The promoted method `Signs()`. -/
def KeyUpdater.Signs (op : KeyUpdater) : List FactSign := op.base.fs

/-- The promoted method `Fact()`. -/
def KeyUpdater.Fact (op : KeyUpdater) : KeyUpdaterFact := op.base.fact

/-- The promoted method `Hash()`. -/
def KeyUpdater.Hash (op : KeyUpdater) : Hash := op.base.h

/-- The method `KeyUpdater.GenerateHash`. -/
def KeyUpdater.GenerateHash (P : Primitives) (op : KeyUpdater) : MitumCurrency.Hash :=
  let bs : List Bytes := op.Signs.map P.factSignBytes ++ [P.memoBytes op.Memo]
  let e := ConcatBytesSlice [op.Fact.Hash, ConcatBytesSlice bs]
  P.NewSHA256 e

/-- The constructor `NewKeyUpdater`. -/
def NewKeyUpdater (P : Primitives) (fact : KeyUpdaterFact) (fs : List FactSign)
    (memo : String) : Except Err KeyUpdater :=
  match NewBaseOperationFromFact P fact fs with
  | .error err => .error err
  | .ok bo =>
    let op : KeyUpdater := { base := bo, Memo := memo }
    .ok { op with base := bo.SetHash (op.GenerateHash P) }

/-- The method `KeyUpdater.AddFactSigns`; the receiver is a value, so the
operation it is called on is not changed. -/
def KeyUpdater.AddFactSigns (P : Primitives) (op : KeyUpdater) (fs : List FactSign) :
    Except Err KeyUpdater :=
  match op.base.AddFactSigns P fs with
  | .error err => .error err
  | .ok o =>
    let op1 : KeyUpdater := { op with base := o }
    .ok { op1 with base := op1.base.SetHash (op1.GenerateHash P) }

/-! ## Fee operation fact (`fee.go`) -/

/-- The method `FeeOperationFact.Hash`. -/
def FeeOperationFact.Hash (fact : FeeOperationFact) : Hash := fact.h

/-- The method `FeeOperationFact.Bytes`. -/
def FeeOperationFact.Bytes (P : Primitives) (fact : FeeOperationFact) : Bytes :=
  ConcatBytesSlice (fact.token :: fact.amounts.map P.amountBytes)

/-- The index expression `ams[cid]` on a Go map given by its entries. -/
def mapIndex (ams : List (CurrencyID × Big)) (cid : CurrencyID) : Big :=
  match ams.find? (fun e => e.1 == cid) with
  | some e => e.2
  | none => 0

/-- The constructor `NewFeeOperationFact(height, ams)`.  The map `ams` is given by
its entries in the order `for cid := range ams` visits them, an order Go leaves
unspecified: the same map may be visited in any permutation of its entries. -/
def NewFeeOperationFact (P : Primitives) (height : Int) (ams : List (CurrencyID × Big)) :
    FeeOperationFact :=
  let amounts := ams.map (fun e => NewAmount (mapIndex ams e.1) e.1)
  let fact : FeeOperationFact := { h := [], token := P.heightBytes height, amounts := amounts }
  { fact with h := P.NewSHA256 (fact.Bytes P) }

/-- The loop of `FeeOperationFact.IsValid` over the amounts: the first error. -/
def FeeOperationFact.IsValid.amounts (P : Primitives) : List Amount → Option Err
  | [] => none
  | am :: rest =>
    match P.amountIsValid am with
    | some err => some err
    | none => FeeOperationFact.IsValid.amounts P rest

/-- The method `FeeOperationFact.IsValid`. -/
def FeeOperationFact.IsValid (P : Primitives) (fact : FeeOperationFact) : Option Err :=
  if fact.token.length < 1 then some (.emptyToken "FeeOperationFact")
  else
    match P.hashIsValid fact.h with
    | some err => some err
    | none => FeeOperationFact.IsValid.amounts P fact.amounts

/-! ## Account items (`create_accounts_multi_amounts.go`) -/

/-- Modelled from the spec: `BaseCreateAccountsItem` (declared outside src/): the
keys of the new account and the amounts it is given. -/
structure BaseCreateAccountsItem where
  keys : Keys
  amounts : List Amount
  deriving DecidableEq, Repr

/-- The variable `maxCurenciesCreateAccountsItemMultiAmounts`. -/
def maxCurenciesCreateAccountsItemMultiAmounts : Nat := 10

/-- The struct `CreateAccountsItemMultiAmounts`. -/
structure CreateAccountsItemMultiAmounts where
  base : BaseCreateAccountsItem
  deriving DecidableEq, Repr

/-- The method `CreateAccountsItemMultiAmounts.IsValid`; the `IsValid` of the
embedded base item, which is not under src/, is a parameter. -/
def CreateAccountsItemMultiAmounts.IsValid (baseIsValid : BaseCreateAccountsItem → Option Err)
    (it : CreateAccountsItemMultiAmounts) : Option Err :=
  match baseIsValid it.base with
  | some err => some err
  | none =>
    let n := it.base.amounts.length
    if n > maxCurenciesCreateAccountsItemMultiAmounts then
      some (.amountsOverAllowed n maxCurenciesCreateAccountsItemMultiAmounts)
    else none

/-! ## Concrete inputs: facts and hashes -/

/-- The bytes of a string taken character by character. -/
def charBytes (s : String) : Bytes := s.data.map Char.toNat

/-- A stand-in for the primitives on concrete inputs: the hash of some bytes is
their length followed by the bytes themselves (not SHA256, but a function of the
bytes), a value is written as its characters or digits, and a value is invalid
only when it is empty. -/
def plainPrimitives : Primitives :=
  { NewSHA256 := fun b => b.length :: b
    heightBytes := fun h => [h.toNat]
    addressBytes := charBytes
    keysBytes := fun ks =>
      ks.threshold :: ConcatBytesSlice (ks.keys.map (fun k => charBytes k.key ++ [k.weight]))
    currencyBytes := charBytes
    amountBytes := fun am => am.big.toNat :: charBytes am.cid
    factSignBytes := fun s => charBytes s.signer ++ s.signature
    memoBytes := charBytes
    hashIsValid := fun h => if h.length < 1 then some (.invalid "hash") else none
    addressIsValid := fun a => if a.length < 1 then some (.invalid "address") else none
    keysIsValid := fun ks => if ks.keys.length < 1 then some (.invalid "keys") else none
    currencyIsValid := fun c => if c.length < 1 then some (.invalid "currency") else none
    amountIsValid := fun am => if am.big < 0 then some (.invalid "amount") else none
    checkFactSigns := fun fs => if fs.length < 1 then some (.invalid "signs") else none
    updateFactSigns := fun old new =>
      if new.any (fun s => old.any (fun o => o.signer == s.signer)) then
        .error (.invalid "already signed")
      else .ok (old ++ new)
    baseOperationHash := fun h fs => h ++ ConcatBytesSlice (fs.map (fun s => s.signature)) }

/-- A key set of one key. -/
def oneKey : Keys := { keys := [{ key := "key-a", weight := 100 }], threshold := 100 }

/-- A fee fact with a well-formed stored hash that is not the hash of its bytes. -/
def feeFactWrongHash : FeeOperationFact :=
  { h := [1, 2, 3], token := [0], amounts := [{ big := 5, cid := "SHOWME" }] }

/-- A fee settlement of 5 `SHOWME` by a processor built with a nil pool. -/
def feeNilPool : FeeOperationProcessor :=
  { op := { fact := { h := [1], token := [0], amounts := [{ big := 5, cid := "SHOWME" }] }, h := [2] },
    cp := none }

/-- A store that answers every key with a found state of that key holding the
design of `SHOWME`. -/
def allDesignStore : GetState := fun k => .ok ({ key := k, value := .design showmeFixed }, true)

/-- A base validity for concrete items: an item without amounts is invalid. -/
def baseNonEmpty (it : BaseCreateAccountsItem) : Option Err :=
  if it.amounts.length < 1 then some (.invalid "empty amounts") else none

/-- An item of the given number of amounts, in currencies `0`, `1`, and so on. -/
def itemOf (n : Nat) : CreateAccountsItemMultiAmounts :=
  { base := { keys := oneKey, amounts := (List.range n).map (fun i => NewAmount 1 (toString i)) } }

/-- The processor of three keys at 100 percent built with a pool that holds
`SHOWME` with its fixed feeer, for the fully signed update to the nil-feeer
policy. -/
def updaterWithPool : CurrencyPolicyUpdaterProcessor :=
  NewCurrencyPolicyUpdaterProcessor (some showmePool) threeKeys (NewThreshold 3 100)
    (updateShowme policyNil threeKeys)

/-- A key-updater fact made by the constructor. -/
def keyFact : KeyUpdaterFact := NewKeyUpdaterFact plainPrimitives [1, 2] "target" oneKey "SHOWME"

/-- A key-updater operation of `keyFact` signed by `key-a`, with the given stored
hash. -/
def keyOp (h : Hash) : KeyUpdater :=
  { base := { fact := keyFact, fs := [signOf "key-a"], h := h }, Memo := "memo" }

/-! ## Processing pass of currency registrations -/

/-- Modelled from the spec: whether an error is a `ReasonError`, a business
rejection, also when it is wrapped: the rejections of the checks are, a failure
of the state store, a fault or a corrupted value is not. -/
def Err.isReasonError : Err → Bool
  | .emptyPublickeys => true
  | .notEnoughSigns => true
  | .unknownCurrency _ => true
  | .unknownCurrencyFee _ => true
  | .notExist _ => true
  | .receiverNotFound cause => cause.isReasonError
  | .genesisNotFound cause => cause.isReasonError
  | .duplicatedCurrency _ => true
  | .store _ => false
  | .invalidValue _ => false
  | .nilPointer => false
  | .emptyToken _ => true
  | .wrongFactHash => false
  | .amountsOverAllowed _ _ => true
  | .invalid _ => true
  | .emptyAmounts => true
  | .pleaseSet _ => true
  | .notOperation => true
  | .unknownOperation => true
  | .emptyFeeerFlags => true
  | .unknownFeeerType _ => true

/-- The verb `%q` of a text that holds no character to escape: the text between
double quotes. -/
def quoted (s : String) : String := "\x22" ++ s ++ "\x22"

/-- The message of an error, `Error()`, where it is known. The texts of
`currency_policy_updater_process.go`, `fee.go`, `builder.go` and
`currency_register.go` are as written there:
`empty publickeys for operation signs`, `unknown currency, %q found`,
`unknown currency id, %q found for FeeOperation`,
`feeer receiver account not found: %w`, `empty Amounts`, `empty feeer flags`; an
error of the state store prints its own text. Modelled from the spec: the texts
of `checkFactSignsByPubs`, `checkExistsState` and the register processor, which
are not under src/: the tests look for `not enough suffrage signs`,
`does not exist` and `duplicated currency id` in them. A wrapping error prints
its cause after its own text; the message of any other error is not carried. -/
def Err.Error : Err → Option String
  | .emptyPublickeys => some "empty publickeys for operation signs"
  | .unknownCurrency cid => some ("unknown currency, " ++ quoted cid ++ " found")
  | .unknownCurrencyFee cid =>
    some ("unknown currency id, " ++ quoted cid ++ " found for FeeOperation")
  | .receiverNotFound cause =>
    cause.Error.map (fun m => "feeer receiver account not found: " ++ m)
  | .emptyAmounts => some "empty Amounts"
  | .emptyFeeerFlags => some "empty feeer flags"
  | .store msg => some msg
  | .notEnoughSigns => some "not enough suffrage signs"
  | .notExist key => some ("state, " ++ quoted key ++ " does not exist")
  | .genesisNotFound cause => cause.Error.map (fun m => "genesis account not found: " ++ m)
  | .duplicatedCurrency cid => some ("duplicated currency id, " ++ quoted cid)
  | _ => none

/-- Whether the characters `part` occur in a row in the list. -/
def occursIn (part : List Char) : List Char → Bool
  | [] => part.isEmpty
  | c :: rest => part.isPrefixOf (c :: rest) || occursIn part rest

/-- The check `t.Contains(err.Error(), part)` of the tests: whether the text is
part of the message. -/
def Contains (msg part : String) : Bool := occursIn part.data msg.data

/-- Modelled from the spec: `CurrencyRegisterProcessor.Process` (not under src/):
credits the genesis account with the genesis amount and creates the
currency-design state, in one `setState` call with the hash of the fact. -/
def CurrencyRegisterProcessor.Process (opp : CurrencyRegisterProcessor)
    (getState : GetState) (setState : SetState) : Run Unit :=
  let fact := opp.op.fact
  let item := fact.currency
  let bkey := StateKeyBalance item.genesisAccount item.amount.cid
  let dkey := StateKeyCurrencyDesign item.amount.cid
  match getState bkey with
  | .error err => { result := .error err, reads := [bkey], writes := [] }
  | .ok (bst, _) =>
    match getState dkey with
    | .error err => { result := .error err, reads := [bkey, dkey], writes := [] }
    | .ok (dst, _) =>
      let ga := (NewAmountState bst item.amount.cid).Add item.amount.big
      match SetStateCurrencyDesignValue dst item with
      | .error err => { result := .error err, reads := [bkey, dkey], writes := [] }
      | .ok de =>
        { result := match setState fact.h [some ga.State, some de] with
            | some e => .error e
            | none => .ok ()
          reads := [bkey, dkey]
          writes := [(fact.h, [some ga.State, some de])] }

/-- Modelled from the spec: the state store seen by one processing pass: the
states it held before the pass and the write-set of the pass, latest first. -/
structure Statepool where
  states : List State
  updates : List State
  deriving DecidableEq, Repr

/-- Modelled from the spec: `getState` of a pass: a state written earlier in the
pass is visible, then the states of the store; a key that is not found is
answered with an empty state of that key. -/
def Statepool.Get (sp : Statepool) : GetState := fun key =>
  match sp.updates.find? (fun st => st.key == key) with
  | some st => .ok (st, true)
  | none =>
    match sp.states.find? (fun st => st.key == key) with
    | some st => .ok (st, true)
    | none => .ok ({ key := key, value := .empty }, false)

/-- Modelled from the spec: `setState` of a pass: the states accumulate into the
write-set; a nil entry has no key and adds nothing. -/
def Statepool.Set (sp : Statepool) (sts : List (Option State)) : Statepool :=
  { sp with updates := sts.filterMap id ++ sp.updates }

/-- Modelled from the spec: the refresh of a pool entry: the design replaces the
entry of its currency. -/
def CurrencyPool.Set (cp : CurrencyPool) (de : CurrencyDesign) : CurrencyPool :=
  { demap := (de.amount.cid, de) :: cp.demap }

/-- Modelled from the spec: the `OperationProcessor` (not under src/) of a pass
over currency registrations: the pool, key set and threshold it builds each
`CurrencyRegisterProcessor` with, and the state store of the pass. -/
structure OperationProcessor where
  cp : Option CurrencyPool
  pubs : List Publickey
  threshold : Threshold
  pool : Statepool
  deriving DecidableEq, Repr

/-- Modelled from the spec: `OperationProcessor.Process` (not under src/) for a
currency registration: `PreProcess`, then `Process`, whose states go to the
write-set of the pass; after the commit the currency pool, if any, is refreshed.
An operation that fails leaves the pass as it was. -/
def OperationProcessor.Process (opr : OperationProcessor) (op : CurrencyRegister) :
    Except Err Unit × OperationProcessor :=
  let opp : CurrencyRegisterProcessor :=
    { op := op, cp := opr.cp, pubs := opr.pubs, threshold := opr.threshold }
  match (opp.PreProcess opr.pool.Get acceptAll).result with
  | .error err => (.error err, opr)
  | .ok p =>
    let run := p.Process opr.pool.Get acceptAll
    match run.result with
    | .error err => (.error err, opr)
    | .ok _ =>
      (.ok (),
        { opr with
          pool := run.writes.foldl (fun sp w => sp.Set w.2) opr.pool
          cp := opr.cp.map (fun cp => cp.Set op.fact.currency) })

/-! ## Operation builder (`digest/builder.go`) -/

/-- The variable `templateToken`, the bytes of `raised by`. -/
def templateToken : Bytes := [114, 97, 105, 115, 101, 100, 32, 98, 121]

/-- The variable `templateSignedAt`, the instant `2020-10-08T07:53:26Z` in seconds
of the Unix epoch. -/
def templateSignedAt : Nat := 1602143606

/-- The method `Builder.checkToken`; `now` is
`localtime.NewTime(localtime.UTCNow()).Bytes()`, the bytes of the current time. -/
def Builder.checkToken (now : Bytes) (token : Bytes) : Except Err Bytes :=
  if token.length < 1 then .error (.emptyToken "token")
  else if token = templateToken then .ok now
  else .ok token

/-- Modelled from the spec: `operation.NewBaseFactSign(signer, signature)` of the
library: the fact sign of the signer and signature, signed at the current
time. -/
def NewBaseFactSign (now : Nat) (signer : Publickey) (signature : Bytes) : FactSign :=
  { signer := signer, signature := signature, signedAt := now }

/-- The method `Builder.updateFactSigns`; `RFC3339` is `localtime.RFC3339`, the
text form of a time, and `now` the current time. -/
def Builder.updateFactSigns (RFC3339 : Nat → String) (now : Nat) (fss : List FactSign) :
    List FactSign :=
  fss.map (fun fs =>
    if RFC3339 fs.signedAt = RFC3339 templateSignedAt then
      NewBaseFactSign now fs.signer fs.signature
    else fs)

/-- Modelled from the spec: the struct `CreateAccountsFact` (declared outside
src/): hash, token, sender and the items, each with its keys and amounts. -/
structure CreateAccountsFact where
  h : Hash
  token : Bytes
  sender : Address
  items : List BaseCreateAccountsItem
  deriving DecidableEq, Repr

/-- Modelled from the spec: the constructor `NewKeys(keys, threshold)` (declared
outside src/): the key set of the given keys and threshold, or the error of its
validity check. -/
def NewKeys (P : Primitives) (keys : List Key) (threshold : Nat) : Except Err Keys :=
  match P.keysIsValid { keys := keys, threshold := threshold } with
  | some err => .error err
  | none => .ok { keys := keys, threshold := threshold }

/-- Modelled from the spec: the constructor `NewCreateAccountsItemSingleAmount`
(declared outside src/): the item of the keys with the one amount. -/
def NewCreateAccountsItemSingleAmount (keys : Keys) (am : Amount) : BaseCreateAccountsItem :=
  { keys := keys, amounts := [am] }

/-- The loop of `Builder.buildFactCreateAccounts` over the items of the fact: the
slice `items`, or the first error. -/
def Builder.buildFactCreateAccounts.items (P : Primitives) :
    List BaseCreateAccountsItem → Except Err (List BaseCreateAccountsItem)
  | [] => .ok []
  | item :: rest =>
    match item.amounts with
    | [] => .error .emptyAmounts
    | am :: _ =>
      match NewKeys P item.keys.keys item.keys.threshold with
      | .error err => .error err
      | .ok ks =>
        match Builder.buildFactCreateAccounts.items P rest with
        | .error err => .error err
        | .ok items => .ok (NewCreateAccountsItemSingleAmount ks am :: items)

/-- The method `Builder.buildFactCreateAccounts`.  What it does with the token,
the sender and the rebuilt items after the loop (the new fact, its validity
check, the template operation and its `Hal`) is the parameter `finish`. -/
def Builder.buildFactCreateAccounts {α : Type} (P : Primitives) (now : Bytes)
    (finish : Bytes → Address → List BaseCreateAccountsItem → Except Err α)
    (fact : CreateAccountsFact) : Except Err α :=
  match Builder.checkToken now fact.token with
  | .error err => .error err
  | .ok token =>
    match Builder.buildFactCreateAccounts.items P fact.items with
    | .error err => .error err
    | .ok items => finish token fact.sender items

/-! ## Fee operation (`fee.go`): validity -/

/-- The method `FeeOperation.Hash`. -/
def FeeOperation.Hash (op : FeeOperation) : Hash := op.h

/-- The method `FeeOperation.GenerateHash`. -/
def FeeOperation.GenerateHash (P : Primitives) (op : FeeOperation) : MitumCurrency.Hash :=
  P.NewSHA256 op.fact.Hash

/-- The constructor `NewFeeOperation`. -/
def NewFeeOperation (P : Primitives) (fact : FeeOperationFact) : FeeOperation :=
  let op : FeeOperation := { fact := fact, h := [] }
  { op with h := op.GenerateHash P }

/-- The method `FeeOperation.IsValid`; the validity of the constant hint
`FeeOperationHint` and the constant `operation.MaxTokenSize` of the library are
parameters. -/
def FeeOperation.IsValid (P : Primitives) (hintIsValid : Option Err) (MaxTokenSize : Nat)
    (op : FeeOperation) : Option Err :=
  match hintIsValid with
  | some err => some err
  | none =>
    let l := op.fact.token.length
    if l < 1 then some (.invalid "FeeOperation has empty token")
    else if l > MaxTokenSize then some (.invalid "FeeOperation token size too large")
    else
      match op.fact.IsValid P with
      | some err => some err
      | none =>
        if ¬ op.Hash = op.GenerateHash P then some (.invalid "wrong FeeOperation hash")
        else none

/-! ## Concrete inputs: passes and builder -/

/-- The account states of two genesis accounts, each holding 10 `SHOWME`. -/
def twoAccounts : List State :=
  [{ key := "account:genesis", value := .account "genesis" },
   { key := "balance:genesis:SHOWME", value := .balance { big := 10, cid := "SHOWME" } },
   { key := "account:other", value := .account "other" },
   { key := "balance:other:SHOWME", value := .balance { big := 10, cid := "SHOWME" } }]

/-- The pass of the test: three operator keys at 100 percent, no currency pool,
over the given states. -/
def passOver (states : List State) : OperationProcessor :=
  { cp := none, pubs := threeKeys, threshold := NewThreshold 3 100,
    pool := { states := states, updates := [] } }

/-- A second registration of `FINDME`, with another token, genesis account and
amount, signed by the three keys. -/
def registerFindmeAgain : CurrencyRegister :=
  { fact := { h := [13], token := [3],
              currency := { findmeNil with amount := { big := 44, cid := "FINDME" },
                                           genesisAccount := "other" } },
    fs := threeKeys.map signOf, memo := "", h := [14] }

/-- A second registration of `FINDME`, fully signed, for the genesis account
`nobody`, which has no account state. -/
def registerFindmeNobody : CurrencyRegister :=
  { fact := { h := [15], token := [4],
              currency := { findmeNil with amount := { big := 44, cid := "FINDME" },
                                           genesisAccount := "nobody" } },
    fs := threeKeys.map signOf, memo := "", h := [16] }

/-- A registration of `FINDME`, fully signed, whose fixed feeer pays the account
`nobody`, which has no account state. -/
def registerFindmeFee : CurrencyRegister :=
  { fact := { h := [17], token := [5],
              currency := { findmeNil with
                policy := { newAccountMinBalance := 0, feeer := .fixed (some "nobody") 1 } } },
    fs := threeKeys.map signOf, memo := "", h := [18] }

/-- The states of `twoAccounts` and a balance of 5 `FINDME` of the account
`genesis`. -/
def genesisHoldsFindme : List State :=
  { key := "balance:genesis:FINDME", value := .balance { big := 5, cid := "FINDME" } } ::
    twoAccounts

/-- A text form of times: the decimal digits of the seconds. -/
def secondsText (t : Nat) : String := toString t

/-- A create-accounts fact with an empty token whose only item has no amounts. -/
def factNoTokenNoAmounts : CreateAccountsFact :=
  { h := [15], token := [], sender := "sender", items := [{ keys := oneKey, amounts := [] }] }

/-- A create-accounts fact of two items, the second with two amounts. -/
def factTwoItems : CreateAccountsFact :=
  { h := [16], token := [4], sender := "sender",
    items := [{ keys := oneKey, amounts := [{ big := 1, cid := "SHOWME" }] },
              { keys := oneKey,
                amounts := [{ big := 2, cid := "SHOWME" }, { big := 3, cid := "FINDME" }] }] }

/-- A continuation of the build that returns what it is given. -/
def finishWith (token : Bytes) (sender : Address) (items : List BaseCreateAccountsItem) :
    Except Err (Bytes × Address × List BaseCreateAccountsItem) :=
  .ok (token, sender, items)

/-- Two fact signs, the first signed at the template time, the second at another
time. -/
def twoSigns : List FactSign :=
  [{ signer := "key-a", signature := [7], signedAt := 1602143606 },
   { signer := "key-b", signature := [8], signedAt := 1700000000 }]

/-! ## Operation builder: `BuildOperation` (`digest/builder.go`) -/

/-- The variable `templateSignature`, the bytes of `wolves`. -/
def templateSignature : Bytes := [119, 111, 108, 118, 101, 115]

/-- The kinds of operation `Builder.BuildOperation` builds. -/
inductive OperationKind where
  | CreateAccounts
  | KeyUpdater
  | Transfers
  | CurrencyRegister
  | CurrencyPolicyUpdater
  deriving DecidableEq, Repr

/-- Modelled from the spec: an `operation.Operation` of the library as the builder
sees it: its kind (`none` for an operation of another type), its fact, its
ordered fact signs, its memo and its hash. -/
structure Operation where
  kind : Option OperationKind
  fact : Bytes
  fs : List FactSign
  Memo : String
  h : Hash
  deriving DecidableEq, Repr

/-- The method `Signs()` of an operation. -/
def Operation.Signs (op : Operation) : List FactSign := op.fs

/-- Modelled from the spec: what `Builder.BuildOperation` uses and is not under
src/: the decoder `enc.DecodeByHint` (`ok none` for a value that is not an
operation), the text form and the current time of `updateFactSigns`, the public
key made of the template private key, the checks and the hash of the
constructors `currency.NewCreateAccounts`, `NewKeyUpdater`, `NewTransfers`,
`NewCurrencyRegister` and `NewCurrencyPolicyUpdater`, the `IsValid(networkID)` of
the built operation, and the `IsValid(nil)` of its fact. -/
structure BuilderDeps where
  DecodeByHint : Bytes → Except Err (Option Operation)
  RFC3339 : Nat → String
  now : Nat
  templatePublickey : Publickey
  checkNew : OperationKind → Bytes → List FactSign → String → Option Err
  hashNew : OperationKind → Bytes → List FactSign → String → Hash
  operationIsValid : Operation → Option Err
  factIsValid : OperationKind → Bytes → Option Err
  /-- Whether the fact holds one of the template values `isValidFact...` rejects
  (token, sender, target, receiver, key, genesis account, minimum balance), and
  which. -/
  factTemplate : OperationKind → Bytes → Option String

/-- Modelled from the spec: the constructors `currency.NewCreateAccounts` and its
siblings (declared outside src/): the operation of the kind with the fact, the
signs and the memo, or the error of its checks. -/
def BuilderDeps.newOperation (D : BuilderDeps) (kind : OperationKind) (fact : Bytes)
    (fs : List FactSign) (memo : String) : Except Err Operation :=
  match D.checkNew kind fact fs memo with
  | some err => .error err
  | none => .ok { kind := some kind, fact := fact, fs := fs, Memo := memo,
                  h := D.hashNew kind fact fs memo }

/-- The methods `Builder.isValidFactCreateAccounts` and its four siblings: the
`IsValid(nil)` of the fact, then the rejection of template values with a
`Please set` error. -/
def Builder.isValidFact (D : BuilderDeps) (kind : OperationKind) (fact : Bytes) : Option Err :=
  match D.factIsValid kind fact with
  | some err => some err
  | none =>
    match D.factTemplate kind fact with
    | some what => some (.pleaseSet what)
    | none => none

/-- The methods `Builder.buildCreateAccounts`, `buildKeyUpdater`, `buildTransfers`,
`buildCurrencyRegister` and `buildCurrencyPolicyUpdater`, which differ in the
kind only. -/
def Builder.build (D : BuilderDeps) (kind : OperationKind) (op : Operation) :
    Except Err Operation :=
  let fs := Builder.updateFactSigns D.RFC3339 D.now op.Signs
  match D.newOperation kind op.fact fs op.Memo with
  | .error err => .error err
  | .ok nop =>
    match D.operationIsValid nop with
    | some err => .error err
    | none =>
      match Builder.isValidFact D kind nop.fact with
      | some err => .error err
      | none => .ok nop

/-- The loop of `Builder.BuildOperation` over the signs of the built operation:
the first `Please set` error. -/
def Builder.BuildOperation.checkSigns (D : BuilderDeps) : List FactSign → Option Err
  | [] => none
  | fs :: rest =>
    if fs.signer = D.templatePublickey then some (.pleaseSet "publickey")
    else if fs.signature = templateSignature then some (.pleaseSet "signature")
    else Builder.BuildOperation.checkSigns D rest

/-- The method `Builder.BuildOperation`; the `Hal` it returns is the operation it
wraps. -/
def Builder.BuildOperation (D : BuilderDeps) (b : Bytes) : Except Err Operation :=
  match D.DecodeByHint b with
  | .error err => .error err
  | .ok none => .error .notOperation
  | .ok (some op) =>
    match op.kind with
    | none => .error .unknownOperation
    | some kind =>
      match Builder.build D kind op with
      | .error err => .error err
      | .ok nop =>
        match Builder.BuildOperation.checkSigns D nop.Signs with
        | some err => .error err
        | none => .ok nop

/-! ## Operation queries (`digest/handler_operation.go`) -/

/-- The query documents `buildOperationsFilterByOffset` makes: the empty document,
a comparison of the height or of the index, and the `$or` and `$and` of two
documents. -/
inductive Filter where
  | empty
  | heightGt (height : Int)
  | heightLt (height : Int)
  | heightEq (height : Int)
  | indexGt (index : Nat)
  | indexLt (index : Nat)
  | or (a b : Filter)
  | and (a b : Filter)
  deriving DecidableEq, Repr

/-- Modelled from the spec: the meaning of a query document in the document
store: whether it selects the operation at the height and index. -/
def Filter.selects : Filter → Int → Nat → Bool
  | .empty, _, _ => true
  | .heightGt h, H, _ => decide (H > h)
  | .heightLt h, H, _ => decide (H < h)
  | .heightEq h, H, _ => decide (H = h)
  | .indexGt i, _, I => decide (I > i)
  | .indexLt i, _, I => decide (I < i)
  | .or a b, H, I => a.selects H I || b.selects H I
  | .and a b, H, I => a.selects H I && b.selects H I

/-- The function `buildOperationsFilterByOffset`; `parseOffset`, which is not
under src/, is a parameter. -/
def buildOperationsFilterByOffset (parseOffset : String → Except Err (Int × Nat))
    (offset : String) (reverse : Bool) : Except Err Filter :=
  if offset.length > 0 then
    match parseOffset offset with
    | .error err => .error err
    | .ok (height, index) =>
      if reverse then
        .ok (.or (.heightLt height) (.and (.heightEq height) (.indexLt index)))
      else
        .ok (.or (.heightGt height) (.and (.heightEq height) (.indexGt index)))
  else .ok .empty

/-! ## Currency design flags (`cmds/currency_register.go`) -/

/-- Modelled from the spec: what the flags use and is not under src/: the
decoding of an address flag, and the `IsValid(nil)` of an address, a feeer, a
policy, an amount and a design. -/
structure FlagDeps where
  Encode : String → Except Err Address
  addressIsValid : Address → Option Err
  feeerIsValid : Feeer → Option Err
  policyIsValid : CurrencyPolicy → Option Err
  amountIsValid : Amount → Option Err
  designIsValid : CurrencyDesign → Option Err

/-- Modelled from the spec: the constants `FeeerNil`, `FeeerFixed` and
`FeeerRatio` (declared outside src/), the feeer types `nil`, `fixed` and `ratio`
of the flag. -/
def FeeerNil : String := "nil"

/-- See `FeeerNil`. -/
def FeeerFixed : String := "fixed"

/-- See `FeeerNil`. -/
def FeeerRatio : String := "ratio"

/-- Modelled from the spec: the constructor `NewFixedFeeer` (declared outside
src/). -/
def NewFixedFeeer (receiver : Address) (amount : Big) : Feeer := .fixed (some receiver) amount

/-- Modelled from the spec: the constructor `NewRatioFeeer` (declared outside
src/). -/
def NewRatioFeeer (receiver : Address) (ratioBits : Nat) (min max : Big) : Feeer :=
  .ratio (some receiver) ratioBits min max

/-- Modelled from the spec: the constructor `NewNilFeeer` (declared outside
src/). -/
def NewNilFeeer : Feeer := .nil

/-- The struct `CurrencyFixedFeeerFlags`; the feeer is nil until `IsValid` sets
it. -/
structure CurrencyFixedFeeerFlags where
  Receiver : String
  Amount : Big
  feeer : Option Feeer
  deriving DecidableEq, Repr

/-- The method `CurrencyFixedFeeerFlags.IsValid`: the flags it leaves, or its
error. -/
def CurrencyFixedFeeerFlags.IsValid (D : FlagDeps) (fl : CurrencyFixedFeeerFlags) :
    Except Err CurrencyFixedFeeerFlags :=
  if fl.Receiver.length < 1 then .ok fl
  else
    match D.Encode fl.Receiver with
    | .error _ => .error (.invalid "invalid receiver format")
    | .ok a =>
      match D.addressIsValid a with
      | some _ => .error (.invalid "invalid receiver address")
      | none =>
        let feeer := NewFixedFeeer a fl.Amount
        match D.feeerIsValid feeer with
        | some err => .error err
        | none => .ok { fl with feeer := some feeer }

/-- The struct `CurrencyRatioFeeerFlags`; the ratio is a `float64`, carried as
its bit pattern. -/
structure CurrencyRatioFeeerFlags where
  Receiver : String
  Ratio : Nat
  Min : Big
  Max : Big
  feeer : Option Feeer
  deriving DecidableEq, Repr

/-- The method `CurrencyRatioFeeerFlags.IsValid`: the flags it leaves, or its
error. -/
def CurrencyRatioFeeerFlags.IsValid (D : FlagDeps) (fl : CurrencyRatioFeeerFlags) :
    Except Err CurrencyRatioFeeerFlags :=
  if fl.Receiver.length < 1 then .ok fl
  else
    match D.Encode fl.Receiver with
    | .error _ => .error (.invalid "invalid receiver format")
    | .ok a =>
      match D.addressIsValid a with
      | some _ => .error (.invalid "invalid receiver address")
      | none =>
        let feeer := NewRatioFeeer a fl.Ratio fl.Min fl.Max
        match D.feeerIsValid feeer with
        | some err => .error err
        | none => .ok { fl with feeer := some feeer }

/-- The struct `CurrencyDesignFlags`, with the one flag of the embedded
`CurrencyPolicyFlags`. -/
structure CurrencyDesignFlags where
  Currency : CurrencyID
  GenesisAmount : Big
  GenesisAccount : String
  NewAccountMinBalance : Big
  FeeerString : String
  fixed : CurrencyFixedFeeerFlags
  ratio : CurrencyRatioFeeerFlags
  currencyDesign : CurrencyDesign
  deriving DecidableEq, Repr

/-- The method `CurrencyDesignFlags.IsValid`: the flags it leaves, with the
design set, or its error (`CurrencyPolicyFlags.IsValid` always returns nil). -/
def CurrencyDesignFlags.IsValid (D : FlagDeps) (fl : CurrencyDesignFlags) :
    Except Err CurrencyDesignFlags :=
  match fl.fixed.IsValid D with
  | .error err => .error err
  | .ok fixed =>
    match fl.ratio.IsValid D with
    | .error err => .error err
    | .ok ratio =>
      let chosen : Except Err (Option Feeer) :=
        if fl.FeeerString = FeeerNil ∨ fl.FeeerString = "" then .ok (some NewNilFeeer)
        else if fl.FeeerString = FeeerFixed then .ok fixed.feeer
        else if fl.FeeerString = FeeerRatio then .ok ratio.feeer
        else .error (.unknownFeeerType fl.FeeerString)
      match chosen with
      | .error err => .error err
      | .ok none => .error .emptyFeeerFlags
      | .ok (some feeer) =>
        match D.feeerIsValid feeer with
        | some err => .error err
        | none =>
          let po : CurrencyPolicy := { newAccountMinBalance := fl.NewAccountMinBalance, feeer := feeer }
          match D.policyIsValid po with
          | some err => .error err
          | none =>
            match D.Encode fl.GenesisAccount with
            | .error _ => .error (.invalid "invalid genesis-account format")
            | .ok a =>
              match D.addressIsValid a with
              | some _ => .error (.invalid "invalid genesis-account address")
              | none =>
                let am := NewAmount fl.GenesisAmount fl.Currency
                match D.amountIsValid am with
                | some err => .error err
                | none =>
                  let de : CurrencyDesign := { amount := am, genesisAccount := a, policy := po }
                  match D.designIsValid de with
                  | some err => .error err
                  | none =>
                    .ok { fl with fixed := fixed, ratio := ratio, currencyDesign := de }

/-! ## Concrete inputs: builder, queries and flags -/

/-- A fact sign with the given signer and signature, made after the template
time. -/
def signWith (signer : Publickey) (signature : Bytes) : FactSign :=
  { signer := signer, signature := signature, signedAt := 1700000000 }

/-- A key-updater operation with the given signs, the fact `[1]` and no memo. -/
def operationOf (fs : List FactSign) : Operation :=
  { kind := some .KeyUpdater, fact := [1], fs := fs, Memo := "", h := [2] }

/-- A stand-in for what the builder uses: every byte string decodes to the
key-updater operation whose one sign has the bytes after the first as signature
and the signer `template-key` when the first byte is 0, `key-a` otherwise; the
template public key is `template-key`; the constructors and validity checks
accept everything and no fact holds a template value. -/
def plainBuilder : BuilderDeps :=
  { DecodeByHint := fun b =>
      .ok (some (operationOf [signWith (if b.head? = some 0 then "template-key" else "key-a")
        (b.drop 1)]))
    RFC3339 := secondsText
    now := 1800000000
    templatePublickey := "template-key"
    checkNew := fun _ _ _ _ => none
    hashNew := fun _ fact _ _ => fact
    operationIsValid := fun _ => none
    factIsValid := fun _ _ => none
    factTemplate := fun _ _ => none }

/-- The stand-in `plainBuilder` with an `IsValid(networkID)` that rejects an
operation one of whose signatures is the template signature, which is the
signature of no fact. -/
def strictBuilder : BuilderDeps :=
  { plainBuilder with
    operationIsValid := fun op =>
      if op.fs.any (fun fs => decide (fs.signature = templateSignature)) then
        some (.invalid "signature verification")
      else none }

/-- A parser of offsets for concrete inputs: `3,2` is height 3 and index 2, any
other text does not parse. -/
def parseOnly (offset : String) : Except Err (Int × Nat) :=
  if offset = "3,2" then .ok (3, 2) else .error (.invalid "invalid offset")

/-- A stand-in for what the flags use: the text `bad` does not decode to an
address, any other does; every value is valid. -/
def plainFlags : FlagDeps :=
  { Encode := fun s => if s = "bad" then .error (.invalid "address") else .ok s
    addressIsValid := fun _ => none
    feeerIsValid := fun _ => none
    policyIsValid := fun _ => none
    amountIsValid := fun _ => none
    designIsValid := fun _ => none }

/-- The flags of the design of `FINDME` with 33 for `genesis`, with the given
feeer type and receivers of the fixed and of the ratio feeer. -/
def flagsOf (feeerString fixedReceiver ratioReceiver : String) : CurrencyDesignFlags :=
  { Currency := "FINDME", GenesisAmount := 33, GenesisAccount := "genesis",
    NewAccountMinBalance := 0, FeeerString := feeerString,
    fixed := { Receiver := fixedReceiver, Amount := 1, feeer := none },
    ratio := { Receiver := ratioReceiver, Ratio := 0, Min := 0, Max := 0, feeer := none },
    currencyDesign := CurrencyDesign.zero }

/-! ## Fee operation: lemmas -/

theorem storeOf_key (sts : List State) (k : String) (st : State) (found : Bool)
    (h : storeOf sts k = .ok (st, found)) : st.key = k := by
  unfold storeOf at h
  cases hf : sts.find? (fun st => st.key == k) with
  | none =>
    rw [hf] at h
    simp only [Except.ok.injEq, Prod.mk.injEq] at h
    rw [← h.1]
  | some s =>
    rw [hf] at h
    simp only [Except.ok.injEq, Prod.mk.injEq] at h
    have := List.find?_some hf
    rw [← h.1]
    simpa using this

theorem collect_ok_get (cp : Option CurrencyPool) (getState : GetState) :
    ∀ (ams : List Amount) (sts : List (Option State)) (rs : List String),
      FeeOperationProcessor.collect cp getState ams = (.ok sts, rs) →
      ∀ (i : Nat) (am : Amount), ams[i]? = some am →
        ∃ slot, sts[i]? = some slot ∧
          (FeeOperationProcessor.processAmount cp getState am).1 = .ok slot := by
  intro ams
  induction ams with
  | nil => intro sts rs _ i am hi; simp at hi
  | cons a rest ih =>
    intro sts rs h i am hi
    unfold FeeOperationProcessor.collect at h
    rcases hp : FeeOperationProcessor.processAmount cp getState a with ⟨r1, rs1⟩
    rw [hp] at h
    cases r1 with
    | error e => simp at h
    | ok slot =>
      rcases hc : FeeOperationProcessor.collect cp getState rest with ⟨r2, rs2⟩
      rw [hc] at h
      cases r2 with
      | error e => simp at h
      | ok sts2 =>
        simp only [Prod.mk.injEq, Except.ok.injEq] at h
        obtain ⟨hsts, -⟩ := h
        subst hsts
        cases i with
        | zero =>
          simp only [List.getElem?_cons_zero, Option.some.injEq] at hi
          subst hi
          exact ⟨slot, by simp, by rw [hp]⟩
        | succ j =>
          simp only [List.getElem?_cons_succ] at hi
          obtain ⟨s, hs, hps⟩ := ih sts2 rs2 hc j am hi
          exact ⟨s, by simpa using hs, hps⟩

theorem collect_ok_length (cp : Option CurrencyPool) (getState : GetState) :
    ∀ (ams : List Amount) (sts : List (Option State)) (rs : List String),
      FeeOperationProcessor.collect cp getState ams = (.ok sts, rs) →
      sts.length = ams.length := by
  intro ams
  induction ams with
  | nil =>
    intro sts rs h
    unfold FeeOperationProcessor.collect at h
    simp only [Prod.mk.injEq, Except.ok.injEq] at h
    rw [← h.1]
    rfl
  | cons a rest ih =>
    intro sts rs h
    unfold FeeOperationProcessor.collect at h
    rcases hp : FeeOperationProcessor.processAmount cp getState a with ⟨r1, rs1⟩
    rw [hp] at h
    cases r1 with
    | error e => simp at h
    | ok slot =>
      rcases hc : FeeOperationProcessor.collect cp getState rest with ⟨r2, rs2⟩
      rw [hc] at h
      cases r2 with
      | error e => simp at h
      | ok sts2 =>
        simp only [Prod.mk.injEq, Except.ok.injEq] at h
        rw [← h.1, List.length_cons, List.length_cons, ih sts2 rs2 hc]

theorem collect_error_of_mem (cp : Option CurrencyPool) (getState : GetState) :
    ∀ (ams : List Amount) (am : Amount), am ∈ ams →
      (∃ e, (FeeOperationProcessor.processAmount cp getState am).1 = .error e) →
      ∃ e, (FeeOperationProcessor.collect cp getState ams).1 = .error e := by
  intro ams
  induction ams with
  | nil => intro am hm; simp at hm
  | cons a rest ih =>
    intro am hm herr
    unfold FeeOperationProcessor.collect
    rcases hp : FeeOperationProcessor.processAmount cp getState a with ⟨r1, rs1⟩
    cases r1 with
    | error e => exact ⟨e, rfl⟩
    | ok slot =>
      have hrest : am ∈ rest := by
        rcases List.mem_cons.mp hm with heq | hin
        · subst heq
          rw [hp] at herr
          obtain ⟨e, he⟩ := herr
          simp at he
        · exact hin
      obtain ⟨e, he⟩ := ih am hrest herr
      rcases hc : FeeOperationProcessor.collect cp getState rest with ⟨r2, rs2⟩
      rw [hc] at he
      simp only at he
      subst he
      exact ⟨e, rfl⟩

theorem Process_of_collect_error (opp : FeeOperationProcessor) (getState : GetState)
    (setState : SetState) (e : Err)
    (h : (FeeOperationProcessor.collect opp.cp getState opp.op.fact.amounts).1 = .error e) :
    (opp.Process getState setState).result = .error e ∧
      (opp.Process getState setState).writes = [] := by
  rcases hc : FeeOperationProcessor.collect opp.cp getState opp.op.fact.amounts with ⟨r, rs⟩
  rw [hc] at h
  simp only at h
  subst h
  simp only [FeeOperationProcessor.Process, hc, and_self]

theorem Process_of_collect_ok (opp : FeeOperationProcessor) (getState : GetState)
    (setState : SetState) (sts : List (Option State)) (rs : List String)
    (h : FeeOperationProcessor.collect opp.cp getState opp.op.fact.amounts = (.ok sts, rs)) :
    (opp.Process getState setState).writes = [(opp.op.fact.h, sts)] ∧
      (opp.Process getState setState).result =
        (match setState opp.op.fact.h sts with
          | some e => .error e
          | none => .ok ()) := by
  simp only [FeeOperationProcessor.Process, h, and_self]

theorem processAmount_receiver_ok (pool : CurrencyPool) (getState : GetState) (am : Amount)
    (feeer : Feeer) (r : Address) (slot : Option State)
    (hfe : pool.Feeer am.cid = some feeer) (hr : feeer.Receiver = some r)
    (h : (FeeOperationProcessor.processAmount (some pool) getState am).1 = .ok slot) :
    ∃ st0 found, getState (StateKeyBalance r am.cid) = .ok (st0, found) ∧
      checkExistsState (StateKeyAccount r) getState = none ∧
      slot = some ((NewAmountState st0 am.cid).Add am.big).State := by
  simp only [FeeOperationProcessor.processAmount, hfe, hr] at h
  cases hc : checkExistsState (StateKeyAccount r) getState with
  | some e => rw [hc] at h; simp at h
  | none =>
    rw [hc] at h
    cases hg : getState (StateKeyBalance r am.cid) with
    | error e => rw [hg] at h; simp at h
    | ok p =>
      obtain ⟨st0, found⟩ := p
      rw [hg] at h
      simp only [Except.ok.injEq] at h
      exact ⟨st0, found, rfl, rfl, h.symm⟩

theorem processAmount_error_of_cause (pool : CurrencyPool) (getState : GetState) (am : Amount)
    (h : pool.Feeer am.cid = none ∨
      ∃ feeer r, pool.Feeer am.cid = some feeer ∧ feeer.Receiver = some r ∧
        ((∃ st, getState (StateKeyAccount r) = .ok (st, false)) ∨
         (∃ e, getState (StateKeyAccount r) = .error e) ∨
         (∃ e, getState (StateKeyBalance r am.cid) = .error e))) :
    ∃ e, (FeeOperationProcessor.processAmount (some pool) getState am).1 = .error e := by
  rcases h with hnone | ⟨feeer, r, hfe, hr, hcause⟩
  · exact ⟨.unknownCurrencyFee am.cid, by simp [FeeOperationProcessor.processAmount, hnone]⟩
  · simp only [FeeOperationProcessor.processAmount, hfe, hr]
    rcases hcause with ⟨st, hst⟩ | ⟨e, he⟩ | ⟨e, he⟩
    · exact ⟨.notExist (StateKeyAccount r), by simp [checkExistsState, hst]⟩
    · exact ⟨e, by simp [checkExistsState, he]⟩
    · cases hc : checkExistsState (StateKeyAccount r) getState with
      | some e2 => exact ⟨e2, rfl⟩
      | none => exact ⟨e, by simp [he]⟩

/-! ## Fee operation: claims -/

/-- C1: when `FeeOperationProcessor.Process` succeeds, then for every amount
(value `v`, currency `c`) of the fact whose feeer in the pool has a receiver `r`,
the state handed to `setState` at the index of that amount is keyed
`StateKeyBalance(r, c)` and holds the balance of the state `getState` returns for
that key plus `v`. -/
theorem FeeOperationProcessor.Process_credits_receiver
    (opp : FeeOperationProcessor) (getState : GetState) (setState : SetState)
    (hkey : ∀ k st found, getState k = .ok (st, found) → st.key = k)
    (hok : (opp.Process getState setState).result = .ok ())
    (pool : CurrencyPool) (hpool : opp.cp = some pool)
    (i : Nat) (am : Amount) (hi : opp.op.fact.amounts[i]? = some am)
    (feeer : Feeer) (hfe : pool.Feeer am.cid = some feeer)
    (r : Address) (hr : feeer.Receiver = some r) :
    ∃ sts st0 found st1,
      (opp.Process getState setState).writes = [(opp.op.fact.h, sts)] ∧
      sts[i]? = some (some st1) ∧
      getState (StateKeyBalance r am.cid) = .ok (st0, found) ∧
      st1.key = StateKeyBalance r am.cid ∧
      StateBalanceValue st1 = .ok { big := st0.balanceBig + am.big, cid := am.cid } := by
  rcases hc : FeeOperationProcessor.collect opp.cp getState opp.op.fact.amounts with ⟨res, rs⟩
  cases res with
  | error e =>
    have := (Process_of_collect_error opp getState setState e (by rw [hc])).1
    rw [this] at hok
    simp at hok
  | ok sts =>
    obtain ⟨slot, hslot, hp⟩ := collect_ok_get opp.cp getState _ sts rs hc i am hi
    rw [hpool] at hp
    obtain ⟨st0, found, hg, -, hs⟩ := processAmount_receiver_ok pool getState am feeer r slot hfe hr hp
    refine ⟨sts, st0, found, ((NewAmountState st0 am.cid).Add am.big).State,
      (Process_of_collect_ok opp getState setState sts rs hc).1, ?_, hg, ?_, ?_⟩
    · rw [hslot, hs]
    · simp only [AmountState.State, AmountState.Add, NewAmountState]
      exact hkey _ _ _ hg
    · simp [StateBalanceValue, AmountState.State, AmountState.Add, NewAmountState]

/-- C1, at a concrete input: settling 5 `SHOWME` on a receiver holding 7 hands
`setState` the receiver balance state of the currency. -/
theorem FeeOperationProcessor.Process_credits_receiver_witness :
    (feeShowme.Process receiverStore acceptAll).result = .ok () ∧
    ∃ sts st0 found st1,
      (feeShowme.Process receiverStore acceptAll).writes = [(feeShowme.op.fact.h, sts)] ∧
      sts[0]? = some (some st1) ∧
      receiverStore (StateKeyBalance "fee-receiver" "SHOWME") = .ok (st0, found) ∧
      st1.key = StateKeyBalance "fee-receiver" "SHOWME" ∧
      StateBalanceValue st1 = .ok { big := st0.balanceBig + 5, cid := "SHOWME" } :=
  ⟨rfl,
   FeeOperationProcessor.Process_credits_receiver feeShowme receiverStore acceptAll
    (storeOf_key _) rfl twoCurrencies rfl 0 { big := 5, cid := "SHOWME" } rfl
    (.fixed (some "fee-receiver") 1) (by decide) "fee-receiver" rfl⟩

/-- C2, the code at the failing input: settling 4 `FINDME`, whose feeer has no
receiver, succeeds and hands `setState` a list of one entry, which is nil. -/
theorem FeeOperationProcessor.Process_nil_slot :
    (feeFindme.Process receiverStore acceptAll).result = .ok () ∧
    (feeFindme.Process receiverStore acceptAll).writes = [([3], [none])] :=
  ⟨rfl, rfl⟩

/-- C3: `FeeOperationProcessor.Process` invokes `setState` exactly once, with the
hash of the fact, when it succeeds; when an amount has a currency unknown to the
pool, a fee receiver whose account state does not exist, or a `getState` error,
it fails without invoking `setState`; a failure that is not an error of
`setState` itself leaves no write, and `setState` is never invoked twice. -/
theorem FeeOperationProcessor.Process_setState_once
    (opp : FeeOperationProcessor) (getState : GetState) (setState : SetState) :
    ((opp.Process getState setState).result = .ok () →
      ∃ sts, (opp.Process getState setState).writes = [(opp.op.fact.h, sts)]) ∧
    (∀ pool am, opp.cp = some pool → am ∈ opp.op.fact.amounts →
      (pool.Feeer am.cid = none ∨
        ∃ feeer r, pool.Feeer am.cid = some feeer ∧ feeer.Receiver = some r ∧
          ((∃ st, getState (StateKeyAccount r) = .ok (st, false)) ∨
           (∃ e, getState (StateKeyAccount r) = .error e) ∨
           (∃ e, getState (StateKeyBalance r am.cid) = .error e))) →
      (∃ e, (opp.Process getState setState).result = .error e) ∧
        (opp.Process getState setState).writes = []) ∧
    ((∀ h sts, setState h sts = none) →
      ∀ e, (opp.Process getState setState).result = .error e →
        (opp.Process getState setState).writes = []) ∧
    (opp.Process getState setState).writes.length ≤ 1 := by
  rcases hc : FeeOperationProcessor.collect opp.cp getState opp.op.fact.amounts with ⟨res, rs⟩
  cases res with
  | error e =>
    obtain ⟨hres, hw⟩ := Process_of_collect_error opp getState setState e (by rw [hc])
    refine ⟨?_, ?_, ?_, ?_⟩
    · intro hok
      rw [hres] at hok
      simp at hok
    · intro pool am _ _ _
      exact ⟨⟨e, hres⟩, hw⟩
    · intro _ _ _
      exact hw
    · rw [hw]
      simp
  | ok sts =>
    obtain ⟨hw, hres⟩ := Process_of_collect_ok opp getState setState sts rs hc
    refine ⟨?_, ?_, ?_, ?_⟩
    · intro _
      exact ⟨sts, hw⟩
    · intro pool am hpool hmem hcause
      have herr := collect_error_of_mem opp.cp getState opp.op.fact.amounts am hmem
        (by rw [hpool]; exact processAmount_error_of_cause pool getState am hcause)
      rw [hc] at herr
      obtain ⟨e, he⟩ := herr
      simp at he
    · intro hset e he
      rw [hres, hset] at he
      simp at he
    · rw [hw]
      simp

/-- C3, at a concrete input: settling a currency the pool does not know fails and
`setState` is not invoked. -/
theorem FeeOperationProcessor.Process_setState_once_witness :
    twoCurrencies.Feeer "NOPE" = none ∧
    (∃ e, (feeUnknown.Process receiverStore acceptAll).result = .error e) ∧
    (feeUnknown.Process receiverStore acceptAll).writes = [] :=
  ⟨rfl, (FeeOperationProcessor.Process_setState_once feeUnknown receiverStore acceptAll).2.1
    twoCurrencies { big := 4, cid := "NOPE" } rfl (List.mem_singleton.mpr rfl) (Or.inl rfl)⟩

/-! ## Currency policy updater: lemmas -/

theorem PreProcess_ok_iff (opp : CurrencyPolicyUpdaterProcessor) (getState : GetState)
    (setState : SetState) (p : CurrencyPolicyUpdaterProcessor) :
    (opp.PreProcess getState setState).result = .ok p ↔
      opp.pubs ≠ [] ∧
      checkFactSignsByPubs opp.pubs opp.threshold opp.op.Signs = none ∧
      (∀ cp, opp.cp = some cp → cp.Exists opp.op.fact.cid = true) ∧
      (∀ r, opp.op.fact.policy.feeer.Receiver = some r →
        checkExistsState (StateKeyAccount r) getState = none) ∧
      ∃ st de, getState (StateKeyCurrencyDesign opp.op.fact.cid) = .ok (st, true) ∧
        StateCurrencyDesignValue st = .ok de ∧
        p = { opp with st := some st, de := de } := by
  unfold CurrencyPolicyUpdaterProcessor.PreProcess
  by_cases hpubs : opp.pubs.length < 1
  · have : opp.pubs = [] := by
      cases hp : opp.pubs with
      | nil => rfl
      | cons a l => rw [hp] at hpubs; simp at hpubs
    simp [hpubs, this]
  · have hne : opp.pubs ≠ [] := by
      intro h; rw [h] at hpubs; simp at hpubs
    rw [if_neg hpubs]
    cases hsig : checkFactSignsByPubs opp.pubs opp.threshold opp.op.Signs with
    | some e => simp
    | none =>
      simp only [hne, ne_eq, not_false_eq_true, true_and]
      have hunk : (match opp.cp with
          | some cp => !cp.Exists opp.op.fact.cid
          | none => false) = true ↔
          ¬ (∀ cp, opp.cp = some cp → cp.Exists opp.op.fact.cid = true) := by
        cases opp.cp <;> simp
      by_cases hu : (match opp.cp with
          | some cp => !cp.Exists opp.op.fact.cid
          | none => false) = true
      · have hn := hunk.mp hu
        simp only [hu, if_true]
        constructor
        · intro h; simp at h
        · intro h; exact absurd h.1 hn
      · have hall : ∀ cp, opp.cp = some cp → cp.Exists opp.op.fact.cid = true := by
          by_contra hc
          exact hu (hunk.mpr hc)
        simp only [hu, if_false]
        cases hrecv : opp.op.fact.policy.feeer.Receiver with
        | none =>
          cases hg : getState (StateKeyCurrencyDesign opp.op.fact.cid) with
          | error e => simp [hall]
          | ok pr =>
            obtain ⟨st, found⟩ := pr
            cases found with
            | false => simp [hall]
            | true =>
              cases hd : StateCurrencyDesignValue st with
              | error e => simp [hall, hd]
              | ok de =>
                simp [hall, hd]
                exact ⟨fun h => ⟨hall, h.symm⟩, fun h => h.2.symm⟩
        | some r =>
          cases hchk : checkExistsState (StateKeyAccount r) getState with
          | some e => simp [hall, hchk]
          | none =>
            cases hg : getState (StateKeyCurrencyDesign opp.op.fact.cid) with
            | error e => simp [hall, hchk]
            | ok pr =>
              obtain ⟨st, found⟩ := pr
              cases found with
              | false => simp [hall, hchk]
              | true =>
                cases hd : StateCurrencyDesignValue st with
                | error e => simp [hall, hd, hchk]
                | ok de =>
                  simp [hall, hd, hchk]
                  exact ⟨fun h => ⟨hall, h.symm⟩, fun h => h.2.symm⟩

theorem checkExistsState_eq_none_iff (key : String) (getState : GetState) :
    checkExistsState key getState = none ↔ ∃ st, getState key = .ok (st, true) := by
  unfold checkExistsState
  cases hg : getState key with
  | error e => simp
  | ok pr =>
    obtain ⟨st, found⟩ := pr
    cases found <;> simp

theorem StateKeyAccount_ne_StateKeyCurrencyDesign (a : Address) (cid : CurrencyID) :
    StateKeyAccount a ≠ StateKeyCurrencyDesign cid := by
  intro h
  have hd := congrArg String.data h
  simp only [StateKeyAccount, StateKeyCurrencyDesign, String.data_append] at hd
  have hh := congrArg List.head? hd
  simp at hh

theorem PreProcess_writes (opp : CurrencyPolicyUpdaterProcessor) (getState : GetState)
    (setState : SetState) : (opp.PreProcess getState setState).writes = [] := by
  unfold CurrencyPolicyUpdaterProcessor.PreProcess
  dsimp only
  repeat' split
  all_goals rfl

theorem length_lt_one_iff {α : Type} (l : List α) : l.length < 1 ↔ l = [] := by
  cases l <;> simp

theorem PreProcess_of_empty (opp : CurrencyPolicyUpdaterProcessor) (getState : GetState)
    (setState : SetState) (h : opp.pubs = []) :
    opp.PreProcess getState setState =
      { result := .error .emptyPublickeys, reads := [], writes := [] } := by
  simp [CurrencyPolicyUpdaterProcessor.PreProcess, h]

theorem PreProcess_of_sign_error (opp : CurrencyPolicyUpdaterProcessor) (getState : GetState)
    (setState : SetState) (hne : opp.pubs ≠ []) (e : Err)
    (h : checkFactSignsByPubs opp.pubs opp.threshold opp.op.Signs = some e) :
    opp.PreProcess getState setState = { result := .error e, reads := [], writes := [] } := by
  have hl : ¬ opp.pubs.length < 1 := fun hh => hne ((length_lt_one_iff _).mp hh)
  simp [CurrencyPolicyUpdaterProcessor.PreProcess, hl, h]

theorem PreProcess_of_pool_miss (opp : CurrencyPolicyUpdaterProcessor) (getState : GetState)
    (setState : SetState) (hne : opp.pubs ≠ [])
    (hsig : checkFactSignsByPubs opp.pubs opp.threshold opp.op.Signs = none)
    (cp : CurrencyPool) (hcp : opp.cp = some cp) (hex : cp.Exists opp.op.fact.cid = false) :
    opp.PreProcess getState setState =
      { result := .error (.unknownCurrency opp.op.fact.cid), reads := [], writes := [] } := by
  have hl : ¬ opp.pubs.length < 1 := fun hh => hne ((length_lt_one_iff _).mp hh)
  simp [CurrencyPolicyUpdaterProcessor.PreProcess, hl, hsig, hcp, hex]

theorem PreProcess_of_state_miss (opp : CurrencyPolicyUpdaterProcessor) (getState : GetState)
    (setState : SetState) (hne : opp.pubs ≠ [])
    (hsig : checkFactSignsByPubs opp.pubs opp.threshold opp.op.Signs = none)
    (hpool : ∀ cp, opp.cp = some cp → cp.Exists opp.op.fact.cid = true)
    (hrecv : ∀ r, opp.op.fact.policy.feeer.Receiver = some r →
      checkExistsState (StateKeyAccount r) getState = none)
    (st : State) (hg : getState (StateKeyCurrencyDesign opp.op.fact.cid) = .ok (st, false)) :
    (opp.PreProcess getState setState).result = .error (.unknownCurrency opp.op.fact.cid) := by
  have hl : ¬ opp.pubs.length < 1 := fun hh => hne ((length_lt_one_iff _).mp hh)
  have hu : (match opp.cp with
      | some cp => !cp.Exists opp.op.fact.cid
      | none => false) = false := by
    cases hcp : opp.cp with
    | none => rfl
    | some cp => simp [hpool cp hcp]
  cases hr : opp.op.fact.policy.feeer.Receiver with
  | none => simp [CurrencyPolicyUpdaterProcessor.PreProcess, hl, hsig, hu, hr, hg]
  | some r =>
    simp [CurrencyPolicyUpdaterProcessor.PreProcess, hl, hsig, hu, hr, hrecv r hr, hg]

theorem PreProcess_reads_of_no_receiver (opp : CurrencyPolicyUpdaterProcessor)
    (getState : GetState) (setState : SetState)
    (hr : opp.op.fact.policy.feeer.Receiver = none) :
    (opp.PreProcess getState setState).reads = [] ∨
      (opp.PreProcess getState setState).reads = [StateKeyCurrencyDesign opp.op.fact.cid] := by
  unfold CurrencyPolicyUpdaterProcessor.PreProcess
  simp only [hr]
  repeat' split
  all_goals simp

theorem PreProcess_congr_of_no_receiver (opp : CurrencyPolicyUpdaterProcessor)
    (getState getState2 : GetState) (setState : SetState)
    (hr : opp.op.fact.policy.feeer.Receiver = none)
    (h : getState2 (StateKeyCurrencyDesign opp.op.fact.cid) =
      getState (StateKeyCurrencyDesign opp.op.fact.cid)) :
    opp.PreProcess getState2 setState = opp.PreProcess getState setState := by
  simp only [CurrencyPolicyUpdaterProcessor.PreProcess, hr, h]

theorem matchedSigns_eq_countP (signs : List FactSign) (pubs : List Publickey) :
    matchedSigns signs pubs = pubs.countP (fun p => signs.any (fun s => s.signer == p)) := by
  induction pubs with
  | nil => rfl
  | cons p ps ih =>
    rw [matchedSigns, ih, List.countP_cons]
    omega

theorem countP_mem_comm (xs ys : List Publickey) (hx : xs.Nodup) (hy : ys.Nodup) :
    xs.countP (fun p => decide (p ∈ ys)) = ys.countP (fun p => decide (p ∈ xs)) := by
  rw [List.countP_eq_length_filter, List.countP_eq_length_filter,
    ← List.toFinset_card_of_nodup (hx.filter _), ← List.toFinset_card_of_nodup (hy.filter _)]
  congr 1
  ext a
  simp only [List.mem_toFinset, List.mem_filter, decide_eq_true_eq]
  exact And.comm

theorem matchedKeys_eq_signs (signs : List FactSign) (pubs : List Publickey)
    (hp : pubs.Nodup) (hs : (signs.map (fun s => s.signer)).Nodup) :
    pubs.countP (fun p => signs.any (fun s => s.signer == p)) =
      signs.countP (fun s => decide (s.signer ∈ pubs)) := by
  have h1 : (fun p => signs.any (fun s => s.signer == p)) =
      (fun p => decide (p ∈ signs.map (fun s => s.signer))) := by
    funext p
    rw [Bool.eq_iff_iff]
    simp
  rw [h1, countP_mem_comm pubs _ hp hs, List.countP_map]
  rfl

theorem checkFactSignsByPubs_eq_none_iff (pubs : List Publickey) (threshold : Threshold)
    (signs : List FactSign) (hne : pubs ≠ []) :
    checkFactSignsByPubs pubs threshold signs = none ↔
      threshold.threshold ≤ matchedSigns signs pubs := by
  have hl : ¬ pubs.length < 1 := fun hh => hne ((length_lt_one_iff _).mp hh)
  unfold checkFactSignsByPubs
  rw [if_neg hl]
  by_cases h : matchedSigns signs pubs < threshold.threshold
  · rw [if_pos h]
    simp only [reduceCtorEq, false_iff, not_le]
    exact h
  · rw [if_neg h]
    simp only [true_iff]
    omega

theorem checkFactSignsByPubs_of_lt (pubs : List Publickey) (threshold : Threshold)
    (signs : List FactSign) (hne : pubs ≠ [])
    (h : matchedSigns signs pubs < threshold.threshold) :
    checkFactSignsByPubs pubs threshold signs = some .notEnoughSigns := by
  have hl : ¬ pubs.length < 1 := fun hh => hne ((length_lt_one_iff _).mp hh)
  unfold checkFactSignsByPubs
  rw [if_neg hl, if_pos h]

/-! ## Currency policy updater: claims -/

/-- C4: when `PreProcess` succeeds it has written nothing and the following
`Process` invokes `setState` exactly once, with the hash of the fact and a single
state keyed as the currency design of the currency of the fact; the design of
that state has the genesis amount and genesis account of the design `PreProcess`
read from the state, and the policy of the fact. -/
theorem CurrencyPolicyUpdaterProcessor.Process_replaces_policy
    (opp : CurrencyPolicyUpdaterProcessor) (getState getState2 : GetState)
    (setState setState2 : SetState)
    (hkey : ∀ k st found, getState k = .ok (st, found) → st.key = k)
    (p : CurrencyPolicyUpdaterProcessor)
    (hpre : (opp.PreProcess getState setState).result = .ok p) :
    (opp.PreProcess getState setState).writes = [] ∧
    ∃ st0 de0 st1 de1,
      getState (StateKeyCurrencyDesign opp.op.fact.cid) = .ok (st0, true) ∧
      StateCurrencyDesignValue st0 = .ok de0 ∧
      (p.Process getState2 setState2).writes = [(opp.op.fact.h, [some st1])] ∧
      st1.key = StateKeyCurrencyDesign opp.op.fact.cid ∧
      StateCurrencyDesignValue st1 = .ok de1 ∧
      de1.amount = de0.amount ∧
      de1.genesisAccount = de0.genesisAccount ∧
      de1.policy = opp.op.fact.policy := by
  refine ⟨PreProcess_writes opp getState setState, ?_⟩
  obtain ⟨-, -, -, -, st0, de0, hg, hd, hp⟩ := (PreProcess_ok_iff opp getState setState p).mp hpre
  subst hp
  refine ⟨st0, de0, { st0 with value := .design (de0.SetPolicy opp.op.fact.policy) },
    de0.SetPolicy opp.op.fact.policy, hg, hd, ?_, ?_, ?_, rfl, rfl, rfl⟩
  · simp [CurrencyPolicyUpdaterProcessor.Process, SetStateCurrencyDesignValue]
  · exact hkey _ st0 true hg
  · simp [StateCurrencyDesignValue]

/-- C4, at a concrete input: a fully signed policy update of `SHOWME` over a
store that holds its design. -/
theorem CurrencyPolicyUpdaterProcessor.Process_replaces_policy_witness :
    ((updaterBy threeKeys).PreProcess designStore acceptAll).result =
      .ok { updaterBy threeKeys with
            st := some { key := "currency-design:SHOWME", value := .design showmeFixed },
            de := showmeFixed } ∧
    ∃ st0 de0 st1 de1,
      designStore (StateKeyCurrencyDesign "SHOWME") = .ok (st0, true) ∧
      StateCurrencyDesignValue st0 = .ok de0 ∧
      (CurrencyPolicyUpdaterProcessor.Process
        { updaterBy threeKeys with
            st := some { key := "currency-design:SHOWME", value := .design showmeFixed },
            de := showmeFixed } emptyStore acceptAll).writes = [([9], [some st1])] ∧
      st1.key = StateKeyCurrencyDesign "SHOWME" ∧
      StateCurrencyDesignValue st1 = .ok de1 ∧
      de1.amount = de0.amount ∧
      de1.genesisAccount = de0.genesisAccount ∧
      de1.policy = policyNil :=
  ⟨rfl, (CurrencyPolicyUpdaterProcessor.Process_replaces_policy (updaterBy threeKeys)
    designStore emptyStore acceptAll acceptAll (storeOf_key _) _ rfl).2⟩

/-- C5, as stated, fails: with an empty public key set and a currency that has no
currency-design state, `PreProcess` fails with the empty-publickeys error, not
with an unknown-currency error. -/
theorem CurrencyPolicyUpdaterProcessor.PreProcess_unregistered_other_error :
    emptyStore (StateKeyCurrencyDesign updaterNoKeys.op.fact.cid) =
      .ok ({ key := "currency-design:SHOWME", value := .empty }, false) ∧
    (updaterNoKeys.PreProcess emptyStore acceptAll).result = .error .emptyPublickeys ∧
    (updaterNoKeys.PreProcess emptyStore acceptAll).result ≠
      .error (.unknownCurrency updaterNoKeys.op.fact.cid) := by
  refine ⟨rfl, rfl, ?_⟩
  rw [show (updaterNoKeys.PreProcess emptyStore acceptAll).result = .error .emptyPublickeys from rfl]
  intro h
  cases h

/-- C5, amended: `PreProcess` fails whenever the currency of the fact is not
registered (a non-nil pool does not know it, or `getState` finds no
currency-design state for it); the error is the unknown-currency error when the
public key set is non-empty and the signature check passes and, for the state
case, the pool does not reject and the lookup of the feeer receiver passes;
`PreProcess` succeeds only if the currency-design state is found and decodes to a
`CurrencyDesign`. -/
theorem CurrencyPolicyUpdaterProcessor.PreProcess_unknown_currency
    (opp : CurrencyPolicyUpdaterProcessor) (getState : GetState) (setState : SetState) :
    (((∃ cp, opp.cp = some cp ∧ cp.Exists opp.op.fact.cid = false) ∨
        (∃ st, getState (StateKeyCurrencyDesign opp.op.fact.cid) = .ok (st, false))) →
      ∃ e, (opp.PreProcess getState setState).result = .error e) ∧
    (opp.pubs ≠ [] → checkFactSignsByPubs opp.pubs opp.threshold opp.op.Signs = none →
      (∃ cp, opp.cp = some cp ∧ cp.Exists opp.op.fact.cid = false) →
      (opp.PreProcess getState setState).result = .error (.unknownCurrency opp.op.fact.cid)) ∧
    (opp.pubs ≠ [] → checkFactSignsByPubs opp.pubs opp.threshold opp.op.Signs = none →
      (∀ cp, opp.cp = some cp → cp.Exists opp.op.fact.cid = true) →
      (∀ r, opp.op.fact.policy.feeer.Receiver = some r →
        ∃ st, getState (StateKeyAccount r) = .ok (st, true)) →
      (∃ st, getState (StateKeyCurrencyDesign opp.op.fact.cid) = .ok (st, false)) →
      (opp.PreProcess getState setState).result = .error (.unknownCurrency opp.op.fact.cid)) ∧
    (∀ p, (opp.PreProcess getState setState).result = .ok p →
      ∃ st de, getState (StateKeyCurrencyDesign opp.op.fact.cid) = .ok (st, true) ∧
        StateCurrencyDesignValue st = .ok de) := by
  refine ⟨?_, ?_, ?_, ?_⟩
  · intro hcause
    cases hres : (opp.PreProcess getState setState).result with
    | error e => exact ⟨e, rfl⟩
    | ok p =>
      exfalso
      obtain ⟨-, -, hpool, -, st, de, hg, -, -⟩ :=
        (PreProcess_ok_iff opp getState setState p).mp hres
      rcases hcause with ⟨cp, hcp, hex⟩ | ⟨st2, hg2⟩
      · rw [hpool cp hcp] at hex
        cases hex
      · rw [hg] at hg2
        simp at hg2
  · rintro hne hsig ⟨cp, hcp, hex⟩
    rw [PreProcess_of_pool_miss opp getState setState hne hsig cp hcp hex]
  · rintro hne hsig hpool hrecv ⟨st, hg⟩
    exact PreProcess_of_state_miss opp getState setState hne hsig hpool
      (fun r hr => (checkExistsState_eq_none_iff _ _).mpr (hrecv r hr)) st hg
  · intro p hres
    obtain ⟨-, -, -, -, st, de, hg, hd, -⟩ := (PreProcess_ok_iff opp getState setState p).mp hres
    exact ⟨st, de, hg, hd⟩

/-- C5 amended, at a concrete input: a fully signed update of `SHOWME` over a
store that holds no currency-design state fails with the unknown-currency error. -/
theorem CurrencyPolicyUpdaterProcessor.PreProcess_unknown_currency_witness :
    (∃ st, emptyStore (StateKeyCurrencyDesign "SHOWME") = .ok (st, false)) ∧
    ((updaterBy threeKeys).PreProcess emptyStore acceptAll).result =
      .error (.unknownCurrency "SHOWME") :=
  ⟨⟨_, rfl⟩,
   (CurrencyPolicyUpdaterProcessor.PreProcess_unknown_currency (updaterBy threeKeys)
      emptyStore acceptAll).2.2.1 (by decide) rfl (fun cp h => by cases h)
      (fun r h => by cases h) ⟨_, rfl⟩⟩

/-- C6: when the feeer of the new policy has a receiver whose account state does
not exist, `PreProcess` fails; when the feeer has no receiver, `PreProcess` passes
no account key to `getState` (it reads nothing or only the currency-design key)
and returns the same for any two stores that agree on the currency-design key. -/
theorem CurrencyPolicyUpdaterProcessor.PreProcess_receiver_lookup
    (opp : CurrencyPolicyUpdaterProcessor) (getState : GetState) (setState : SetState) :
    (∀ r, opp.op.fact.policy.feeer.Receiver = some r →
      (∃ st, getState (StateKeyAccount r) = .ok (st, false)) →
      ∃ e, (opp.PreProcess getState setState).result = .error e) ∧
    (opp.op.fact.policy.feeer.Receiver = none →
      (∀ a, StateKeyAccount a ∉ (opp.PreProcess getState setState).reads) ∧
      ((opp.PreProcess getState setState).reads = [] ∨
        (opp.PreProcess getState setState).reads = [StateKeyCurrencyDesign opp.op.fact.cid]) ∧
      ∀ getState2 : GetState,
        getState2 (StateKeyCurrencyDesign opp.op.fact.cid) =
          getState (StateKeyCurrencyDesign opp.op.fact.cid) →
        opp.PreProcess getState2 setState = opp.PreProcess getState setState) := by
  constructor
  · rintro r hr ⟨st, hg⟩
    cases hres : (opp.PreProcess getState setState).result with
    | error e => exact ⟨e, rfl⟩
    | ok p =>
      exfalso
      obtain ⟨-, -, -, hrecv, -⟩ := (PreProcess_ok_iff opp getState setState p).mp hres
      obtain ⟨st2, hg2⟩ := (checkExistsState_eq_none_iff _ _).mp (hrecv r hr)
      rw [hg] at hg2
      simp at hg2
  · intro hr
    have hreads := PreProcess_reads_of_no_receiver opp getState setState hr
    refine ⟨?_, hreads, fun getState2 h =>
      PreProcess_congr_of_no_receiver opp getState getState2 setState hr h⟩
    intro a hmem
    rcases hreads with h0 | h1
    · rw [h0] at hmem
      simp at hmem
    · rw [h1] at hmem
      exact StateKeyAccount_ne_StateKeyCurrencyDesign a _ (List.mem_singleton.mp hmem)

/-- C6, at a concrete input: a fully signed update whose new feeer pays the
account `nobody`, which has no account state, fails. -/
theorem CurrencyPolicyUpdaterProcessor.PreProcess_receiver_lookup_witness :
    (∃ st, designStore (StateKeyAccount "nobody") = .ok (st, false)) ∧
    ∃ e, ((NewCurrencyPolicyUpdaterProcessor none threeKeys (NewThreshold 3 100)
      (updateShowme policyNobody threeKeys)).PreProcess designStore acceptAll).result = .error e :=
  ⟨⟨_, rfl⟩,
   (CurrencyPolicyUpdaterProcessor.PreProcess_receiver_lookup
      (NewCurrencyPolicyUpdaterProcessor none threeKeys (NewThreshold 3 100)
        (updateShowme policyNobody threeKeys)) designStore acceptAll).1 "nobody" rfl ⟨_, rfl⟩⟩

/-- C10: with a nil pool `PreProcess` decides from the state alone: it succeeds
if and only if the public key set is non-empty, the signature check passes, the
receiver of the new feeer (if any) has an account state, and `getState` finds a
currency-design state that decodes; a processor with a non-nil pool that reports
the currency as existing returns the same result (the same error, or the same
stored state and design), after the same reads and no writes. -/
theorem CurrencyPolicyUpdaterProcessor.PreProcess_nil_pool
    (opp : CurrencyPolicyUpdaterProcessor) (getState : GetState) (setState : SetState)
    (hnil : opp.cp = none) :
    ((∃ p, (opp.PreProcess getState setState).result = .ok p) ↔
      opp.pubs ≠ [] ∧
      checkFactSignsByPubs opp.pubs opp.threshold opp.op.Signs = none ∧
      (∀ r, opp.op.fact.policy.feeer.Receiver = some r →
        ∃ st, getState (StateKeyAccount r) = .ok (st, true)) ∧
      ∃ st de, getState (StateKeyCurrencyDesign opp.op.fact.cid) = .ok (st, true) ∧
        StateCurrencyDesignValue st = .ok de) ∧
    (∀ pool : CurrencyPool, pool.Exists opp.op.fact.cid = true →
      (CurrencyPolicyUpdaterProcessor.PreProcess { opp with cp := some pool }
          getState setState).result =
        (opp.PreProcess getState setState).result.map (fun p => { p with cp := some pool }) ∧
      (CurrencyPolicyUpdaterProcessor.PreProcess { opp with cp := some pool }
          getState setState).reads = (opp.PreProcess getState setState).reads ∧
      (CurrencyPolicyUpdaterProcessor.PreProcess { opp with cp := some pool }
          getState setState).writes = (opp.PreProcess getState setState).writes) := by
  constructor
  · constructor
    · rintro ⟨p, hres⟩
      obtain ⟨h1, h2, -, h4, st, de, hg, hd, -⟩ :=
        (PreProcess_ok_iff opp getState setState p).mp hres
      exact ⟨h1, h2, fun r hr => (checkExistsState_eq_none_iff _ _).mp (h4 r hr), st, de, hg, hd⟩
    · rintro ⟨h1, h2, h4, st, de, hg, hd⟩
      refine ⟨_, (PreProcess_ok_iff opp getState setState _).mpr
        ⟨h1, h2, ?_, fun r hr => (checkExistsState_eq_none_iff _ _).mpr (h4 r hr),
          st, de, hg, hd, rfl⟩⟩
      intro cp hcp
      rw [hnil] at hcp
      cases hcp
  · intro pool hex
    simp only [CurrencyPolicyUpdaterProcessor.PreProcess, hnil, hex]
    refine ⟨?_, ?_, ?_⟩ <;>
    · repeat' split
      all_goals simp_all [Except.map]

/-- C10, at a concrete input: the fully signed update of `SHOWME` without a pool,
and with a pool that knows `SHOWME`. -/
theorem CurrencyPolicyUpdaterProcessor.PreProcess_nil_pool_witness :
    (updaterBy threeKeys).cp = none ∧
    showmePool.Exists "SHOWME" = true ∧
    (∃ p, ((updaterBy threeKeys).PreProcess designStore acceptAll).result = .ok p) ∧
    (CurrencyPolicyUpdaterProcessor.PreProcess
        { updaterBy threeKeys with cp := some showmePool } designStore acceptAll).result =
      ((updaterBy threeKeys).PreProcess designStore acceptAll).result.map
        (fun p => { p with cp := some showmePool }) :=
  ⟨rfl, rfl,
   (CurrencyPolicyUpdaterProcessor.PreProcess_nil_pool (updaterBy threeKeys) designStore
      acceptAll rfl).1.mpr
      (And.intro (by decide) (And.intro rfl (And.intro
        (fun (r : Address) (h : Feeer.Receiver .nil = some r) => by cases h)
        ⟨_, _, rfl, rfl⟩))),
   ((CurrencyPolicyUpdaterProcessor.PreProcess_nil_pool (updaterBy threeKeys) designStore
      acceptAll rfl).2 showmePool rfl).1⟩

/-! ## Operator signatures: claims -/

/-- C7: a `CurrencyPolicyUpdaterProcessor` and a `CurrencyRegisterProcessor`
configured with an empty public key set reject every operation in `PreProcess`
with the empty-publickeys error, before any state is read, whatever the signs,
the threshold, the pool and the state. -/
theorem PreProcess_empty_publickeys
    (upd : CurrencyPolicyUpdaterProcessor) (reg : CurrencyRegisterProcessor)
    (getState : GetState) (setState : SetState)
    (hupd : upd.pubs = []) (hreg : reg.pubs = []) :
    upd.PreProcess getState setState =
      { result := .error .emptyPublickeys, reads := [], writes := [] } ∧
    (reg.PreProcess getState setState).result = .error .emptyPublickeys ∧
    (reg.PreProcess getState setState).reads = [] ∧
    (reg.PreProcess getState setState).writes = [] := by
  refine ⟨PreProcess_of_empty upd getState setState hupd, ?_, ?_, ?_⟩ <;>
    simp [CurrencyRegisterProcessor.PreProcess, checkFactSignsByPubs, hreg]

/-- C7, at a concrete input: the fully signed update of `SHOWME` and the
registration of `FINDME` as the test builds its processor, over a store in which
nothing else is wrong. -/
theorem PreProcess_empty_publickeys_witness :
    updaterNoKeys.PreProcess designStore acceptAll =
      { result := .error .emptyPublickeys, reads := [], writes := [] } ∧
    ((CurrencyRegisterProcessor.ofOperation (registerFindme threeKeys)).PreProcess
      genesisStore acceptAll).result = .error .emptyPublickeys ∧
    ((CurrencyRegisterProcessor.ofOperation (registerFindme threeKeys)).PreProcess
      genesisStore acceptAll).reads = [] ∧
    ((CurrencyRegisterProcessor.ofOperation (registerFindme threeKeys)).PreProcess
      genesisStore acceptAll).writes = [] :=
  PreProcess_empty_publickeys updaterNoKeys
    (CurrencyRegisterProcessor.ofOperation (registerFindme threeKeys))
    designStore acceptAll rfl rfl

/-- C8: for a processor with a non-empty public key set, the signature check of
`PreProcess` passes if and only if the number of configured keys that made a fact
sign reaches the threshold, and otherwise `PreProcess` fails with the
not-enough-signs error without reading any state; when the configured keys and
the signers are pairwise distinct that number is the number of fact signs made
by configured keys.  With three keys at 100 percent, an operation signed by two
of them is rejected and one signed by all three passes, for the policy updater
and for the register processor. -/
theorem PreProcess_signature_check
    (opp : CurrencyPolicyUpdaterProcessor) (getState : GetState) (setState : SetState)
    (hne : opp.pubs ≠ []) :
    (checkFactSignsByPubs opp.pubs opp.threshold opp.op.Signs = none ↔
      opp.threshold.threshold ≤
        opp.pubs.countP (fun p => opp.op.Signs.any (fun s => s.signer == p))) ∧
    (opp.pubs.countP (fun p => opp.op.Signs.any (fun s => s.signer == p)) <
        opp.threshold.threshold →
      opp.PreProcess getState setState =
        { result := .error .notEnoughSigns, reads := [], writes := [] }) ∧
    (opp.pubs.Nodup → (opp.op.Signs.map (fun s => s.signer)).Nodup →
      opp.pubs.countP (fun p => opp.op.Signs.any (fun s => s.signer == p)) =
        opp.op.Signs.countP (fun s => decide (s.signer ∈ opp.pubs))) ∧
    (NewThreshold 3 100).threshold = 3 ∧
    ((updaterBy ["key-a", "key-b"]).PreProcess designStore acceptAll).result =
      .error .notEnoughSigns ∧
    (∃ p, ((updaterBy threeKeys).PreProcess designStore acceptAll).result = .ok p) ∧
    ((registerBy ["key-a", "key-b"]).PreProcess genesisStore acceptAll).result =
      .error .notEnoughSigns ∧
    (∃ p, ((registerBy threeKeys).PreProcess genesisStore acceptAll).result = .ok p) := by
  refine ⟨?_, ?_, ?_, rfl, rfl, ⟨_, rfl⟩, rfl, ⟨_, rfl⟩⟩
  · rw [← matchedSigns_eq_countP]
    exact checkFactSignsByPubs_eq_none_iff _ _ _ hne
  · intro hlt
    rw [← matchedSigns_eq_countP] at hlt
    exact PreProcess_of_sign_error opp getState setState hne _
      (checkFactSignsByPubs_of_lt _ _ _ hne hlt)
  · intro hp hs
    exact matchedKeys_eq_signs _ _ hp hs

/-- C8, at a concrete input: three keys at 100 percent and the signs of two of
them. -/
theorem PreProcess_signature_check_witness :
    (updaterBy ["key-a", "key-b"]).pubs ≠ [] ∧
    (updaterBy ["key-a", "key-b"]).PreProcess designStore acceptAll =
      { result := .error .notEnoughSigns, reads := [], writes := [] } :=
  ⟨by decide,
   (PreProcess_signature_check (updaterBy ["key-a", "key-b"]) designStore acceptAll
      (by decide)).2.1 (by decide)⟩

/-- C9: the signature check is monotone in the threshold: for the same keys and
signs, a check that fails at a threshold fails at every greater one, and a check
that passes at a threshold passes at every smaller one; so does `PreProcess` as
a whole, and a greater percent of the same number of keys gives a greater or
equal threshold. -/
theorem checkFactSignsByPubs_monotone
    (pubs : List Publickey) (signs : List FactSign) (t t2 : Threshold)
    (hle : t.threshold ≤ t2.threshold) :
    (checkFactSignsByPubs pubs t signs ≠ none → checkFactSignsByPubs pubs t2 signs ≠ none) ∧
    (checkFactSignsByPubs pubs t2 signs = none → checkFactSignsByPubs pubs t signs = none) ∧
    (∀ (opp : CurrencyPolicyUpdaterProcessor) (getState : GetState) (setState : SetState),
      opp.pubs = pubs → opp.op.Signs = signs →
      (∃ p, (CurrencyPolicyUpdaterProcessor.PreProcess { opp with threshold := t2 }
          getState setState).result = .ok p) →
      ∃ p, (CurrencyPolicyUpdaterProcessor.PreProcess { opp with threshold := t }
          getState setState).result = .ok p) ∧
    (∀ total p p2 : Nat, p ≤ p2 →
      (NewThreshold total p).threshold ≤ (NewThreshold total p2).threshold) := by
  have hpass : checkFactSignsByPubs pubs t2 signs = none →
      checkFactSignsByPubs pubs t signs = none := by
    intro h
    by_cases hne : pubs = []
    · subst hne
      simp [checkFactSignsByPubs] at h
    · rw [checkFactSignsByPubs_eq_none_iff _ _ _ hne] at h ⊢
      omega
  refine ⟨fun hfail h2 => hfail (hpass h2), hpass, ?_, ?_⟩
  · rintro opp getState setState hp hs ⟨p, hres⟩
    obtain ⟨h1, h2, h3, h4, st, de, hg, hd, -⟩ := (PreProcess_ok_iff _ getState setState p).mp hres
    refine ⟨_, (PreProcess_ok_iff _ getState setState _).mpr
      ⟨h1, ?_, h3, h4, st, de, hg, hd, rfl⟩⟩
    simp only [hp, hs] at h2 ⊢
    exact hpass h2
  · intro total p p2 hpp
    simp only [NewThreshold]
    exact Nat.div_le_div_right (Nat.add_le_add_right (Nat.mul_le_mul_left total hpp) 99)

/-- C9, at a concrete input: three keys all signing pass at 100 percent, hence at
67 percent. -/
theorem checkFactSignsByPubs_monotone_witness :
    (NewThreshold 3 67).threshold ≤ (NewThreshold 3 100).threshold ∧
    checkFactSignsByPubs threeKeys (NewThreshold 3 100) (threeKeys.map signOf) = none ∧
    checkFactSignsByPubs threeKeys (NewThreshold 3 67) (threeKeys.map signOf) = none :=
  ⟨by decide, rfl,
   (checkFactSignsByPubs_monotone threeKeys (threeKeys.map signOf) (NewThreshold 3 67)
      (NewThreshold 3 100) (by decide)).2.1 rfl⟩

/-! ## Nil pool and pool refresh: lemmas -/

theorem StateKeyBalance_ne_StateKeyCurrencyDesign (a : Address) (c cid : CurrencyID) :
    StateKeyBalance a c ≠ StateKeyCurrencyDesign cid := by
  intro h
  have hd := congrArg String.data h
  simp only [StateKeyBalance, StateKeyCurrencyDesign, String.data_append] at hd
  have hh := congrArg List.head? hd
  simp at hh

theorem processAmount_reads (cp : Option CurrencyPool) (getState : GetState) (am : Amount)
    (cid : CurrencyID) :
    StateKeyCurrencyDesign cid ∉ (FeeOperationProcessor.processAmount cp getState am).2 := by
  have ha := fun a => (StateKeyAccount_ne_StateKeyCurrencyDesign a cid).symm
  have hb := fun a c => (StateKeyBalance_ne_StateKeyCurrencyDesign a c cid).symm
  unfold FeeOperationProcessor.processAmount
  repeat' split
  all_goals simp [ha, hb]

theorem collect_reads (cp : Option CurrencyPool) (getState : GetState) (cid : CurrencyID) :
    ∀ ams : List Amount,
      StateKeyCurrencyDesign cid ∉ (FeeOperationProcessor.collect cp getState ams).2 := by
  intro ams
  induction ams with
  | nil => simp [FeeOperationProcessor.collect]
  | cons a rest ih =>
    have h1 := processAmount_reads cp getState a cid
    unfold FeeOperationProcessor.collect
    rcases hp : FeeOperationProcessor.processAmount cp getState a with ⟨r1, rs1⟩
    rw [hp] at h1
    rcases hc : FeeOperationProcessor.collect cp getState rest with ⟨r2, rs2⟩
    rw [hc] at ih
    cases r1 <;> cases r2 <;> simp_all

theorem Process_reads_eq (opp : FeeOperationProcessor) (getState : GetState)
    (setState : SetState) :
    (opp.Process getState setState).reads =
      (FeeOperationProcessor.collect opp.cp getState opp.op.fact.amounts).2 := by
  rcases hc : FeeOperationProcessor.collect opp.cp getState opp.op.fact.amounts with ⟨r, rs⟩
  cases r <;> simp [FeeOperationProcessor.Process, hc]

/-! ## Nil pool and pool refresh: claims -/

/-- C11, the code at the failing input: a fee settlement of one amount by a
processor built with a nil pool faults on `opp.cp.Feeer`, for every store, before
any state is read or written; and for no processor and no store does `Process`
pass a currency-design key to `getState`. -/
theorem FeeOperationProcessor.Process_nil_pool_fault :
    (∀ (getState : GetState) (setState : SetState),
      (feeNilPool.Process getState setState).result = .error .nilPointer ∧
      (feeNilPool.Process getState setState).reads = [] ∧
      (feeNilPool.Process getState setState).writes = []) ∧
    (∀ (opp : FeeOperationProcessor) (getState : GetState) (setState : SetState)
      (cid : CurrencyID),
      StateKeyCurrencyDesign cid ∉ (opp.Process getState setState).reads) := by
  constructor
  · intro getState setState
    exact ⟨rfl, rfl, rfl⟩
  · intro opp getState setState cid
    rw [Process_reads_eq]
    exact collect_reads opp.cp getState cid _

/-- C12, as stated, fails: a fully signed update of `SHOWME` to the nil-feeer
policy, by a processor built with a pool that holds `SHOWME` with its fixed
feeer, is validated and committed; `Process` returns only its error and hands the
new design to `setState`, and the pool the processor was built with still
answers the lookup of `SHOWME` with the replaced policy and its feeer. -/
theorem CurrencyPolicyUpdaterProcessor.Process_pool_not_refreshed :
    ∃ p, (updaterWithPool.PreProcess designStore acceptAll).result = .ok p ∧
      (p.Process designStore acceptAll).result = .ok () ∧
      (p.Process designStore acceptAll).writes =
        [([9], [some { key := "currency-design:SHOWME",
                       value := .design { showmeFixed with policy := policyNil } }])] ∧
      p.cp = some showmePool ∧
      showmePool.Design "SHOWME" = some showmeFixed ∧
      showmePool.Feeer "SHOWME" = some (.fixed (some "fee-receiver") 1) ∧
      showmeFixed.policy ≠ policyNil ∧
      showmeFixed.policy.feeer ≠ policyNil.feeer :=
  ⟨_, rfl, rfl, rfl, rfl, rfl, rfl, by decide, by decide⟩

/-- C12, amended: after a successful `PreProcess`, `Process` hands `setState` the
currency-design state with the new policy, and succeeds exactly when `setState`
accepts it; a later `PreProcess` for the same currency that reads this state
stores a design with the new policy; the processor keeps the pool it was built
with, which neither `PreProcess` nor `Process` changes. -/
theorem CurrencyPolicyUpdaterProcessor.Process_commits_to_state
    (opp : CurrencyPolicyUpdaterProcessor) (getState getState2 : GetState)
    (setState setState2 : SetState) (p : CurrencyPolicyUpdaterProcessor)
    (hpre : (opp.PreProcess getState setState).result = .ok p) :
    p.cp = opp.cp ∧
    ∃ st1 de1,
      (p.Process getState2 setState2).writes = [(opp.op.fact.h, [some st1])] ∧
      ((p.Process getState2 setState2).result = .ok () ↔
        setState2 opp.op.fact.h [some st1] = none) ∧
      StateCurrencyDesignValue st1 = .ok de1 ∧
      de1.policy = opp.op.fact.policy ∧
      ∀ (opp2 p2 : CurrencyPolicyUpdaterProcessor) (getState3 : GetState) (setState3 : SetState),
        opp2.op.fact.cid = opp.op.fact.cid →
        getState3 (StateKeyCurrencyDesign opp.op.fact.cid) = .ok (st1, true) →
        (opp2.PreProcess getState3 setState3).result = .ok p2 →
        p2.de.policy = opp.op.fact.policy := by
  obtain ⟨-, -, -, -, st0, de0, hg, hd, hp⟩ := (PreProcess_ok_iff opp getState setState p).mp hpre
  subst hp
  refine ⟨rfl, { st0 with value := .design (de0.SetPolicy opp.op.fact.policy) },
    de0.SetPolicy opp.op.fact.policy, ?_, ?_, ?_, rfl, ?_⟩
  · simp [CurrencyPolicyUpdaterProcessor.Process, SetStateCurrencyDesignValue]
  · simp only [CurrencyPolicyUpdaterProcessor.Process, SetStateCurrencyDesignValue]
    cases hs : setState2 opp.op.fact.h
      [some { st0 with value := .design (de0.SetPolicy opp.op.fact.policy) }] <;> simp
  · simp [StateCurrencyDesignValue]
  · intro opp2 p2 getState3 setState3 hcid hg3 hpre2
    obtain ⟨-, -, -, -, st2, de2, hg2, hd2, hp2⟩ :=
      (PreProcess_ok_iff opp2 getState3 setState3 p2).mp hpre2
    rw [hcid, hg3] at hg2
    simp only [Except.ok.injEq, Prod.mk.injEq, and_true] at hg2
    subst hg2
    subst hp2
    simp only [StateCurrencyDesignValue, Except.ok.injEq] at hd2
    rw [← hd2]
    rfl

/-- C12 amended, at a concrete input: the update of `SHOWME` by the processor built
with a pool. -/
theorem CurrencyPolicyUpdaterProcessor.Process_commits_to_state_witness :
    (updaterWithPool.PreProcess designStore acceptAll).result =
      .ok { updaterWithPool with
            st := some { key := "currency-design:SHOWME", value := .design showmeFixed },
            de := showmeFixed } ∧
    ({ updaterWithPool with
        st := some { key := "currency-design:SHOWME", value := .design showmeFixed },
        de := showmeFixed } : CurrencyPolicyUpdaterProcessor).cp = updaterWithPool.cp :=
  ⟨rfl, (CurrencyPolicyUpdaterProcessor.Process_commits_to_state updaterWithPool designStore
    designStore acceptAll acceptAll _ rfl).1⟩

/-! ## Account items: claims -/

/-- C13: `CreateAccountsItemMultiAmounts.IsValid` succeeds if and only if the
embedded base item is valid and the item carries at most 10 amounts; a
base-valid item of exactly 10 amounts is accepted and every item of 11 or more
amounts is rejected. -/
theorem CreateAccountsItemMultiAmounts.IsValid_iff
    (baseIsValid : BaseCreateAccountsItem → Option Err) (it : CreateAccountsItemMultiAmounts) :
    (it.IsValid baseIsValid = none ↔
      baseIsValid it.base = none ∧ it.base.amounts.length ≤ 10) ∧
    (baseIsValid it.base = none → it.base.amounts.length = 10 →
      it.IsValid baseIsValid = none) ∧
    (11 ≤ it.base.amounts.length → it.IsValid baseIsValid ≠ none) := by
  have key : it.IsValid baseIsValid = none ↔
      baseIsValid it.base = none ∧ it.base.amounts.length ≤ 10 := by
    unfold CreateAccountsItemMultiAmounts.IsValid maxCurenciesCreateAccountsItemMultiAmounts
    cases hb : baseIsValid it.base with
    | some err => simp
    | none =>
      by_cases hn : it.base.amounts.length > 10
      · simp [hn]
      · simp only [hn, if_false, true_and, true_iff]
        omega
  refine ⟨key, fun hb hn => key.mpr ⟨hb, by omega⟩, fun hn h => ?_⟩
  have := (key.mp h).2
  omega

/-- C13, at a concrete input: an item of exactly 10 amounts is accepted. -/
theorem CreateAccountsItemMultiAmounts.IsValid_iff_witness :
    baseNonEmpty (itemOf 10).base = none ∧
    (itemOf 10).base.amounts.length = 10 ∧
    (itemOf 10).IsValid baseNonEmpty = none ∧
    (itemOf 11).IsValid baseNonEmpty = some (.amountsOverAllowed 11 10) :=
  ⟨rfl, rfl,
   (CreateAccountsItemMultiAmounts.IsValid_iff baseNonEmpty (itemOf 10)).2.1 rfl rfl, rfl⟩

/-! ## Facts and hashes: lemmas -/

theorem ConcatBytesSlice_append (xs ys : List Bytes) :
    ConcatBytesSlice (xs ++ ys) = ConcatBytesSlice xs ++ ConcatBytesSlice ys := by
  induction xs with
  | nil => rfl
  | cons x xs ih => simp [ConcatBytesSlice, ih]

theorem KeyUpdaterFact.Bytes_eq (P : Primitives) (fact : KeyUpdaterFact) :
    fact.Bytes P =
      fact.token ++ P.addressBytes fact.target ++ P.keysBytes fact.keys ++
        P.currencyBytes fact.currency := by
  simp [KeyUpdaterFact.Bytes, ConcatBytesSlice]

theorem isvalidCheck_four (a b c d : Option Err) :
    isvalidCheck [a, b, c, d] = none ↔ a = none ∧ b = none ∧ c = none ∧ d = none := by
  cases a <;> cases b <;> cases c <;> cases d <;> simp [isvalidCheck]

theorem KeyUpdaterFact.IsValid_eq_none_iff (P : Primitives) (fact : KeyUpdaterFact) :
    fact.IsValid P = none ↔
      fact.token ≠ [] ∧ P.hashIsValid fact.h = none ∧ P.addressIsValid fact.target = none ∧
      P.keysIsValid fact.keys = none ∧ P.currencyIsValid fact.currency = none ∧
      fact.h = fact.GenerateHash P := by
  unfold KeyUpdaterFact.IsValid
  by_cases ht : fact.token.length < 1
  · have : fact.token = [] := (length_lt_one_iff _).mp ht
    simp [ht, this]
  · have hne : fact.token ≠ [] := fun h => ht ((length_lt_one_iff _).mpr h)
    rw [if_neg ht]
    cases hc : isvalidCheck [P.hashIsValid fact.h, P.addressIsValid fact.target,
        P.keysIsValid fact.keys, P.currencyIsValid fact.currency] with
    | some err =>
      have hn : ¬ (P.hashIsValid fact.h = none ∧ P.addressIsValid fact.target = none ∧
          P.keysIsValid fact.keys = none ∧ P.currencyIsValid fact.currency = none) := by
        intro h
        rw [(isvalidCheck_four _ _ _ _).mpr h] at hc
        cases hc
      simp only [reduceCtorEq, false_iff]
      rintro ⟨-, h1, h2, h3, h4, -⟩
      exact hn ⟨h1, h2, h3, h4⟩
    | none =>
      obtain ⟨h1, h2, h3, h4⟩ := (isvalidCheck_four _ _ _ _).mp hc
      by_cases hh : fact.h = fact.GenerateHash P
      · simp only [hh, not_true_eq_false, if_false, true_iff]
        exact ⟨hne, hh ▸ h1, h2, h3, h4, trivial⟩
      · rw [if_pos hh]
        simp only [reduceCtorEq, false_iff]
        rintro ⟨-, -, -, -, -, h⟩
        exact hh h

theorem KeyUpdater.GenerateHash_unfold (P : Primitives) (op : KeyUpdater) :
    op.GenerateHash P =
      P.NewSHA256 (op.Fact.Hash ++ ConcatBytesSlice (op.Signs.map P.factSignBytes) ++
        P.memoBytes op.Memo) := by
  simp [KeyUpdater.GenerateHash, ConcatBytesSlice, ConcatBytesSlice_append]

theorem NewKeyUpdaterFact_bytes (P : Primitives) (token : Bytes) (target : Address)
    (keys : Keys) (currency : CurrencyID) :
    (NewKeyUpdaterFact P token target keys currency).Bytes P =
      token ++ P.addressBytes target ++ P.keysBytes keys ++ P.currencyBytes currency := by
  rw [KeyUpdaterFact.Bytes_eq]
  rfl

/-! ## Facts and hashes: claims -/

/-- C14: the fact `NewKeyUpdaterFact` returns has the given fields, its `Bytes()`
is the token, the target address bytes, the keys bytes and the currency id bytes
in this order, and its `Hash()` is SHA256 of its `Bytes()`; so the stored hash
equals the regenerated one, and `IsValid` accepts the fact exactly when the token
is not empty and the stored hash, the target, the keys and the currency are
valid. -/
theorem NewKeyUpdaterFact_hash (P : Primitives) (token : Bytes) (target : Address)
    (keys : Keys) (currency : CurrencyID) :
    (NewKeyUpdaterFact P token target keys currency).Bytes P =
      token ++ P.addressBytes target ++ P.keysBytes keys ++ P.currencyBytes currency ∧
    (NewKeyUpdaterFact P token target keys currency).Hash =
      P.NewSHA256 ((NewKeyUpdaterFact P token target keys currency).Bytes P) ∧
    (NewKeyUpdaterFact P token target keys currency).h =
      (NewKeyUpdaterFact P token target keys currency).GenerateHash P ∧
    ((NewKeyUpdaterFact P token target keys currency).IsValid P = none ↔
      token ≠ [] ∧
      P.hashIsValid (NewKeyUpdaterFact P token target keys currency).Hash = none ∧
      P.addressIsValid target = none ∧ P.keysIsValid keys = none ∧
      P.currencyIsValid currency = none) := by
  have hb := NewKeyUpdaterFact_bytes P token target keys currency
  have hh : (NewKeyUpdaterFact P token target keys currency).h =
      (NewKeyUpdaterFact P token target keys currency).GenerateHash P := rfl
  refine ⟨hb, rfl, hh, ?_⟩
  rw [KeyUpdaterFact.IsValid_eq_none_iff]
  constructor
  · rintro ⟨h0, h1, h2, h3, h4, -⟩
    exact ⟨h0, h1, h2, h3, h4⟩
  · rintro ⟨h0, h1, h2, h3, h4⟩
    exact ⟨h0, h1, h2, h3, h4, hh⟩

/-- C14, at a concrete input: a constructed fact with a token and valid parts
passes `IsValid`. -/
theorem NewKeyUpdaterFact_hash_witness :
    (NewKeyUpdaterFact plainPrimitives [1, 2] "target" oneKey "SHOWME").IsValid plainPrimitives =
      none :=
  (NewKeyUpdaterFact_hash plainPrimitives [1, 2] "target" oneKey "SHOWME").2.2.2.mpr
    ⟨by decide, rfl, rfl, rfl, rfl⟩

/-- C15: `KeyUpdaterFact.IsValid` returns an error if and only if the token is
empty, or the stored hash, the target address, the keys or the currency id is
invalid, or the stored hash differs from the hash regenerated from the bytes of
the fact. -/
theorem KeyUpdaterFact.IsValid_error_iff (P : Primitives) (fact : KeyUpdaterFact) :
    (∃ err, fact.IsValid P = some err) ↔
      fact.token = [] ∨ P.hashIsValid fact.h ≠ none ∨ P.addressIsValid fact.target ≠ none ∨
      P.keysIsValid fact.keys ≠ none ∨ P.currencyIsValid fact.currency ≠ none ∨
      fact.h ≠ P.NewSHA256 (fact.Bytes P) := by
  have h := KeyUpdaterFact.IsValid_eq_none_iff P fact
  rw [← Option.isSome_iff_exists, ← Option.ne_none_iff_isSome, Ne, h]
  simp only [KeyUpdaterFact.GenerateHash]
  tauto

/-- C16, the code at the failing input: a fee fact whose stored hash is well
formed but is not the hash of its bytes passes `FeeOperationFact.IsValid`, and so
does the same fact with any other non-empty stored hash: `IsValid` never compares
the stored hash with the hash of `Bytes()`. -/
theorem FeeOperationFact.IsValid_accepts_wrong_hash :
    feeFactWrongHash.Hash ≠ plainPrimitives.NewSHA256 (feeFactWrongHash.Bytes plainPrimitives) ∧
    feeFactWrongHash.IsValid plainPrimitives = none ∧
    (∀ (x : Nat) (xs : List Nat),
      FeeOperationFact.IsValid plainPrimitives { feeFactWrongHash with h := x :: xs } = none) := by
  refine ⟨by decide, rfl, ?_⟩
  intro x xs
  rfl

/-- C17: `KeyUpdater.GenerateHash` is SHA256 of the fact hash bytes, followed by
the bytes of each fact sign in list order, followed by the memo bytes; two
operations with the same fact hash, sign list and memo have the same generated
hash. -/
theorem KeyUpdater.GenerateHash_eq (P : Primitives) (op op2 : KeyUpdater) :
    op.GenerateHash P =
      P.NewSHA256 (op.Fact.Hash ++ ConcatBytesSlice (op.Signs.map P.factSignBytes) ++
        P.memoBytes op.Memo) ∧
    (op.Fact.Hash = op2.Fact.Hash → op.Signs = op2.Signs → op.Memo = op2.Memo →
      op.GenerateHash P = op2.GenerateHash P) := by
  refine ⟨KeyUpdater.GenerateHash_unfold P op, fun h1 h2 h3 => ?_⟩
  rw [KeyUpdater.GenerateHash_unfold, KeyUpdater.GenerateHash_unfold, h1, h2, h3]

/-- C17, at a concrete input: two operations that differ in their stored hash
only. -/
theorem KeyUpdater.GenerateHash_eq_witness :
    keyOp [1] ≠ keyOp [2] ∧
    (keyOp [1]).GenerateHash plainPrimitives = (keyOp [2]).GenerateHash plainPrimitives :=
  ⟨by decide,
   (KeyUpdater.GenerateHash_eq plainPrimitives (keyOp [1]) (keyOp [2])).2 rfl rfl rfl⟩

/-- C18: a `KeyUpdater` returned by `NewKeyUpdater` or by a successful
`AddFactSigns` has a stored hash equal to its own `GenerateHash()`, computed over
its sign list and its memo; `AddFactSigns` keeps the fact and the memo, carries
the sign list the underlying update made, and returns the error and no operation
when the underlying sign update fails. -/
theorem KeyUpdater.stored_hash (P : Primitives) (fact : KeyUpdaterFact)
    (fs add : List FactSign) (memo : String) (op : KeyUpdater) :
    (∀ nop, NewKeyUpdater P fact fs memo = .ok nop →
      nop.Hash = nop.GenerateHash P ∧ nop.Memo = memo ∧ nop.Fact = fact ∧ nop.Signs = fs) ∧
    (∀ nop, op.AddFactSigns P add = .ok nop →
      nop.Hash = nop.GenerateHash P ∧ nop.Fact = op.Fact ∧ nop.Memo = op.Memo ∧
      P.updateFactSigns op.Signs add = .ok nop.Signs) ∧
    (∀ err, P.updateFactSigns op.Signs add = .error err →
      op.AddFactSigns P add = .error err) := by
  refine ⟨?_, ?_, ?_⟩
  · intro nop h
    unfold NewKeyUpdater NewBaseOperationFromFact at h
    cases hc : P.checkFactSigns fs with
    | some err => rw [hc] at h; simp at h
    | none =>
      rw [hc] at h
      simp only [Except.ok.injEq] at h
      subst h
      exact ⟨rfl, rfl, rfl, rfl⟩
  · intro nop h
    unfold KeyUpdater.AddFactSigns BaseOperation.AddFactSigns at h
    cases hu : P.updateFactSigns op.base.fs add with
    | error err => rw [hu] at h; simp at h
    | ok nfs =>
      rw [hu] at h
      simp only [Except.ok.injEq] at h
      subst h
      exact ⟨rfl, rfl, rfl, hu⟩
  · intro err h
    unfold KeyUpdater.AddFactSigns BaseOperation.AddFactSigns
    simp only [KeyUpdater.Signs] at h
    rw [h]

/-- C18, at a concrete input: a constructed operation signed by `key-a` takes the
sign of `key-b` and refuses a second sign of `key-a`. -/
theorem KeyUpdater.stored_hash_witness :
    (∃ nop, (keyOp [1]).AddFactSigns plainPrimitives [signOf "key-b"] = .ok nop ∧
      nop.Hash = nop.GenerateHash plainPrimitives ∧ nop.Fact = keyFact ∧ nop.Memo = "memo" ∧
      nop.Signs = [signOf "key-a", signOf "key-b"]) ∧
    (keyOp [1]).AddFactSigns plainPrimitives [signOf "key-a"] =
      .error (.invalid "already signed") :=
  ⟨⟨_, rfl,
    ((KeyUpdater.stored_hash plainPrimitives keyFact [] [signOf "key-b"] "" (keyOp [1])).2.1
      _ rfl).1, rfl, rfl, rfl⟩,
   (KeyUpdater.stored_hash plainPrimitives keyFact [] [signOf "key-a"] "" (keyOp [1])).2.2
      _ rfl⟩

/-- C19, the code at the failing input: the map with the entries `SHOWME: 5` and
`FINDME: 4` at height 7, visited in its two orders, gives two facts whose
`Bytes()` and `Hash()` differ; for every byte form of heights and amounts the
bytes of the amounts follow the order of the visit. -/
theorem NewFeeOperationFact_visit_order :
    List.Perm [("SHOWME", (5 : Big)), ("FINDME", 4)] [("FINDME", 4), ("SHOWME", 5)] ∧
    (NewFeeOperationFact plainPrimitives 7 [("SHOWME", 5), ("FINDME", 4)]).Bytes plainPrimitives ≠
      (NewFeeOperationFact plainPrimitives 7 [("FINDME", 4), ("SHOWME", 5)]).Bytes
        plainPrimitives ∧
    (NewFeeOperationFact plainPrimitives 7 [("SHOWME", 5), ("FINDME", 4)]).Hash ≠
      (NewFeeOperationFact plainPrimitives 7 [("FINDME", 4), ("SHOWME", 5)]).Hash ∧
    (∀ (P : Primitives) (height : Int),
      (NewFeeOperationFact P height [("SHOWME", 5), ("FINDME", 4)]).Bytes P =
        P.heightBytes height ++ P.amountBytes { big := 5, cid := "SHOWME" } ++
          P.amountBytes { big := 4, cid := "FINDME" } ∧
      (NewFeeOperationFact P height [("FINDME", 4), ("SHOWME", 5)]).Bytes P =
        P.heightBytes height ++ P.amountBytes { big := 4, cid := "FINDME" } ++
          P.amountBytes { big := 5, cid := "SHOWME" }) := by
  refine ⟨List.Perm.swap _ _ _, by decide, by decide, ?_⟩
  intro P height
  constructor <;>
    simp [NewFeeOperationFact, FeeOperationFact.Bytes, ConcatBytesSlice, NewAmount, mapIndex]

/-- C20: two facts built by `NewKeyUpdaterFact` that agree on three of token,
target, keys and currency and whose fourth field has different byte forms have
different `Bytes()`; and two facts with different `Bytes()` have different
generated hashes unless SHA256 collides on them. -/
theorem NewKeyUpdaterFact_bytes_differ (P : Primitives) (token token2 : Bytes)
    (target target2 : Address) (keys keys2 : Keys) (currency currency2 : CurrencyID) :
    (token ≠ token2 →
      (NewKeyUpdaterFact P token target keys currency).Bytes P ≠
        (NewKeyUpdaterFact P token2 target keys currency).Bytes P) ∧
    (P.addressBytes target ≠ P.addressBytes target2 →
      (NewKeyUpdaterFact P token target keys currency).Bytes P ≠
        (NewKeyUpdaterFact P token target2 keys currency).Bytes P) ∧
    (P.keysBytes keys ≠ P.keysBytes keys2 →
      (NewKeyUpdaterFact P token target keys currency).Bytes P ≠
        (NewKeyUpdaterFact P token target keys2 currency).Bytes P) ∧
    (P.currencyBytes currency ≠ P.currencyBytes currency2 →
      (NewKeyUpdaterFact P token target keys currency).Bytes P ≠
        (NewKeyUpdaterFact P token target keys currency2).Bytes P) ∧
    (∀ f1 f2 : KeyUpdaterFact, f1.Bytes P ≠ f2.Bytes P →
      f1.GenerateHash P = f2.GenerateHash P →
      ∃ b1 b2, b1 ≠ b2 ∧ P.NewSHA256 b1 = P.NewSHA256 b2) := by
  refine ⟨?_, ?_, ?_, ?_, ?_⟩
  · intro hne h
    rw [NewKeyUpdaterFact_bytes P token target keys currency,
      NewKeyUpdaterFact_bytes P token2 target keys currency] at h
    simp only [List.append_assoc] at h
    exact hne (List.append_cancel_right h)
  · intro hne h
    rw [NewKeyUpdaterFact_bytes P token target keys currency,
      NewKeyUpdaterFact_bytes P token target2 keys currency] at h
    simp only [List.append_assoc] at h
    exact hne (List.append_cancel_right (List.append_cancel_left h))
  · intro hne h
    rw [NewKeyUpdaterFact_bytes P token target keys currency,
      NewKeyUpdaterFact_bytes P token target keys2 currency] at h
    simp only [List.append_assoc] at h
    exact hne (List.append_cancel_right (List.append_cancel_left (List.append_cancel_left h)))
  · intro hne h
    rw [NewKeyUpdaterFact_bytes P token target keys currency,
      NewKeyUpdaterFact_bytes P token target keys currency2] at h
    exact hne (List.append_cancel_left h)
  · intro f1 f2 hb hh
    exact ⟨f1.Bytes P, f2.Bytes P, hb, hh⟩

/-- C20, at a concrete input: two constructed facts that differ in the token
only. -/
theorem NewKeyUpdaterFact_bytes_differ_witness :
    ([1, 2] : Bytes) ≠ [1, 3] ∧
    (NewKeyUpdaterFact plainPrimitives [1, 2] "target" oneKey "SHOWME").Bytes plainPrimitives ≠
      (NewKeyUpdaterFact plainPrimitives [1, 3] "target" oneKey "SHOWME").Bytes plainPrimitives :=
  ⟨by decide,
   (NewKeyUpdaterFact_bytes_differ plainPrimitives [1, 2] [1, 3] "target" "target" oneKey oneKey
      "SHOWME" "SHOWME").1 (by decide)⟩

/-! ## Processing pass: lemmas -/

theorem StateKeyAccount_ne_StateKeyBalance (a b : Address) (cid : CurrencyID) :
    StateKeyAccount a ≠ StateKeyBalance b cid := by
  intro h
  have hd := congrArg String.data h
  simp only [StateKeyAccount, StateKeyBalance, String.data_append] at hd
  have hh := congrArg List.head? hd
  simp at hh

theorem Statepool.Get_key (sp : Statepool) (k : String) (st : State) (found : Bool)
    (h : sp.Get k = .ok (st, found)) : st.key = k := by
  unfold Statepool.Get at h
  cases hu : sp.updates.find? (fun st => st.key == k) with
  | some s =>
    rw [hu] at h
    simp only [Except.ok.injEq, Prod.mk.injEq] at h
    have := List.find?_some hu
    rw [← h.1]
    simpa using this
  | none =>
    rw [hu] at h
    cases hs : sp.states.find? (fun st => st.key == k) with
    | some s =>
      rw [hs] at h
      simp only [Except.ok.injEq, Prod.mk.injEq] at h
      have := List.find?_some hs
      rw [← h.1]
      simpa using this
    | none =>
      rw [hs] at h
      simp only [Except.ok.injEq, Prod.mk.injEq] at h
      rw [← h.1]

theorem Statepool.Get_Set_two (sp : Statepool) (a b : State) (k : String) :
    (sp.Set [some a, some b]).Get k =
      if a.key = k then .ok (a, true)
      else if b.key = k then .ok (b, true)
      else sp.Get k := by
  simp only [Statepool.Get, Statepool.Set, List.filterMap_cons, id, List.filterMap_nil,
    List.cons_append, List.nil_append, List.find?_cons]
  by_cases ha : a.key = k
  · simp [ha]
  · have ha2 : (a.key == k) = false := by simpa using ha
    by_cases hb : b.key = k
    · simp [ha, ha2, hb]
    · have hb2 : (b.key == k) = false := by simpa using hb
      simp [ha, ha2, hb, hb2]

theorem CurrencyPool.Exists_Set (cp : CurrencyPool) (de : CurrencyDesign) :
    (cp.Set de).Exists de.amount.cid = true := by
  simp [CurrencyPool.Exists, CurrencyPool.Design, CurrencyPool.Set]

theorem registerProcess_ok (opr : OperationProcessor) (op : CurrencyRegister)
    (h : (opr.Process op).1 = .ok ()) :
    ∃ bst bfound dst dfound,
      opr.pool.Get (StateKeyBalance op.fact.currency.genesisAccount op.fact.currency.amount.cid) =
        .ok (bst, bfound) ∧
      opr.pool.Get (StateKeyCurrencyDesign op.fact.currency.amount.cid) = .ok (dst, dfound) ∧
      (opr.Process op).2 =
        { opr with
          pool := opr.pool.Set
            [some ((NewAmountState bst op.fact.currency.amount.cid).Add
                op.fact.currency.amount.big).State,
             some { dst with value := .design op.fact.currency }]
          cp := opr.cp.map (fun cp => cp.Set op.fact.currency) } := by
  unfold OperationProcessor.Process at h ⊢
  simp only at h ⊢
  cases hpre : (CurrencyRegisterProcessor.PreProcess
      { op := op, cp := opr.cp, pubs := opr.pubs, threshold := opr.threshold }
      opr.pool.Get acceptAll).result with
  | error e => rw [hpre] at h; simp at h
  | ok p =>
    have hp : p = { op := op, cp := opr.cp, pubs := opr.pubs, threshold := opr.threshold } := by
      unfold CurrencyRegisterProcessor.PreProcess at hpre
      simp only at hpre
      repeat' split at hpre
      all_goals first
        | (simp only [reduceCtorEq] at hpre; done)
        | (simp only [Except.ok.injEq] at hpre; exact hpre.symm)
    subst hp
    rw [hpre] at h
    simp only at h ⊢
    unfold CurrencyRegisterProcessor.Process at h ⊢
    simp only at h ⊢
    cases hb : opr.pool.Get (StateKeyBalance op.fact.currency.genesisAccount
        op.fact.currency.amount.cid) with
    | error e => rw [hb] at h; simp at h
    | ok pb =>
      obtain ⟨bst, bfound⟩ := pb
      cases hd : opr.pool.Get (StateKeyCurrencyDesign op.fact.currency.amount.cid) with
      | error e => rw [hb, hd] at h; simp at h
      | ok pd =>
        obtain ⟨dst, dfound⟩ := pd
        refine ⟨bst, bfound, dst, dfound, rfl, rfl, ?_⟩
        simp [SetStateCurrencyDesignValue, acceptAll]

theorem registerPreProcess_unknown (opp : CurrencyRegisterProcessor)
    (hpool : ∀ cp, opp.cp = some cp → cp.Exists opp.op.fact.currency.amount.cid = false) :
    (match opp.cp with
      | some cp => cp.Exists opp.op.fact.currency.amount.cid
      | none => false) = false := by
  cases hcp : opp.cp with
  | none => rfl
  | some cp => simp [hpool cp hcp]

theorem registerPreProcess_ok (opp : CurrencyRegisterProcessor) (getState : GetState)
    (setState : SetState)
    (hsig : checkFactSignsByPubs opp.pubs opp.threshold opp.op.Signs = none)
    (hpool : ∀ cp, opp.cp = some cp → cp.Exists opp.op.fact.currency.amount.cid = false)
    (hga : checkExistsState (StateKeyAccount opp.op.fact.currency.genesisAccount) getState = none)
    (hrecv : ∀ r, opp.op.fact.currency.policy.feeer.Receiver = some r →
      checkExistsState (StateKeyAccount r) getState = none)
    (found : Bool) (st : State)
    (hd : getState (StateKeyCurrencyDesign opp.op.fact.currency.amount.cid) = .ok (st, found)) :
    (opp.PreProcess getState setState).result =
      if found then .error (.duplicatedCurrency opp.op.fact.currency.amount.cid)
      else .ok opp := by
  have hu := registerPreProcess_unknown opp hpool
  cases hr : opp.op.fact.currency.policy.feeer.Receiver with
  | none =>
    cases found <;>
      simp [CurrencyRegisterProcessor.PreProcess, hsig, hu, hga, hr, hd]
  | some r =>
    cases found <;>
      simp [CurrencyRegisterProcessor.PreProcess, hsig, hu, hga, hr, hrecv r hr, hd]

theorem registerPreProcess_pool_known (opp : CurrencyRegisterProcessor) (getState : GetState)
    (setState : SetState)
    (hsig : checkFactSignsByPubs opp.pubs opp.threshold opp.op.Signs = none)
    (cp : CurrencyPool) (hcp : opp.cp = some cp)
    (hex : cp.Exists opp.op.fact.currency.amount.cid = true) :
    (opp.PreProcess getState setState).result =
      .error (.duplicatedCurrency opp.op.fact.currency.amount.cid) := by
  simp [CurrencyRegisterProcessor.PreProcess, hsig, hcp, hex]

theorem registerPreProcess_genesis (opp : CurrencyRegisterProcessor) (getState : GetState)
    (setState : SetState)
    (hsig : checkFactSignsByPubs opp.pubs opp.threshold opp.op.Signs = none)
    (hpool : ∀ cp, opp.cp = some cp → cp.Exists opp.op.fact.currency.amount.cid = false)
    (st : State)
    (hga : getState (StateKeyAccount opp.op.fact.currency.genesisAccount) = .ok (st, false)) :
    (opp.PreProcess getState setState).result =
      .error (.genesisNotFound
        (.notExist (StateKeyAccount opp.op.fact.currency.genesisAccount))) := by
  have hu := registerPreProcess_unknown opp hpool
  simp [CurrencyRegisterProcessor.PreProcess, hsig, hu, checkExistsState, hga]

theorem checkFactSignsByPubs_isReasonError (pubs : List Publickey) (threshold : Threshold)
    (signs : List FactSign) (e : Err) (h : checkFactSignsByPubs pubs threshold signs = some e) :
    e.isReasonError = true := by
  unfold checkFactSignsByPubs at h
  split at h
  · simp only [Option.some.injEq] at h
    subst h
    rfl
  · split at h
    · simp only [Option.some.injEq] at h
      subst h
      rfl
    · cases h

theorem registerPreProcess_fails (opp : CurrencyRegisterProcessor) (getState : GetState)
    (setState : SetState) (st : State)
    (hga : getState (StateKeyAccount opp.op.fact.currency.genesisAccount) = .ok (st, false)) :
    ∃ e, (opp.PreProcess getState setState).result = .error e ∧ e.isReasonError = true := by
  cases hsig : checkFactSignsByPubs opp.pubs opp.threshold opp.op.Signs with
  | some e =>
    exact ⟨e, by simp [CurrencyRegisterProcessor.PreProcess, hsig],
      checkFactSignsByPubs_isReasonError _ _ _ e hsig⟩
  | none =>
    by_cases hk : (match opp.cp with
        | some cp => cp.Exists opp.op.fact.currency.amount.cid
        | none => false) = true
    · exact ⟨.duplicatedCurrency opp.op.fact.currency.amount.cid,
        by simp [CurrencyRegisterProcessor.PreProcess, hsig, hk], rfl⟩
    · exact ⟨.genesisNotFound (.notExist (StateKeyAccount opp.op.fact.currency.genesisAccount)),
        by simp [CurrencyRegisterProcessor.PreProcess, hsig, hk, checkExistsState, hga], rfl⟩

theorem registered_pool_Get (sp : Statepool) (ga : Address) (de : CurrencyDesign)
    (bst dst : State) (bfound dfound : Bool)
    (hb : sp.Get (StateKeyBalance ga de.amount.cid) = .ok (bst, bfound))
    (hd : sp.Get (StateKeyCurrencyDesign de.amount.cid) = .ok (dst, dfound)) :
    (∀ a, (sp.Set [some ((NewAmountState bst de.amount.cid).Add de.amount.big).State,
        some { dst with value := .design de }]).Get (StateKeyAccount a) =
      sp.Get (StateKeyAccount a)) ∧
    (sp.Set [some ((NewAmountState bst de.amount.cid).Add de.amount.big).State,
        some { dst with value := .design de }]).Get (StateKeyCurrencyDesign de.amount.cid) =
      .ok ({ dst with value := .design de }, true) ∧
    (sp.Set [some ((NewAmountState bst de.amount.cid).Add de.amount.big).State,
        some { dst with value := .design de }]).Get (StateKeyBalance ga de.amount.cid) =
      .ok (((NewAmountState bst de.amount.cid).Add de.amount.big).State, true) := by
  have hbk : bst.key = StateKeyBalance ga de.amount.cid := Statepool.Get_key sp _ _ _ hb
  have hdk : dst.key = StateKeyCurrencyDesign de.amount.cid := Statepool.Get_key sp _ _ _ hd
  refine ⟨fun a => ?_, ?_, ?_⟩
  · rw [Statepool.Get_Set_two]
    have h1 : ¬ ((NewAmountState bst de.amount.cid).Add de.amount.big).State.key =
        StateKeyAccount a := by
      simp only [AmountState.State, AmountState.Add, NewAmountState, hbk]
      exact fun h => StateKeyAccount_ne_StateKeyBalance a ga _ h.symm
    have h2 : ¬ ({ dst with value := .design de } : State).key = StateKeyAccount a := by
      simp only [hdk]
      exact fun h => StateKeyAccount_ne_StateKeyCurrencyDesign a _ h.symm
    rw [if_neg h1, if_neg h2]
  · rw [Statepool.Get_Set_two]
    have h1 : ¬ ((NewAmountState bst de.amount.cid).Add de.amount.big).State.key =
        StateKeyCurrencyDesign de.amount.cid := by
      simp only [AmountState.State, AmountState.Add, NewAmountState, hbk]
      exact StateKeyBalance_ne_StateKeyCurrencyDesign ga _ _
    have h2 : ({ dst with value := .design de } : State).key =
        StateKeyCurrencyDesign de.amount.cid := hdk
    rw [if_neg h1, if_pos h2]
  · rw [Statepool.Get_Set_two]
    have h1 : ((NewAmountState bst de.amount.cid).Add de.amount.big).State.key =
        StateKeyBalance ga de.amount.cid := by
      simp only [AmountState.State, AmountState.Add, NewAmountState, hbk]
    rw [if_pos h1]

theorem Statepool.Get_ok (sp : Statepool) (k : String) :
    ∃ st found, sp.Get k = .ok (st, found) := by
  unfold Statepool.Get
  cases sp.updates.find? (fun st => st.key == k) with
  | some s => exact ⟨s, true, rfl⟩
  | none =>
    cases sp.states.find? (fun st => st.key == k) with
    | some s => exact ⟨s, true, rfl⟩
    | none => exact ⟨_, false, rfl⟩

theorem registerProcess_of_PreProcess (opr : OperationProcessor) (op : CurrencyRegister)
    (hpre : (CurrencyRegisterProcessor.PreProcess
      { op := op, cp := opr.cp, pubs := opr.pubs, threshold := opr.threshold }
      opr.pool.Get acceptAll).result =
        .ok { op := op, cp := opr.cp, pubs := opr.pubs, threshold := opr.threshold }) :
    (opr.Process op).1 = .ok () := by
  obtain ⟨bst, bfound, hb⟩ := Statepool.Get_ok opr.pool
    (StateKeyBalance op.fact.currency.genesisAccount op.fact.currency.amount.cid)
  obtain ⟨dst, dfound, hd⟩ := Statepool.Get_ok opr.pool
    (StateKeyCurrencyDesign op.fact.currency.amount.cid)
  simp [OperationProcessor.Process, hpre, CurrencyRegisterProcessor.Process, hb, hd,
    SetStateCurrencyDesignValue, acceptAll]

theorem registerPreProcess_error_of_found (opp : CurrencyRegisterProcessor)
    (getState : GetState) (setState : SetState) (st : State)
    (hd : getState (StateKeyCurrencyDesign opp.op.fact.currency.amount.cid) = .ok (st, true)) :
    ∃ e, (opp.PreProcess getState setState).result = .error e := by
  unfold CurrencyRegisterProcessor.PreProcess
  simp only
  repeat' split
  all_goals first
    | exact ⟨_, rfl⟩
    | (exfalso; simp_all)

theorem Statepool.Get_not_found (sp : Statepool) (k : String) (st : State)
    (h : sp.Get k = .ok (st, false)) : st = { key := k, value := .empty } := by
  unfold Statepool.Get at h
  repeat' split at h
  all_goals simp_all

theorem occursIn_append (part pre post : List Char) :
    occursIn part (pre ++ part ++ post) = true := by
  induction pre with
  | nil =>
    cases hp : part ++ post with
    | nil =>
      obtain ⟨h1, h2⟩ := List.append_eq_nil.mp hp
      subst h1 h2
      rfl
    | cons c rest =>
      have hpre : part.isPrefixOf (c :: rest) = true := by
        rw [← hp]
        exact List.isPrefixOf_iff_prefix.mpr (List.prefix_append part post)
      simp [occursIn, hp, hpre]
  | cons c pre ih =>
    simp only [List.cons_append, occursIn, Bool.or_eq_true]
    exact Or.inr (by simpa [List.append_assoc] using ih)

/-! ## Processing pass: claims -/

/-- C21, as stated, fails: in the pass of the test, after the registration of
`FINDME` for `genesis` was processed, the fully signed registration of `FINDME`
for the account `nobody`, which has no account state, fails with the rejection of
the genesis account, not with the duplicated-currency-id error. -/
theorem OperationProcessor.Process_second_genesis_missing :
    ((passOver twoAccounts).Process (registerFindme threeKeys)).1 = .ok () ∧
    registerFindmeNobody.fact.currency.amount.cid =
      (registerFindme threeKeys).fact.currency.amount.cid ∧
    checkFactSignsByPubs threeKeys (NewThreshold 3 100) registerFindmeNobody.Signs = none ∧
    (((passOver twoAccounts).Process (registerFindme threeKeys)).2.Process
      registerFindmeNobody).1 = .error (.genesisNotFound (.notExist "account:nobody")) ∧
    (((passOver twoAccounts).Process (registerFindme threeKeys)).2.Process
      registerFindmeNobody).1 ≠ .error (.duplicatedCurrency "FINDME") := by
  refine ⟨rfl, rfl, rfl, rfl, ?_⟩
  rw [show (((passOver twoAccounts).Process (registerFindme threeKeys)).2.Process
      registerFindmeNobody).1 = .error (.genesisNotFound (.notExist "account:nobody")) from rfl]
  intro h
  cases h

/-- C21, amended: in one processing pass, after a currency registration was
processed successfully, a second registration of the same currency id always
fails and leaves the pass as it was, whatever its token, genesis account and
amount; when the second is signed up to the threshold, the error is the
duplicated-currency-id error if the pass has a currency pool, and also if the
genesis account and the fee receiver (if any) of the second exist. -/
theorem OperationProcessor.Process_same_currency
    (opr : OperationProcessor) (op0 op1 : CurrencyRegister)
    (hcid : op1.fact.currency.amount.cid = op0.fact.currency.amount.cid)
    (h0 : (opr.Process op0).1 = .ok ()) :
    (∃ e, (opr.Process op0).2.Process op1 = (.error e, (opr.Process op0).2)) ∧
    (checkFactSignsByPubs opr.pubs opr.threshold op1.Signs = none →
      ((∃ cp, opr.cp = some cp) →
        (opr.Process op0).2.Process op1 =
          (.error (.duplicatedCurrency op0.fact.currency.amount.cid), (opr.Process op0).2)) ∧
      ((∃ st, opr.pool.Get (StateKeyAccount op1.fact.currency.genesisAccount) =
          .ok (st, true)) →
        (∀ r, op1.fact.currency.policy.feeer.Receiver = some r →
          ∃ st, opr.pool.Get (StateKeyAccount r) = .ok (st, true)) →
        (opr.Process op0).2.Process op1 =
          (.error (.duplicatedCurrency op0.fact.currency.amount.cid),
            (opr.Process op0).2))) := by
  obtain ⟨bst, bfound, dst, dfound, hb, hd, hnew⟩ := registerProcess_ok opr op0 h0
  obtain ⟨hacc, hdes, -⟩ := registered_pool_Get opr.pool op0.fact.currency.genesisAccount
    op0.fact.currency bst dst bfound dfound hb hd
  rw [hnew]
  refine ⟨?_, fun hsig => ⟨?_, ?_⟩⟩
  · obtain ⟨e, he⟩ := registerPreProcess_error_of_found
      { op := op1, cp := opr.cp.map (fun cp => cp.Set op0.fact.currency), pubs := opr.pubs,
        threshold := opr.threshold }
      (opr.pool.Set [some ((NewAmountState bst op0.fact.currency.amount.cid).Add
          op0.fact.currency.amount.big).State,
        some { dst with value := .design op0.fact.currency }]).Get acceptAll
      { dst with value := .design op0.fact.currency }
      (by simp only [hcid]; exact hdes)
    exact ⟨e, by simp only [OperationProcessor.Process, he]⟩
  · rintro ⟨cp, hcp⟩
    have := registerPreProcess_pool_known
      { op := op1, cp := some (cp.Set op0.fact.currency), pubs := opr.pubs,
        threshold := opr.threshold }
      (opr.pool.Set [some ((NewAmountState bst op0.fact.currency.amount.cid).Add
          op0.fact.currency.amount.big).State,
        some { dst with value := .design op0.fact.currency }]).Get acceptAll hsig
      (cp.Set op0.fact.currency) rfl
      (by simp only [hcid]; exact CurrencyPool.Exists_Set cp op0.fact.currency)
    simp only [hcid] at this
    simp only [OperationProcessor.Process, hcp, Option.map_some', this]
  · intro hga hrecv
    cases hcp : opr.cp with
    | some cp =>
      have := registerPreProcess_pool_known
        { op := op1, cp := some (cp.Set op0.fact.currency), pubs := opr.pubs,
          threshold := opr.threshold }
        (opr.pool.Set [some ((NewAmountState bst op0.fact.currency.amount.cid).Add
            op0.fact.currency.amount.big).State,
          some { dst with value := .design op0.fact.currency }]).Get acceptAll hsig
        (cp.Set op0.fact.currency) rfl
        (by simp only [hcid]; exact CurrencyPool.Exists_Set cp op0.fact.currency)
      simp only [hcid] at this
      simp only [OperationProcessor.Process, Option.map_some', this]
    | none =>
      have := registerPreProcess_ok
        { op := op1, cp := none, pubs := opr.pubs, threshold := opr.threshold }
        (opr.pool.Set [some ((NewAmountState bst op0.fact.currency.amount.cid).Add
            op0.fact.currency.amount.big).State,
          some { dst with value := .design op0.fact.currency }]).Get acceptAll hsig
        (fun cp h => by cases h)
        (by
          rw [checkExistsState_eq_none_iff, hacc]
          exact hga)
        (fun r hr => by
          rw [checkExistsState_eq_none_iff, hacc]
          exact hrecv r hr)
        true { dst with value := .design op0.fact.currency }
        (by simp only [hcid]; exact hdes)
      simp only [hcid, if_true] at this
      simp only [OperationProcessor.Process, Option.map_none', this]

/-- C21 amended, at a concrete input: the pass of the test over two genesis
accounts, the registration of `FINDME` with 33 for `genesis` and then with 44 for
`other`. -/
theorem OperationProcessor.Process_same_currency_witness :
    ((passOver twoAccounts).Process (registerFindme threeKeys)).1 = .ok () ∧
    ((passOver twoAccounts).Process (registerFindme threeKeys)).2.Process registerFindmeAgain =
      (.error (.duplicatedCurrency "FINDME"),
        ((passOver twoAccounts).Process (registerFindme threeKeys)).2) :=
  ⟨rfl, ((OperationProcessor.Process_same_currency (passOver twoAccounts)
    (registerFindme threeKeys) registerFindmeAgain rfl rfl).2 rfl).2 ⟨_, rfl⟩
    (fun (r : Address) (h : Feeer.Receiver .nil = some r) => by cases h)⟩

/-- C22, as stated, fails: in the pass of the test, the fully signed registration
of the unregistered `FINDME` for the existing account `genesis` fails when the
fixed feeer of the design pays an account that has no account state; and when
`genesis` already holds 5 `FINDME`, the registration of `FINDME` with 33 writes a
balance state of 38, not of 33. -/
theorem OperationProcessor.Process_register_other_outcome :
    checkFactSignsByPubs threeKeys (NewThreshold 3 100) registerFindmeFee.Signs = none ∧
    (passOver twoAccounts).pool.Get (StateKeyCurrencyDesign "FINDME") =
      .ok ({ key := "currency-design:FINDME", value := .empty }, false) ∧
    (passOver twoAccounts).pool.Get (StateKeyAccount "genesis") =
      .ok ({ key := "account:genesis", value := .account "genesis" }, true) ∧
    (passOver twoAccounts).Process registerFindmeFee =
      (.error (.receiverNotFound (.notExist "account:nobody")), passOver twoAccounts) ∧
    (passOver genesisHoldsFindme).pool.Get (StateKeyCurrencyDesign "FINDME") =
      .ok ({ key := "currency-design:FINDME", value := .empty }, false) ∧
    ((passOver genesisHoldsFindme).Process (registerFindme threeKeys)).1 = .ok () ∧
    ((passOver genesisHoldsFindme).Process (registerFindme threeKeys)).2.pool.updates =
      [{ key := "balance:genesis:FINDME", value := .balance { big := 38, cid := "FINDME" } },
       { key := "currency-design:FINDME", value := .design findmeNil }] :=
  ⟨rfl, rfl, rfl, rfl, rfl, rfl, rfl⟩

/-- C22, amended: a currency registration that is signed by the operator keys up
to the threshold, for a currency id that is registered neither in the pool nor in
the state and a genesis account that exists: when the fee receiver of the design
(if any) exists, it is processed successfully, and the write-set of the pass then
holds a balance state of the genesis account in the new currency whose amount is
what the account held in that currency plus the genesis amount of the design,
which is the genesis amount when the account had no such balance state, and a
currency-design state of the new currency id whose value is the registered
design; when the fee receiver has no account state, the processing fails with
the rejection of the receiver and leaves the pass as it was. -/
theorem OperationProcessor.Process_new_currency
    (opr : OperationProcessor) (op : CurrencyRegister)
    (hsig : checkFactSignsByPubs opr.pubs opr.threshold op.Signs = none)
    (hpool : ∀ cp, opr.cp = some cp → cp.Exists op.fact.currency.amount.cid = false)
    (hnew : ∃ st, opr.pool.Get (StateKeyCurrencyDesign op.fact.currency.amount.cid) =
      .ok (st, false))
    (hga : ∃ st, opr.pool.Get (StateKeyAccount op.fact.currency.genesisAccount) =
      .ok (st, true)) :
    ((∀ r, op.fact.currency.policy.feeer.Receiver = some r →
        ∃ st, opr.pool.Get (StateKeyAccount r) = .ok (st, true)) →
      (opr.Process op).1 = .ok () ∧
      ∃ bst bfound gast dest,
        opr.pool.Get (StateKeyBalance op.fact.currency.genesisAccount
          op.fact.currency.amount.cid) = .ok (bst, bfound) ∧
        gast ∈ (opr.Process op).2.pool.updates ∧
        gast.key = StateKeyBalance op.fact.currency.genesisAccount op.fact.currency.amount.cid ∧
        StateBalanceValue gast =
          .ok { big := bst.balanceBig + op.fact.currency.amount.big,
                cid := op.fact.currency.amount.cid } ∧
        (bfound = false → StateBalanceValue gast = .ok op.fact.currency.amount) ∧
        dest ∈ (opr.Process op).2.pool.updates ∧
        dest.key = StateKeyCurrencyDesign op.fact.currency.amount.cid ∧
        StateCurrencyDesignValue dest = .ok op.fact.currency) ∧
    (∀ r st, op.fact.currency.policy.feeer.Receiver = some r →
      opr.pool.Get (StateKeyAccount r) = .ok (st, false) →
      opr.Process op = (.error (.receiverNotFound (.notExist (StateKeyAccount r))), opr)) := by
  obtain ⟨dst0, hd0⟩ := hnew
  refine ⟨fun hrecv => ?_, fun r st hr hst => ?_⟩
  · have hpre := registerPreProcess_ok
      { op := op, cp := opr.cp, pubs := opr.pubs, threshold := opr.threshold }
      opr.pool.Get acceptAll hsig hpool
      ((checkExistsState_eq_none_iff _ _).mpr hga)
      (fun r hr => (checkExistsState_eq_none_iff _ _).mpr (hrecv r hr)) false dst0 hd0
    simp only [Bool.false_eq_true, if_false] at hpre
    have hok := registerProcess_of_PreProcess opr op hpre
    obtain ⟨bst, bfound, dst, dfound, hb, hd, hnewpool⟩ := registerProcess_ok opr op hok
    have hval : StateBalanceValue ((NewAmountState bst op.fact.currency.amount.cid).Add
        op.fact.currency.amount.big).State =
        .ok { big := bst.balanceBig + op.fact.currency.amount.big,
              cid := op.fact.currency.amount.cid } := by
      simp [StateBalanceValue, AmountState.State, AmountState.Add, NewAmountState]
    refine ⟨hok, bst, bfound, ((NewAmountState bst op.fact.currency.amount.cid).Add
        op.fact.currency.amount.big).State, { dst with value := .design op.fact.currency },
      hb, ?_, ?_, hval, ?_, ?_, ?_, ?_⟩
    · rw [hnewpool]
      simp [Statepool.Set]
    · simp only [AmountState.State, AmountState.Add, NewAmountState]
      exact Statepool.Get_key _ _ _ _ hb
    · intro hf
      subst hf
      rw [hval, Statepool.Get_not_found _ _ _ hb]
      simp [State.balanceBig]
    · rw [hnewpool]
      simp [Statepool.Set]
    · exact Statepool.Get_key _ _ dst dfound hd
    · simp [StateCurrencyDesignValue]
  · have hu := registerPreProcess_unknown
      { op := op, cp := opr.cp, pubs := opr.pubs, threshold := opr.threshold } hpool
    obtain ⟨gst, hgst⟩ := hga
    simp only at hu
    simp [OperationProcessor.Process, CurrencyRegisterProcessor.PreProcess, hsig, hu, hr,
      checkExistsState, hgst, hst]

/-- C22 amended, at a concrete input: the scenario of the test: three keys at 100
percent sign the registration of `FINDME` with a genesis amount of 33 for an
account that holds 10 `SHOWME` and no `FINDME`. -/
theorem OperationProcessor.Process_new_currency_witness :
    ((passOver twoAccounts).Process (registerFindme threeKeys)).1 = .ok () ∧
    ∃ gast dest,
      gast ∈ ((passOver twoAccounts).Process (registerFindme threeKeys)).2.pool.updates ∧
      gast.key = StateKeyBalance "genesis" "FINDME" ∧
      StateBalanceValue gast = .ok { big := 33, cid := "FINDME" } ∧
      dest ∈ ((passOver twoAccounts).Process (registerFindme threeKeys)).2.pool.updates ∧
      dest.key = StateKeyCurrencyDesign "FINDME" ∧
      StateCurrencyDesignValue dest = .ok findmeNil :=
  have h := (OperationProcessor.Process_new_currency (passOver twoAccounts)
    (registerFindme threeKeys) rfl (fun cp h => by cases h) ⟨_, rfl⟩ ⟨_, rfl⟩).1
    (fun (r : Address) (h : Feeer.Receiver .nil = some r) => by cases h)
  let ⟨bst, bfound, gast, dest, hb, h1, h2, _, h4, h5, h6, h7⟩ := h.2
  have hf : bfound = false := by
    have h2 : (passOver twoAccounts).pool.Get (StateKeyBalance "genesis" "FINDME") =
        .ok ({ key := "balance:genesis:FINDME", value := .empty }, false) := rfl
    have h3 := h2.symm.trans hb
    simp only [Except.ok.injEq, Prod.mk.injEq] at h3
    exact h3.2.symm
  ⟨h.1, gast, dest, h1, h2, h4 hf, h5, h6, h7⟩

/-- C23, as stated, fails: in a pass over an empty store, the registration of
`FINDME` signed by two of the three operator keys, whose genesis account has no
account state, fails with `not enough suffrage signs`, a message that does not
say that the account does not exist. -/
theorem OperationProcessor.Process_genesis_missing_unsigned :
    (passOver []).pool.Get (StateKeyAccount "genesis") =
      .ok ({ key := "account:genesis", value := .empty }, false) ∧
    (passOver []).Process (registerFindme ["key-a", "key-b"]) =
      (.error .notEnoughSigns, passOver []) ∧
    Err.notEnoughSigns.Error = some "not enough suffrage signs" ∧
    Contains "not enough suffrage signs" "does not exist" = false :=
  ⟨rfl, rfl, rfl, by decide⟩

/-- C23, amended: processing a currency registration whose genesis account has no
account state fails with a `ReasonError` and leaves the pass as it was; when the
registration is signed up to the threshold and the pool does not know the
currency, the error is the rejection of the genesis account, whose message says
that the state of the account does not exist. -/
theorem OperationProcessor.Process_genesis_not_exist
    (opr : OperationProcessor) (op : CurrencyRegister)
    (hga : ∃ st, opr.pool.Get (StateKeyAccount op.fact.currency.genesisAccount) =
      .ok (st, false)) :
    (∃ e, opr.Process op = (.error e, opr) ∧ e.isReasonError = true) ∧
    (checkFactSignsByPubs opr.pubs opr.threshold op.Signs = none →
      (∀ cp, opr.cp = some cp → cp.Exists op.fact.currency.amount.cid = false) →
      opr.Process op =
        (.error (.genesisNotFound
          (.notExist (StateKeyAccount op.fact.currency.genesisAccount))), opr) ∧
      ∃ msg, (Err.genesisNotFound
          (.notExist (StateKeyAccount op.fact.currency.genesisAccount))).Error = some msg ∧
        Contains msg "does not exist" = true) := by
  obtain ⟨st, hst⟩ := hga
  constructor
  · obtain ⟨e, he, hr⟩ := registerPreProcess_fails
      { op := op, cp := opr.cp, pubs := opr.pubs, threshold := opr.threshold }
      opr.pool.Get acceptAll st hst
    exact ⟨e, by simp [OperationProcessor.Process, he], hr⟩
  · intro hsig hpool
    have he := registerPreProcess_genesis
      { op := op, cp := opr.cp, pubs := opr.pubs, threshold := opr.threshold }
      opr.pool.Get acceptAll hsig hpool st hst
    refine ⟨by simp [OperationProcessor.Process, he], _, rfl, ?_⟩
    have := occursIn_append "does not exist".data
      ("genesis account not found: ".data ++ ("state, ".data ++
        (quoted (StateKeyAccount op.fact.currency.genesisAccount)).data ++ [' '])) []
    simpa [Contains, String.data_append, List.append_assoc] using this

/-- C23 amended, at a concrete input: the scenario of the test: the fully signed
registration of `FINDME` in a pass over an empty store. -/
theorem OperationProcessor.Process_genesis_not_exist_witness :
    (∃ st, (passOver []).pool.Get (StateKeyAccount "genesis") = .ok (st, false)) ∧
    (passOver []).Process (registerFindme threeKeys) =
      (.error (.genesisNotFound (.notExist "account:genesis")), passOver []) ∧
    (Err.genesisNotFound (.notExist "account:genesis")).isReasonError = true ∧
    (Err.genesisNotFound (.notExist "account:genesis")).Error =
      some "genesis account not found: state, \x22account:genesis\x22 does not exist" :=
  ⟨⟨_, rfl⟩,
   ((OperationProcessor.Process_genesis_not_exist (passOver []) (registerFindme threeKeys)
      ⟨_, rfl⟩).2 rfl (fun cp h => by cases h)).1, rfl, by decide⟩

/-! ## Builder and validity: claims -/

/-- C24, the code at the failing input: for the empty token `Builder.checkToken`
returns the error `empty token` and no token, whatever the current time; the
token it replaces with the bytes of the current time is the template token, and
any other non-empty token is returned as it is. -/
theorem Builder.checkToken_empty :
    (∀ now : Bytes, Builder.checkToken now [] = .error (.emptyToken "token")) ∧
    (∀ now : Bytes, Builder.checkToken now templateToken = .ok now) ∧
    (∀ (now : Bytes) (x : Nat) (xs : List Nat),
      Builder.checkToken now (x :: xs) =
        if x :: xs = templateToken then .ok now else .ok (x :: xs)) := by
  refine ⟨fun now => rfl, fun now => rfl, fun now x xs => ?_⟩
  simp [Builder.checkToken]

/-- C25: `Builder.updateFactSigns` returns a list of the same length in the same
order; every entry keeps its signer and its signature; an entry whose signed-at
time has another `RFC3339` form than the template signed-at time is returned
unchanged (so is, when the form tells times apart, every entry whose signed-at
time is not the template one); an entry with the form of the template signed-at
time is signed anew at the current time. -/
theorem Builder.updateFactSigns_spec (RFC3339 : Nat → String) (now : Nat)
    (fss : List FactSign) :
    (Builder.updateFactSigns RFC3339 now fss).length = fss.length ∧
    ∀ (i : Nat) (fs : FactSign), fss[i]? = some fs →
      ∃ ufs, (Builder.updateFactSigns RFC3339 now fss)[i]? = some ufs ∧
        ufs.signer = fs.signer ∧ ufs.signature = fs.signature ∧
        (RFC3339 fs.signedAt ≠ RFC3339 templateSignedAt → ufs = fs) ∧
        (RFC3339 fs.signedAt = RFC3339 templateSignedAt → ufs.signedAt = now) ∧
        ((∀ t, RFC3339 t = RFC3339 templateSignedAt → t = templateSignedAt) →
          fs.signedAt ≠ templateSignedAt → ufs = fs) := by
  refine ⟨by simp [Builder.updateFactSigns], fun i fs hi => ?_⟩
  by_cases h : RFC3339 fs.signedAt = RFC3339 templateSignedAt
  · refine ⟨NewBaseFactSign now fs.signer fs.signature, ?_, rfl, rfl,
      fun hne => absurd h hne, fun _ => rfl, fun hinj hne => absurd (hinj _ h) hne⟩
    simp [Builder.updateFactSigns, hi, h]
  · refine ⟨fs, ?_, rfl, rfl, fun _ => rfl, fun he => absurd he h, fun _ _ => rfl⟩
    simp [Builder.updateFactSigns, hi, h]

/-- C25, at a concrete input: a sign made at the template time and a sign made
later, with the current time 1800000000. -/
theorem Builder.updateFactSigns_spec_witness :
    twoSigns[1]? = some { signer := "key-b", signature := [8], signedAt := 1700000000 } ∧
    Builder.updateFactSigns secondsText 1800000000 twoSigns =
      [{ signer := "key-a", signature := [7], signedAt := 1800000000 },
       { signer := "key-b", signature := [8], signedAt := 1700000000 }] ∧
    ∃ ufs, (Builder.updateFactSigns secondsText 1800000000 twoSigns)[1]? = some ufs ∧
      ufs.signer = "key-b" ∧ ufs.signature = [8] :=
  ⟨rfl, by decide,
   let ⟨ufs, h1, h2, h3, _⟩ := (Builder.updateFactSigns_spec secondsText 1800000000 twoSigns).2 1
      { signer := "key-b", signature := [8], signedAt := 1700000000 } rfl
   ⟨ufs, h1, h2, h3⟩⟩

/-- C26: `FeeOperation.IsValid` returns an error if and only if the hint is
invalid, the token of the fact is empty or longer than `operation.MaxTokenSize`,
the fact is invalid, or the stored hash of the operation differs from SHA256 of
the bytes of the fact hash; the operation `NewFeeOperation` returns stores that
hash. -/
theorem FeeOperation.IsValid_rejects_iff (P : Primitives) (hintIsValid : Option Err)
    (MaxTokenSize : Nat) (op : FeeOperation) :
    ((∃ err, op.IsValid P hintIsValid MaxTokenSize = some err) ↔
      hintIsValid ≠ none ∨ op.fact.token = [] ∨ MaxTokenSize < op.fact.token.length ∨
      op.fact.IsValid P ≠ none ∨ op.Hash ≠ P.NewSHA256 op.fact.Hash) ∧
    (∀ fact : FeeOperationFact,
      (NewFeeOperation P fact).Hash = P.NewSHA256 (NewFeeOperation P fact).fact.Hash ∧
      (NewFeeOperation P fact).fact = fact) := by
  refine ⟨?_, fun fact => ⟨rfl, rfl⟩⟩
  rw [← Option.isSome_iff_exists, ← Option.ne_none_iff_isSome]
  unfold FeeOperation.IsValid FeeOperation.GenerateHash
  cases hintIsValid with
  | some e => simp
  | none =>
    by_cases h1 : op.fact.token.length < 1
    · have : op.fact.token = [] := (length_lt_one_iff _).mp h1
      simp [this]
    · have hne : op.fact.token ≠ [] := fun h => h1 ((length_lt_one_iff _).mpr h)
      by_cases h2 : op.fact.token.length > MaxTokenSize
      · simp only [h1, if_false, h2, if_true]
        simp only [gt_iff_lt] at h2
        simp [h2]
      · simp only [h1, if_false, h2]
        have h2b : ¬ MaxTokenSize < op.fact.token.length := h2
        cases hf : op.fact.IsValid P with
        | some e => simp
        | none =>
          by_cases hh : op.Hash = P.NewSHA256 op.fact.Hash
          · simp [hne, h2b, hh]
          · simp [hne, h2b, hh]

/-- C29: `CurrencyPolicyUpdaterProcessor.PreProcess` never invokes `setState`,
and when the public key set is empty or the signature check fails it returns its
error without having invoked `getState`. -/
theorem CurrencyPolicyUpdaterProcessor.PreProcess_authorises_first
    (opp : CurrencyPolicyUpdaterProcessor) (getState : GetState) (setState : SetState) :
    (opp.PreProcess getState setState).writes = [] ∧
    (opp.pubs = [] →
      opp.PreProcess getState setState =
        { result := .error .emptyPublickeys, reads := [], writes := [] }) ∧
    (∀ err, opp.pubs ≠ [] →
      checkFactSignsByPubs opp.pubs opp.threshold opp.op.Signs = some err →
      opp.PreProcess getState setState = { result := .error err, reads := [], writes := [] }) :=
  ⟨PreProcess_writes opp getState setState,
   fun h => PreProcess_of_empty opp getState setState h,
   fun err hne h => PreProcess_of_sign_error opp getState setState hne err h⟩

/-- C29, at a concrete input: an update signed by two of three keys at 100
percent is rejected before any read. -/
theorem CurrencyPolicyUpdaterProcessor.PreProcess_authorises_first_witness :
    checkFactSignsByPubs threeKeys (NewThreshold 3 100) (["key-a", "key-b"].map signOf) =
      some .notEnoughSigns ∧
    ((updaterBy ["key-a", "key-b"]).PreProcess designStore acceptAll).reads = [] ∧
    ((updaterBy ["key-a", "key-b"]).PreProcess designStore acceptAll).writes = [] :=
  ⟨rfl,
   congrArg Run.reads ((CurrencyPolicyUpdaterProcessor.PreProcess_authorises_first
      (updaterBy ["key-a", "key-b"]) designStore acceptAll).2.2 .notEnoughSigns (by decide) rfl),
   (CurrencyPolicyUpdaterProcessor.PreProcess_authorises_first
      (updaterBy ["key-a", "key-b"]) designStore acceptAll).1⟩

/-- C27, as stated, fails: the token `[1, 97]` with the target `b` and the token
`[1]` with the target `ab`, with the same keys and currency, give two facts with
equal `Bytes()` and equal hash whose tokens and targets differ. -/
theorem NewKeyUpdaterFact_same_bytes :
    (NewKeyUpdaterFact plainPrimitives [1, 97] "b" oneKey "SHOWME").Bytes plainPrimitives =
      (NewKeyUpdaterFact plainPrimitives [1] "ab" oneKey "SHOWME").Bytes plainPrimitives ∧
    (NewKeyUpdaterFact plainPrimitives [1, 97] "b" oneKey "SHOWME").Hash =
      (NewKeyUpdaterFact plainPrimitives [1] "ab" oneKey "SHOWME").Hash ∧
    (NewKeyUpdaterFact plainPrimitives [1, 97] "b" oneKey "SHOWME").token ≠
      (NewKeyUpdaterFact plainPrimitives [1] "ab" oneKey "SHOWME").token ∧
    (NewKeyUpdaterFact plainPrimitives [1, 97] "b" oneKey "SHOWME").target ≠
      (NewKeyUpdaterFact plainPrimitives [1] "ab" oneKey "SHOWME").target := by
  decide

/-- C27, amended: two facts built by `NewKeyUpdaterFact` with equal `Bytes()`
whose tokens, target bytes and keys bytes have pairwise the same length have
equal tokens and equal byte forms of target, keys and currency. -/
theorem NewKeyUpdaterFact_bytes_determine (P : Primitives) (token token2 : Bytes)
    (target target2 : Address) (keys keys2 : Keys) (currency currency2 : CurrencyID)
    (hb : (NewKeyUpdaterFact P token target keys currency).Bytes P =
      (NewKeyUpdaterFact P token2 target2 keys2 currency2).Bytes P)
    (ht : token.length = token2.length)
    (ha : (P.addressBytes target).length = (P.addressBytes target2).length)
    (hk : (P.keysBytes keys).length = (P.keysBytes keys2).length) :
    token = token2 ∧ P.addressBytes target = P.addressBytes target2 ∧
    P.keysBytes keys = P.keysBytes keys2 ∧
    P.currencyBytes currency = P.currencyBytes currency2 := by
  rw [NewKeyUpdaterFact_bytes, NewKeyUpdaterFact_bytes] at hb
  simp only [List.append_assoc] at hb
  obtain ⟨h1, hb1⟩ := List.append_inj hb ht
  obtain ⟨h2, hb2⟩ := List.append_inj hb1 ha
  obtain ⟨h3, h4⟩ := List.append_inj hb2 hk
  exact ⟨h1, h2, h3, h4⟩

/-- C27 amended, at a concrete input: a fact compared with itself. -/
theorem NewKeyUpdaterFact_bytes_determine_witness :
    ([1, 2] : Bytes) = [1, 2] ∧
    plainPrimitives.addressBytes "target" = plainPrimitives.addressBytes "target" :=
  ⟨(NewKeyUpdaterFact_bytes_determine plainPrimitives [1, 2] [1, 2] "target" "target"
      oneKey oneKey "SHOWME" "SHOWME" rfl rfl rfl rfl).1,
   (NewKeyUpdaterFact_bytes_determine plainPrimitives [1, 2] [1, 2] "target" "target"
      oneKey oneKey "SHOWME" "SHOWME" rfl rfl rfl rfl).2.1⟩

/-! ## Fee fact of a map: lemmas -/

theorem mapIndex_of_mem (ams : List (CurrencyID × Big)) (hmap : (ams.map Prod.fst).Nodup) :
    ∀ e ∈ ams, mapIndex ams e.1 = e.2 := by
  induction ams with
  | nil => intro e he; simp at he
  | cons x xs ih =>
    intro e he
    simp only [List.map_cons, List.nodup_cons] at hmap
    rcases List.mem_cons.mp he with heq | hin
    · subst heq
      simp [mapIndex]
    · have hne : ¬ x.1 = e.1 := by
        intro h
        exact hmap.1 (h ▸ List.mem_map_of_mem Prod.fst hin)
      have hne2 : (x.1 == e.1) = false := by simpa using hne
      have := ih hmap.2 e hin
      simp only [mapIndex, List.find?_cons, hne2] at this ⊢
      exact this

theorem NewFeeOperationFact_amounts (P : Primitives) (height : Int)
    (ams : List (CurrencyID × Big)) (hmap : (ams.map Prod.fst).Nodup) :
    (NewFeeOperationFact P height ams).amounts = ams.map (fun e => NewAmount e.2 e.1) := by
  simp only [NewFeeOperationFact]
  apply List.map_congr_left
  intro e he
  rw [mapIndex_of_mem ams hmap e he]

theorem suffix_after_separator {α : Type} (x : α) :
    ∀ (a1 a2 c1 c2 : List α), x ∉ c1 → x ∉ c2 → a1 ++ x :: c1 = a2 ++ x :: c2 → c1 = c2 := by
  intro a1
  induction a1 with
  | nil =>
    intro a2 c1 c2 h1 h2 h
    cases a2 with
    | nil => simpa using h
    | cons y a2 =>
      simp only [List.nil_append, List.cons_append, List.cons.injEq] at h
      exact absurd (h.2 ▸ List.mem_append_right a2 (List.mem_cons_self x c2)) h1
  | cons y a1 ih =>
    intro a2 c1 c2 h1 h2 h
    cases a2 with
    | nil =>
      simp only [List.nil_append, List.cons_append, List.cons.injEq] at h
      exact absurd (h.2 ▸ List.mem_append_right a1 (List.mem_cons_self x c1)) h2
    | cons z a2 =>
      simp only [List.cons_append, List.cons.injEq] at h
      exact ih a2 c1 c2 h1 h2 h.2

theorem StateKeyBalance_currency (a1 a2 : Address) (c1 c2 : CurrencyID)
    (h1 : ':' ∉ c1.data) (h2 : ':' ∉ c2.data)
    (h : StateKeyBalance a1 c1 = StateKeyBalance a2 c2) : c1 = c2 := by
  have hd := congrArg String.data h
  simp only [StateKeyBalance, String.data_append, List.append_assoc] at hd
  have hd2 := List.append_cancel_left hd
  simp only [List.singleton_append] at hd2
  exact String.ext (suffix_after_separator ':' _ _ _ _ h1 h2 hd2)

theorem processAmount_ok_some (cp : Option CurrencyPool) (getState : GetState) (am : Amount)
    (st : State) (h : (FeeOperationProcessor.processAmount cp getState am).1 = .ok (some st)) :
    ∃ r st0 found, getState (StateKeyBalance r am.cid) = .ok (st0, found) ∧
      st = ((NewAmountState st0 am.cid).Add am.big).State := by
  unfold FeeOperationProcessor.processAmount at h
  cases cp with
  | none => simp at h
  | some pool =>
    simp only at h
    cases hfe : pool.Feeer am.cid with
    | none => rw [hfe] at h; simp at h
    | some feeer =>
      rw [hfe] at h
      simp only at h
      cases hr : feeer.Receiver with
      | none => rw [hr] at h; simp at h
      | some r =>
        rw [hr] at h
        simp only at h
        cases hc : checkExistsState (StateKeyAccount r) getState with
        | some e => rw [hc] at h; simp at h
        | none =>
          rw [hc] at h
          simp only at h
          cases hg : getState (StateKeyBalance r am.cid) with
          | error e => rw [hg] at h; simp at h
          | ok pr =>
            obtain ⟨st0, found⟩ := pr
            rw [hg] at h
            simp only [Except.ok.injEq, Option.some.injEq] at h
            exact ⟨r, st0, found, hg, h.symm⟩

theorem nodup_getElem?_ne {α : Type} (l : List α) (hl : l.Nodup) (i j : Nat) (a b : α)
    (hij : i ≠ j) (hi : l[i]? = some a) (hj : l[j]? = some b) : a ≠ b := by
  intro hab
  subst hab
  have hlen_i : i < l.length := by
    by_contra hc
    rw [List.getElem?_eq_none (by omega)] at hi
    cases hi
  have hlen_j : j < l.length := by
    by_contra hc
    rw [List.getElem?_eq_none (by omega)] at hj
    cases hj
  rcases Nat.lt_or_gt_of_ne hij with h | h
  · exact (List.nodup_iff_getElem?_ne_getElem?.mp hl i j h hlen_j) (hi.trans hj.symm)
  · exact (List.nodup_iff_getElem?_ne_getElem?.mp hl j i h hlen_i) (hj.trans hi.symm)

theorem Process_slot (opp : FeeOperationProcessor) (getState : GetState) (setState : SetState)
    (hkey : ∀ k st found, getState k = .ok (st, found) → st.key = k)
    (sts : List (Option State))
    (hw : (opp.Process getState setState).writes = [(opp.op.fact.h, sts)])
    (i : Nat) (st : State) (hi : sts[i]? = some (some st)) :
    ∃ am r, opp.op.fact.amounts[i]? = some am ∧ st.key = StateKeyBalance r am.cid ∧
      StateBalanceValue st = .ok { big := st.balanceBig, cid := am.cid } := by
  rcases hc : FeeOperationProcessor.collect opp.cp getState opp.op.fact.amounts with ⟨res, rs⟩
  cases res with
  | error e =>
    rw [(Process_of_collect_error opp getState setState e (by rw [hc])).2] at hw
    cases hw
  | ok sts2 =>
    rw [(Process_of_collect_ok opp getState setState sts2 rs hc).1] at hw
    simp only [List.cons.injEq, Prod.mk.injEq, true_and, and_true] at hw
    subst hw
    have hlen := collect_ok_length opp.cp getState _ sts2 rs hc
    have hlt : i < opp.op.fact.amounts.length := by
      by_contra hcon
      rw [List.getElem?_eq_none (by omega)] at hi
      cases hi
    have ham : opp.op.fact.amounts[i]? = some (opp.op.fact.amounts[i]) :=
      List.getElem?_eq_getElem hlt
    obtain ⟨slot, hslot, hp⟩ := collect_ok_get opp.cp getState _ sts2 rs hc i _ ham
    rw [hi] at hslot
    simp only [Option.some.injEq] at hslot
    subst hslot
    obtain ⟨r, st0, found, hg, hst⟩ := processAmount_ok_some opp.cp getState _ st hp
    refine ⟨opp.op.fact.amounts[i], r, ham, ?_, ?_⟩
    · rw [hst]
      simp only [AmountState.State, AmountState.Add, NewAmountState]
      exact hkey _ st0 found hg
    · rw [hst]
      simp [StateBalanceValue, AmountState.State, AmountState.Add, NewAmountState,
        State.balanceBig]

/-! ## Fee fact of a map: claims -/

/-- C28: for a map (entries with pairwise distinct currency ids) the fact
`NewFeeOperationFact` returns has exactly one amount per entry, pairing the
currency id of the entry with the value the map gives it, and the currency ids of
its amounts are pairwise distinct; so any two balance states
`FeeOperationProcessor.Process` writes for it, over a store that answers a key
with a state of that key, hold balances of different currencies, and their keys
differ when no currency id of the map contains the separator of the key. -/
theorem NewFeeOperationFact_distinct (P : Primitives) (height : Int)
    (ams : List (CurrencyID × Big)) (hmap : (ams.map Prod.fst).Nodup) :
    (NewFeeOperationFact P height ams).amounts = ams.map (fun e => NewAmount e.2 e.1) ∧
    (NewFeeOperationFact P height ams).amounts.length = ams.length ∧
    ((NewFeeOperationFact P height ams).amounts.map (fun am => am.cid)).Nodup ∧
    ∀ (opp : FeeOperationProcessor) (getState : GetState) (setState : SetState)
      (sts : List (Option State)),
      opp.op.fact = NewFeeOperationFact P height ams →
      (∀ k st found, getState k = .ok (st, found) → st.key = k) →
      (opp.Process getState setState).writes = [(opp.op.fact.h, sts)] →
      ∀ (i j : Nat) (sti stj : State), i ≠ j →
        sts[i]? = some (some sti) → sts[j]? = some (some stj) →
        (∃ ami amj, StateBalanceValue sti = .ok ami ∧ StateBalanceValue stj = .ok amj ∧
          ami.cid ≠ amj.cid) ∧
        ((∀ e ∈ ams, ':' ∉ e.1.data) → sti.key ≠ stj.key) := by
  have hamounts := NewFeeOperationFact_amounts P height ams hmap
  have hcids : (NewFeeOperationFact P height ams).amounts.map (fun am => am.cid) =
      ams.map Prod.fst := by
    rw [hamounts, List.map_map]
    rfl
  refine ⟨hamounts, by rw [hamounts, List.length_map], by rw [hcids]; exact hmap, ?_⟩
  intro opp getState setState sts hfact hkey hw i j sti stj hij hi hj
  obtain ⟨ami, ri, hai, hki, hvi⟩ := Process_slot opp getState setState hkey sts hw i sti hi
  obtain ⟨amj, rj, haj, hkj, hvj⟩ := Process_slot opp getState setState hkey sts hw j stj hj
  rw [hfact] at hai haj
  have hne : ami.cid ≠ amj.cid := by
    apply nodup_getElem?_ne _ (hcids ▸ hmap) i j _ _ hij
    · rw [List.getElem?_map, hai]
      rfl
    · rw [List.getElem?_map, haj]
      rfl
  refine ⟨⟨_, _, hvi, hvj, hne⟩, fun hsep hk => ?_⟩
  have hmem : ∀ (am : Amount) (n : Nat),
      (NewFeeOperationFact P height ams).amounts[n]? = some am → ':' ∉ am.cid.data := by
    intro am n hn
    have hin : am ∈ (NewFeeOperationFact P height ams).amounts := List.getElem?_mem hn
    rw [hamounts] at hin
    obtain ⟨e, he, heq⟩ := List.mem_map.mp hin
    rw [← heq]
    exact hsep e he
  rw [hki, hkj] at hk
  exact hne (StateKeyBalance_currency ri rj _ _ (hmem ami i hai) (hmem amj j haj) hk)

/-- C28, at a concrete input: the map with the entries `SHOWME: 5` and
`FINDME: 4` at height 7. -/
theorem NewFeeOperationFact_distinct_witness :
    ([("SHOWME", (5 : Big)), ("FINDME", 4)].map Prod.fst).Nodup ∧
    (NewFeeOperationFact plainPrimitives 7 [("SHOWME", 5), ("FINDME", 4)]).amounts =
      [{ big := 5, cid := "SHOWME" }, { big := 4, cid := "FINDME" }] :=
  ⟨by decide,
   (NewFeeOperationFact_distinct plainPrimitives 7 [("SHOWME", 5), ("FINDME", 4)]
      (by decide)).1⟩

/-! ## Builder of create-accounts facts: lemmas -/

theorem NewKeys_ok (P : Primitives) (ks nks : Keys)
    (h : NewKeys P ks.keys ks.threshold = .ok nks) : nks = ks := by
  unfold NewKeys at h
  cases hv : P.keysIsValid { keys := ks.keys, threshold := ks.threshold } with
  | some e => rw [hv] at h; cases h
  | none =>
    rw [hv] at h
    simp only [Except.ok.injEq] at h
    exact h.symm

theorem buildItems_ok (P : Primitives) :
    ∀ (l res : List BaseCreateAccountsItem),
      Builder.buildFactCreateAccounts.items P l = .ok res →
      res.length = l.length ∧
      ∀ (i : Nat) (item : BaseCreateAccountsItem), l[i]? = some item →
        ∃ am, item.amounts.head? = some am ∧
          res[i]? = some { keys := item.keys, amounts := [am] } := by
  intro l
  induction l with
  | nil =>
    intro res h
    simp only [Builder.buildFactCreateAccounts.items, Except.ok.injEq] at h
    subst h
    exact ⟨rfl, fun i item hi => by simp at hi⟩
  | cons x xs ih =>
    intro res h
    unfold Builder.buildFactCreateAccounts.items at h
    cases ha : x.amounts with
    | nil => rw [ha] at h; cases h
    | cons am rest =>
      rw [ha] at h
      simp only at h
      cases hk : NewKeys P x.keys.keys x.keys.threshold with
      | error e => rw [hk] at h; cases h
      | ok ks =>
        rw [hk] at h
        simp only at h
        cases hr : Builder.buildFactCreateAccounts.items P xs with
        | error e => rw [hr] at h; cases h
        | ok items =>
          rw [hr] at h
          simp only [Except.ok.injEq] at h
          subst h
          obtain ⟨hlen, hitems⟩ := ih items hr
          have hks := NewKeys_ok P x.keys ks hk
          subst hks
          refine ⟨by simp [hlen], fun i item hi => ?_⟩
          cases i with
          | zero =>
            simp only [List.getElem?_cons_zero, Option.some.injEq] at hi
            subst hi
            exact ⟨am, by simp [ha], by simp [NewCreateAccountsItemSingleAmount]⟩
          | succ n =>
            simp only [List.getElem?_cons_succ] at hi
            obtain ⟨am2, h1, h2⟩ := hitems n item hi
            exact ⟨am2, h1, by simpa using h2⟩

theorem buildItems_error_of_empty (P : Primitives) :
    ∀ l : List BaseCreateAccountsItem, (∃ item ∈ l, item.amounts = []) →
      ∃ e, Builder.buildFactCreateAccounts.items P l = .error e := by
  intro l hex
  cases hr : Builder.buildFactCreateAccounts.items P l with
  | error e => exact ⟨e, rfl⟩
  | ok res =>
    exfalso
    obtain ⟨item, hin, hempty⟩ := hex
    obtain ⟨i, hi⟩ := List.mem_iff_getElem?.mp hin
    obtain ⟨am, ham, -⟩ := (buildItems_ok P l res hr).2 i item hi
    rw [hempty] at ham
    cases ham

theorem buildItems_emptyAmounts (P : Primitives) :
    ∀ (pre post : List BaseCreateAccountsItem) (item : BaseCreateAccountsItem),
      item.amounts = [] →
      (∀ x ∈ pre, x.amounts ≠ [] ∧ P.keysIsValid x.keys = none) →
      Builder.buildFactCreateAccounts.items P (pre ++ item :: post) = .error .emptyAmounts := by
  intro pre
  induction pre with
  | nil =>
    intro post item hempty _
    simp [Builder.buildFactCreateAccounts.items, hempty]
  | cons x xs ih =>
    intro post item hempty hpre
    obtain ⟨hx1, hx2⟩ := hpre x (List.mem_cons_self x xs)
    have hrest := ih post item hempty (fun y hy => hpre y (List.mem_cons_of_mem x hy))
    cases ha : x.amounts with
    | nil => exact absurd ha hx1
    | cons am rest =>
      have hx3 : P.keysIsValid { keys := x.keys.keys, threshold := x.keys.threshold } = none :=
        hx2
      simp [Builder.buildFactCreateAccounts.items, ha, NewKeys, hx3, hrest]

/-! ## Builder of create-accounts facts: claims -/

/-- C30, as stated, fails: a fact with an empty token whose only item has no
amounts makes the build fail with `empty token`, not with `empty Amounts`. -/
theorem Builder.buildFactCreateAccounts_other_error :
    (∃ item ∈ factNoTokenNoAmounts.items, item.amounts = []) ∧
    Builder.buildFactCreateAccounts plainPrimitives [9] finishWith factNoTokenNoAmounts =
      .error (.emptyToken "token") ∧
    Builder.buildFactCreateAccounts plainPrimitives [9] finishWith factNoTokenNoAmounts ≠
      .error .emptyAmounts := by
  refine ⟨⟨_, List.mem_singleton.mpr rfl, rfl⟩, rfl, ?_⟩
  rw [show Builder.buildFactCreateAccounts plainPrimitives [9] finishWith factNoTokenNoAmounts =
    .error (.emptyToken "token") from rfl]
  intro h
  cases h

/-- C30, amended: when `Builder.buildFactCreateAccounts` succeeds, the items it
gives to the new fact are as many as the items of the input fact, and each
carries the keys and threshold of the input item and exactly one amount, the
first amount of the input item; an input item with no amounts makes the build
fail, and the error is `empty Amounts` when the token check passes and every
earlier item has an amount and keys that `NewKeys` accepts. -/
theorem Builder.buildFactCreateAccounts_items {α : Type} (P : Primitives) (now : Bytes)
    (finish : Bytes → Address → List BaseCreateAccountsItem → Except Err α)
    (fact : CreateAccountsFact) :
    (∀ r, Builder.buildFactCreateAccounts P now finish fact = .ok r →
      ∃ token items, Builder.checkToken now fact.token = .ok token ∧
        finish token fact.sender items = .ok r ∧
        items.length = fact.items.length ∧
        ∀ (i : Nat) (item : BaseCreateAccountsItem), fact.items[i]? = some item →
          ∃ am, item.amounts.head? = some am ∧
            items[i]? = some { keys := item.keys, amounts := [am] }) ∧
    ((∃ item ∈ fact.items, item.amounts = []) →
      ∃ e, Builder.buildFactCreateAccounts P now finish fact = .error e) ∧
    (∀ (token : Bytes) (pre post : List BaseCreateAccountsItem) (item : BaseCreateAccountsItem),
      Builder.checkToken now fact.token = .ok token →
      fact.items = pre ++ item :: post → item.amounts = [] →
      (∀ x ∈ pre, x.amounts ≠ [] ∧ P.keysIsValid x.keys = none) →
      Builder.buildFactCreateAccounts P now finish fact = .error .emptyAmounts) := by
  refine ⟨?_, ?_, ?_⟩
  · intro r h
    unfold Builder.buildFactCreateAccounts at h
    cases ht : Builder.checkToken now fact.token with
    | error e => rw [ht] at h; cases h
    | ok token =>
      rw [ht] at h
      simp only at h
      cases hi : Builder.buildFactCreateAccounts.items P fact.items with
      | error e => rw [hi] at h; cases h
      | ok items =>
        rw [hi] at h
        obtain ⟨hlen, hitems⟩ := buildItems_ok P fact.items items hi
        exact ⟨token, items, rfl, h, hlen, hitems⟩
  · intro hex
    unfold Builder.buildFactCreateAccounts
    cases ht : Builder.checkToken now fact.token with
    | error e => exact ⟨e, rfl⟩
    | ok token =>
      obtain ⟨e, he⟩ := buildItems_error_of_empty P fact.items hex
      exact ⟨e, by simp [he]⟩
  · intro token pre post item ht hitems hempty hpre
    unfold Builder.buildFactCreateAccounts
    rw [ht, hitems, buildItems_emptyAmounts P pre post item hempty hpre]

/-- C30 amended, at a concrete input: a fact of two items, the second with two
amounts: both are rebuilt with their first amount only. -/
theorem Builder.buildFactCreateAccounts_items_witness :
    Builder.buildFactCreateAccounts plainPrimitives [9] finishWith factTwoItems =
      .ok ([4], "sender",
        [{ keys := oneKey, amounts := [{ big := 1, cid := "SHOWME" }] },
         { keys := oneKey, amounts := [{ big := 2, cid := "SHOWME" }] }]) ∧
    ∃ token items, Builder.checkToken [9] factTwoItems.token = .ok token ∧
      finishWith token factTwoItems.sender items =
        .ok ([4], "sender",
          [{ keys := oneKey, amounts := [{ big := 1, cid := "SHOWME" }] },
           { keys := oneKey, amounts := [{ big := 2, cid := "SHOWME" }] }]) ∧
      items.length = factTwoItems.items.length :=
  ⟨rfl,
   let ⟨token, items, h1, h2, h3, _⟩ :=
     (Builder.buildFactCreateAccounts_items plainPrimitives [9] finishWith factTwoItems).1 _ rfl
   ⟨token, items, h1, h2, h3⟩⟩

/-! ## Operation queries: claims -/

/-- C32: for a non-empty offset that parses to `(h, i)`,
`buildOperationsFilterByOffset` returns a filter that, with `reverse` false,
selects the operation at `(H, I)` exactly when `H > h` or `H = h` and `I > i`,
and, with `reverse` true, exactly when `H < h` or `H = h` and `I < i`, so neither
selects the operation at `(h, i)`; an empty offset gives the empty filter; a
non-empty offset that does not parse gives the error of the parse. -/
theorem buildOperationsFilterByOffset_strictly_past
    (parseOffset : String → Except Err (Int × Nat)) (offset : String) (h : Int) (i : Nat)
    (hne : 0 < offset.length) (hparse : parseOffset offset = .ok (h, i)) :
    (∃ f, buildOperationsFilterByOffset parseOffset offset false = .ok f ∧
      (∀ (H : Int) (I : Nat), f.selects H I = true ↔ (H > h ∨ (H = h ∧ I > i))) ∧
      f.selects h i = false) ∧
    (∃ f, buildOperationsFilterByOffset parseOffset offset true = .ok f ∧
      (∀ (H : Int) (I : Nat), f.selects H I = true ↔ (H < h ∨ (H = h ∧ I < i))) ∧
      f.selects h i = false) ∧
    (∀ reverse, buildOperationsFilterByOffset parseOffset "" reverse = .ok .empty) ∧
    (∀ (other : String) (err : Err) (reverse : Bool), 0 < other.length →
      parseOffset other = .error err →
      buildOperationsFilterByOffset parseOffset other reverse = .error err) := by
  refine ⟨⟨.or (.heightGt h) (.and (.heightEq h) (.indexGt i)), ?_, ?_, ?_⟩,
    ⟨.or (.heightLt h) (.and (.heightEq h) (.indexLt i)), ?_, ?_, ?_⟩, ?_, ?_⟩
  · simp [buildOperationsFilterByOffset, hne, hparse]
  · intro H I
    simp [Filter.selects]
  · simp [Filter.selects]
  · simp [buildOperationsFilterByOffset, hne, hparse]
  · intro H I
    simp [Filter.selects]
  · simp [Filter.selects]
  · intro reverse
    simp [buildOperationsFilterByOffset]
  · intro other err reverse ho hp
    simp [buildOperationsFilterByOffset, ho, hp]

/-- C32 at a concrete input: the offset `3,2` parses to height 3 and index 2; the
forward filter selects `(3, 3)` and `(4, 0)` and not `(3, 2)`, the reverse
filter selects `(3, 1)` and `(2, 9)` and not `(3, 2)`. -/
theorem buildOperationsFilterByOffset_strictly_past_witness :
    0 < "3,2".length ∧ parseOnly "3,2" = .ok (3, 2) ∧
    (∃ f, buildOperationsFilterByOffset parseOnly "3,2" false = .ok f ∧
      f.selects 3 3 = true ∧ f.selects 4 0 = true ∧ f.selects 3 2 = false) ∧
    (∃ f, buildOperationsFilterByOffset parseOnly "3,2" true = .ok f ∧
      f.selects 3 1 = true ∧ f.selects 2 9 = true ∧ f.selects 3 2 = false) :=
  have hne : 0 < "3,2".length := by decide
  have hp : parseOnly "3,2" = .ok (3, 2) := rfl
  have hall := buildOperationsFilterByOffset_strictly_past parseOnly "3,2" 3 2 hne hp
  ⟨hne, hp,
   let ⟨f, h1, h2, h3⟩ := hall.1
   ⟨f, h1, (h2 3 3).mpr (Or.inr ⟨rfl, by decide⟩), (h2 4 0).mpr (Or.inl (by decide)), h3⟩,
   let ⟨f, h1, h2, h3⟩ := hall.2.1
   ⟨f, h1, (h2 3 1).mpr (Or.inr ⟨rfl, by decide⟩), (h2 2 9).mpr (Or.inl (by decide)), h3⟩⟩

/-! ## Operation builder, `BuildOperation`: lemmas -/

/-- The sign loop of `BuildOperation` passes exactly the lists without a template
signer or signature. -/
theorem checkSigns_eq_none_iff (D : BuilderDeps) (fss : List FactSign) :
    Builder.BuildOperation.checkSigns D fss = none ↔
      ∀ fs ∈ fss, fs.signer ≠ D.templatePublickey ∧ fs.signature ≠ templateSignature := by
  induction fss with
  | nil => simp [Builder.BuildOperation.checkSigns]
  | cons fs rest ih =>
    by_cases h1 : fs.signer = D.templatePublickey
    · simp [Builder.BuildOperation.checkSigns, h1]
    · by_cases h2 : fs.signature = templateSignature
      · simp [Builder.BuildOperation.checkSigns, h1, h2]
      · simp [Builder.BuildOperation.checkSigns, h1, h2, ih]

/-- An error of the sign loop of `BuildOperation` is a `Please set` error. -/
theorem checkSigns_error (D : BuilderDeps) (fss : List FactSign) (err : Err)
    (h : Builder.BuildOperation.checkSigns D fss = some err) : ∃ what, err = .pleaseSet what := by
  induction fss with
  | nil => simp [Builder.BuildOperation.checkSigns] at h
  | cons fs rest ih =>
    by_cases h1 : fs.signer = D.templatePublickey
    · simp [Builder.BuildOperation.checkSigns, h1] at h
      exact ⟨_, h.symm⟩
    · by_cases h2 : fs.signature = templateSignature
      · simp [Builder.BuildOperation.checkSigns, h1, h2] at h
        exact ⟨_, h.symm⟩
      · simp [Builder.BuildOperation.checkSigns, h1, h2] at h
        exact ih h

/-- The method `updateFactSigns` keeps a template signer or signature. -/
theorem updateFactSigns_keeps_template (RFC3339 : Nat → String) (now : Nat)
    (tpl : Publickey) (fss : List FactSign)
    (h : ∃ fs ∈ fss, fs.signer = tpl ∨ fs.signature = templateSignature) :
    ∃ fs ∈ Builder.updateFactSigns RFC3339 now fss,
      fs.signer = tpl ∨ fs.signature = templateSignature := by
  obtain ⟨fs, hmem, hfs⟩ := h
  by_cases ht : RFC3339 fs.signedAt = RFC3339 templateSignedAt
  · refine ⟨NewBaseFactSign now fs.signer fs.signature, ?_, hfs⟩
    simp only [Builder.updateFactSigns, List.mem_map]
    exact ⟨fs, hmem, by simp [ht]⟩
  · refine ⟨fs, ?_, hfs⟩
    simp only [Builder.updateFactSigns, List.mem_map]
    exact ⟨fs, hmem, by simp [ht]⟩

/-- The operation a build method returns carries the updated signs of the input
operation. -/
theorem build_ok_signs (D : BuilderDeps) (kind : OperationKind) (op nop : Operation)
    (h : Builder.build D kind op = .ok nop) :
    nop.Signs = Builder.updateFactSigns D.RFC3339 D.now op.Signs := by
  simp only [Builder.build, BuilderDeps.newOperation] at h
  cases hc : D.checkNew kind op.fact (Builder.updateFactSigns D.RFC3339 D.now op.Signs) op.Memo with
  | some err => simp [hc] at h
  | none =>
    simp only [hc] at h
    repeat' split at h
    all_goals first
      | (cases h; rfl)
      | cases h

/-! ## Operation builder, `BuildOperation`: claims -/

/-- C31, as stated, fails: an operation whose fact sign has the template
signature and whose `IsValid(networkID)` fails is rejected with the error of
`IsValid`, which is no `Please set` error. -/
theorem Builder.BuildOperation_other_error :
    strictBuilder.DecodeByHint [1, 119, 111, 108, 118, 101, 115] =
      .ok (some (operationOf [signWith "key-a" templateSignature])) ∧
    Builder.BuildOperation strictBuilder [1, 119, 111, 108, 118, 101, 115] =
      .error (.invalid "signature verification") ∧
    ∀ what, Builder.BuildOperation strictBuilder [1, 119, 111, 108, 118, 101, 115] ≠
      .error (.pleaseSet what) := by
  refine ⟨rfl, rfl, fun what => ?_⟩
  rw [show Builder.BuildOperation strictBuilder [1, 119, 111, 108, 118, 101, 115] =
    .error (.invalid "signature verification") from rfl]
  intro h
  cases h

/-- C31, amended: whenever `Builder.BuildOperation` succeeds, no fact sign of the
returned operation has the template public key as signer or the template
signature as signature; an input that decodes to an operation with such a fact
sign is always rejected, and with a `Please set` error when the build method of
its kind (constructor, `IsValid(networkID)`, fact checks) passes. -/
theorem Builder.BuildOperation_template_signs (D : BuilderDeps) (b : Bytes) :
    (∀ nop, Builder.BuildOperation D b = .ok nop →
      ∀ fs ∈ nop.Signs, fs.signer ≠ D.templatePublickey ∧ fs.signature ≠ templateSignature) ∧
    (∀ op, D.DecodeByHint b = .ok (some op) →
      (∃ fs ∈ op.Signs, fs.signer = D.templatePublickey ∨ fs.signature = templateSignature) →
      (∃ err, Builder.BuildOperation D b = .error err) ∧
      (∀ kind nop, op.kind = some kind → Builder.build D kind op = .ok nop →
        ∃ what, Builder.BuildOperation D b = .error (.pleaseSet what))) := by
  have key : ∀ op kind nop, D.DecodeByHint b = .ok (some op) → op.kind = some kind →
      Builder.build D kind op = .ok nop →
      (∃ fs ∈ op.Signs, fs.signer = D.templatePublickey ∨ fs.signature = templateSignature) →
      ∃ what, Builder.BuildOperation D b = .error (.pleaseSet what) := by
    intro op kind nop hd hk hb hex
    have hex2 := updateFactSigns_keeps_template D.RFC3339 D.now D.templatePublickey op.Signs hex
    rw [← build_ok_signs D kind op nop hb] at hex2
    cases hc : Builder.BuildOperation.checkSigns D nop.Signs with
    | none =>
      obtain ⟨fs, hmem, hfs⟩ := hex2
      have := (checkSigns_eq_none_iff D nop.Signs).mp hc fs hmem
      rcases hfs with hfs | hfs
      · exact absurd hfs this.1
      · exact absurd hfs this.2
    | some err =>
      obtain ⟨what, hw⟩ := checkSigns_error D nop.Signs err hc
      exact ⟨what, by simp [Builder.BuildOperation, hd, hk, hb, hc, hw]⟩
  refine ⟨?_, ?_⟩
  · intro nop h fs hmem
    simp only [Builder.BuildOperation] at h
    cases hd : D.DecodeByHint b with
    | error err => simp [hd] at h
    | ok o =>
      cases o with
      | none => simp [hd] at h
      | some op =>
        cases hk : op.kind with
        | none => simp [hd, hk] at h
        | some kind =>
          cases hb : Builder.build D kind op with
          | error err => simp [hd, hk, hb] at h
          | ok nop2 =>
            cases hc : Builder.BuildOperation.checkSigns D nop2.Signs with
            | some err => simp [hd, hk, hb, hc] at h
            | none =>
              simp [hd, hk, hb, hc] at h
              subst h
              exact (checkSigns_eq_none_iff D nop2.Signs).mp hc fs hmem
  · intro op hd hex
    refine ⟨?_, fun kind nop hk hb => key op kind nop hd hk hb hex⟩
    cases hk : op.kind with
    | none => exact ⟨.unknownOperation, by simp [Builder.BuildOperation, hd, hk]⟩
    | some kind =>
      cases hb : Builder.build D kind op with
      | error err => exact ⟨err, by simp [Builder.BuildOperation, hd, hk, hb]⟩
      | ok nop =>
        obtain ⟨what, hw⟩ := key op kind nop hd hk hb hex
        exact ⟨_, hw⟩

/-- C31 amended, at a concrete input: the bytes `[0, 5]` decode to an operation
signed by the template public key, whose build passes, and are rejected with
`Please set publickey`; the bytes `[1, 5]` give an operation signed by
`key-a`. -/
theorem Builder.BuildOperation_template_signs_witness :
    plainBuilder.DecodeByHint [0, 5] = .ok (some (operationOf [signWith "template-key" [5]])) ∧
    Builder.BuildOperation plainBuilder [0, 5] = .error (.pleaseSet "publickey") ∧
    (∃ what, Builder.BuildOperation plainBuilder [0, 5] = .error (.pleaseSet what)) ∧
    Builder.BuildOperation plainBuilder [1, 5] =
      .ok { kind := some .KeyUpdater, fact := [1], fs := [signWith "key-a" [5]], Memo := "",
            h := [1] } :=
  ⟨rfl, rfl,
   ((Builder.BuildOperation_template_signs plainBuilder [0, 5]).2
      (operationOf [signWith "template-key" [5]]) rfl
      ⟨signWith "template-key" [5], List.mem_singleton.mpr rfl, Or.inl rfl⟩).2
      .KeyUpdater
      { kind := some .KeyUpdater, fact := [1], fs := [signWith "template-key" [5]], Memo := "",
        h := [1] } rfl rfl,
   rfl⟩

/-! ## Currency design flags: lemmas -/

/-- The method `CurrencyFixedFeeerFlags.IsValid` leaves flags with an empty
receiver as they are. -/
theorem CurrencyFixedFeeerFlags.IsValid_fixed_empty_receiver (D : FlagDeps)
    (fl : CurrencyFixedFeeerFlags) (h : fl.Receiver = "") : fl.IsValid D = .ok fl := by
  simp [CurrencyFixedFeeerFlags.IsValid, h]

/-- The method `CurrencyRatioFeeerFlags.IsValid` leaves flags with an empty
receiver as they are. -/
theorem CurrencyRatioFeeerFlags.IsValid_ratio_empty_receiver (D : FlagDeps)
    (fl : CurrencyRatioFeeerFlags) (h : fl.Receiver = "") : fl.IsValid D = .ok fl := by
  simp [CurrencyRatioFeeerFlags.IsValid, h]

/-- When `CurrencyDesignFlags.IsValid` succeeds with the feeer type `nil` or the
empty type, the feeer of the design is the nil feeer. -/
theorem CurrencyDesignFlags.IsValid_ok_nil (D : FlagDeps) (fl out : CurrencyDesignFlags)
    (ht : fl.FeeerString = FeeerNil ∨ fl.FeeerString = "")
    (h : fl.IsValid D = .ok out) : out.currencyDesign.policy.feeer = NewNilFeeer := by
  simp only [CurrencyDesignFlags.IsValid, if_pos ht] at h
  repeat' split at h
  all_goals cases h
  all_goals simp_all

/-! ## Currency design flags: claims -/

/-- C33, as stated, fails: with the feeer type `fixed`, an empty receiver of the
fixed feeer and a receiver of the ratio feeer that does not decode,
`CurrencyDesignFlags.IsValid` fails with `invalid receiver format`, not with
`empty feeer flags`; with a feeer type that is none of the three and a receiver
of the fixed feeer that does not decode, it fails with `invalid receiver format`,
not with `unknown feeer type`. -/
theorem CurrencyDesignFlags.IsValid_other_error :
    (flagsOf "fixed" "" "bad").FeeerString = FeeerFixed ∧
    (flagsOf "fixed" "" "bad").fixed.Receiver = "" ∧
    (flagsOf "fixed" "" "bad").IsValid plainFlags = .error (.invalid "invalid receiver format") ∧
    (flagsOf "fixed" "" "bad").IsValid plainFlags ≠ .error .emptyFeeerFlags ∧
    (flagsOf "other" "bad" "").IsValid plainFlags = .error (.invalid "invalid receiver format") ∧
    (flagsOf "other" "bad" "").IsValid plainFlags ≠ .error (.unknownFeeerType "other") := by
  refine ⟨rfl, rfl, rfl, ?_, rfl, ?_⟩
  · rw [show (flagsOf "fixed" "" "bad").IsValid plainFlags =
      .error (.invalid "invalid receiver format") from rfl]
    intro h
    cases h
  · rw [show (flagsOf "other" "bad" "").IsValid plainFlags =
      .error (.invalid "invalid receiver format") from rfl]
    intro h
    cases h

/-- C33, amended: `CurrencyDesignFlags.IsValid` on flags whose feeers are not yet
set: with the feeer type `fixed` and an empty receiver of the fixed feeer, or the
type `ratio` and an empty receiver of the ratio feeer, it fails, with `empty
feeer flags` when the flags of the other feeer pass their own check; with the
type `nil` or the empty type, when it succeeds, the feeer of the design is the
nil feeer; with any other type it fails, with `unknown feeer type` when the flags
of both feeers pass their own checks. -/
theorem CurrencyDesignFlags.IsValid_feeer_type (D : FlagDeps) (fl : CurrencyDesignFlags) :
    (fl.FeeerString = FeeerFixed → fl.fixed.Receiver = "" → fl.fixed.feeer = none →
      (∃ err, fl.IsValid D = .error err) ∧
      (∀ ratio, fl.ratio.IsValid D = .ok ratio → fl.IsValid D = .error .emptyFeeerFlags)) ∧
    (fl.FeeerString = FeeerRatio → fl.ratio.Receiver = "" → fl.ratio.feeer = none →
      (∃ err, fl.IsValid D = .error err) ∧
      (∀ fixed, fl.fixed.IsValid D = .ok fixed → fl.IsValid D = .error .emptyFeeerFlags)) ∧
    ((fl.FeeerString = FeeerNil ∨ fl.FeeerString = "") →
      ∀ out, fl.IsValid D = .ok out → out.currencyDesign.policy.feeer = NewNilFeeer) ∧
    (fl.FeeerString ≠ FeeerNil → fl.FeeerString ≠ "" → fl.FeeerString ≠ FeeerFixed →
      fl.FeeerString ≠ FeeerRatio →
      (∃ err, fl.IsValid D = .error err) ∧
      (∀ fixed ratio, fl.fixed.IsValid D = .ok fixed → fl.ratio.IsValid D = .ok ratio →
        fl.IsValid D = .error (.unknownFeeerType fl.FeeerString))) := by
  refine ⟨?_, ?_, ?_, ?_⟩
  · intro ht hr hf
    have hfix := CurrencyFixedFeeerFlags.IsValid_fixed_empty_receiver D fl.fixed hr
    have hn1 : ¬ (FeeerFixed = FeeerNil ∨ FeeerFixed = "") := by decide
    have main : ∀ ratio, fl.ratio.IsValid D = .ok ratio →
        fl.IsValid D = .error .emptyFeeerFlags := by
      intro ratio hra
      simp [CurrencyDesignFlags.IsValid, hfix, hra, ht, hn1, hf]
    refine ⟨?_, main⟩
    cases hra : fl.ratio.IsValid D with
    | error err => exact ⟨err, by simp [CurrencyDesignFlags.IsValid, hfix, hra]⟩
    | ok ratio => exact ⟨_, main ratio hra⟩
  · intro ht hr hf
    have hrat := CurrencyRatioFeeerFlags.IsValid_ratio_empty_receiver D fl.ratio hr
    have hn1 : ¬ (FeeerRatio = FeeerNil ∨ FeeerRatio = "") := by decide
    have hn2 : ¬ (FeeerRatio = FeeerFixed) := by decide
    have main : ∀ fixed, fl.fixed.IsValid D = .ok fixed →
        fl.IsValid D = .error .emptyFeeerFlags := by
      intro fixed hfi
      simp [CurrencyDesignFlags.IsValid, hrat, hfi, ht, hn1, hn2, hf]
    refine ⟨?_, main⟩
    cases hfi : fl.fixed.IsValid D with
    | error err => exact ⟨err, by simp [CurrencyDesignFlags.IsValid, hfi]⟩
    | ok fixed => exact ⟨_, main fixed hfi⟩
  · intro ht out h
    exact CurrencyDesignFlags.IsValid_ok_nil D fl out ht h
  · intro h1 h2 h3 h4
    have main : ∀ fixed ratio, fl.fixed.IsValid D = .ok fixed → fl.ratio.IsValid D = .ok ratio →
        fl.IsValid D = .error (.unknownFeeerType fl.FeeerString) := by
      intro fixed ratio hfi hra
      simp [CurrencyDesignFlags.IsValid, hfi, hra, h1, h2, h3, h4]
    refine ⟨?_, main⟩
    cases hfi : fl.fixed.IsValid D with
    | error err => exact ⟨err, by simp [CurrencyDesignFlags.IsValid, hfi]⟩
    | ok fixed =>
      cases hra : fl.ratio.IsValid D with
      | error err => exact ⟨err, by simp [CurrencyDesignFlags.IsValid, hfi, hra]⟩
      | ok ratio => exact ⟨_, main fixed ratio hfi hra⟩

/-- C33 amended, at concrete inputs: the type `fixed` with no receiver fails with
`empty feeer flags`; the type `nil` succeeds with the nil feeer in the design;
the type `fixed` with the receiver `fee-receiver` succeeds with the fixed feeer
of that receiver. -/
theorem CurrencyDesignFlags.IsValid_feeer_type_witness :
    (flagsOf "fixed" "" "").IsValid plainFlags = .error .emptyFeeerFlags ∧
    (∃ out, (flagsOf "nil" "" "").IsValid plainFlags = .ok out ∧
      out.currencyDesign.policy.feeer = NewNilFeeer) ∧
    (∃ out, (flagsOf "fixed" "fee-receiver" "").IsValid plainFlags = .ok out ∧
      out.currencyDesign.policy.feeer = .fixed (some "fee-receiver") 1) :=
  ⟨((CurrencyDesignFlags.IsValid_feeer_type plainFlags (flagsOf "fixed" "" "")).1 rfl rfl rfl).2
      (flagsOf "fixed" "" "").ratio rfl,
   ⟨_, rfl, rfl⟩, ⟨_, rfl, rfl⟩⟩

end MitumCurrency
